import Mathlib

/-!
Pine bytecode virtual machine (`src/vm.c`, `include/vm.h`, `include/opcodes.h`, `src/main.c`):
a shallow embedding of the interpreter, and theorems about it.

Modelling conventions.

* `uint32_t` values are `Nat` reduced modulo `2^32`; `int32_t` and `int` values are `Int`
  wrapped into `[-2^31, 2^31)` by `to_int32` after every arithmetic operation.
* Arrays reached through a pointer (`stack.stack`, `data`, the static `output`) are functions
  from the index to the element, and every access is checked against the extent of the array:
  an access outside it, a read of the instruction stream outside the stream, a read of a
  field that was never assigned where the value decides what happens next, and a division
  that C leaves undefined all end in `undefined`: the source does not determine what happens.
* A field of an `Object` that the source leaves unassigned is `none`.
* `exit(EXIT_FAILURE)` is the outcome `fatal`, which records the state the machine was in
  when the process ended.
* What only prints (`print_data`, the colours, the trace under `DUMP_BYTECODE` with its table
  `opcode_debug_info`) is left out; the log that `run_vm` prints at its end is `drained`.
* An instruction "`X imm` at index `p`" is the opcode word at `p` followed by its immediate
  at `p + 1`; the handlers compute that index in `uint32_t`, which is `u32_add p 1`.
-/

namespace PineVM

/-! ## `include/opcodes.h` -/

def IADD : Nat := 0
def ISUB : Nat := 1
def IMUL : Nat := 2
def IDIV : Nat := 3
def IMOD : Nat := 4
def IEQ : Nat := 5
def INEQ : Nat := 6
def ILT : Nat := 7
def IGT : Nat := 8
def ILTE : Nat := 9
def IGTE : Nat := 10
def IAND : Nat := 11
def IOR : Nat := 12
def ICONST : Nat := 13
def POP : Nat := 14
def SYS_WRITE : Nat := 15
def STORE : Nat := 16
def GSTORE : Nat := 17
def LOAD : Nat := 18
def GLOAD : Nat := 19
def CHARCONST : Nat := 20
def HALT : Nat := 21
def JMP : Nat := 22
def JMPT : Nat := 23
def JMPN : Nat := 24
def CALL : Nat := 25
def RET : Nat := 26

/-! ## Machine integers -/

/-- Conversion of an integer to `uint32_t`. -/
def to_uint32 (x : Int) : Nat := (x % 4294967296).toNat

/-- Conversion of an integer to `int32_t` (two's complement wrap-around). -/
def to_int32 (x : Int) : Int := (x + 2147483648) % 4294967296 - 2147483648

/-- The values of `int32_t`. -/
def is_int32 (x : Int) : Prop := -2147483648 ≤ x ∧ x ≤ 2147483647

instance (x : Int) : Decidable (is_int32 x) := by unfold is_int32; infer_instance

/-- The `uint32_t` successor used by `vm->ip++` and `vm->ip + 1`. -/
def u32_add (a b : Nat) : Nat := (a + b) % 4294967296

/-! ## `include/vm.h` -/

/-- `struct Object`: the tag and the two members of the union the interpreter ever
touches. `none` is a member whose value the source does not determine: never assigned, or
assigned only through a different member of the union. -/
structure Object where
  type : Option Nat
  i32 : Option Int
  u8 : Option Nat
deriving DecidableEq

/-- `struct VMStack`: `stack` is the array of `size` objects allocated by
`vm_create_stack`, indexed by a C `int`. -/
structure VMStack where
  top : Int
  size : Int
  stack : Int → Object

/-- `struct VM`. -/
structure VM where
  stack : VMStack
  data : Nat → Object
  opcodes : List Int
  ip : Nat
  fp : Int
  data_size : Nat

/-! ## `src/vm.c`: file-scope state -/

/-- `struct OutputInfo`. -/
structure OutputInfo where
  o : Object
  loc : Int
deriving DecidableEq

def MAX_OUTPUT : Int := 1000

/-- The interpreter together with the file-scope variables `output` and `output_index`
that `op_syswrite` and `run_vm` use. -/
structure Machine where
  vm : VM
  output : Int → OutputInfo
  output_index : Int

/-- The two messages with which the interpreter ends the process. -/
inductive Fatal where
  /-- The `fatal_runtime_error("Cannot pop stack that is already empty")` of `vm_pop_stack`. -/
  | stack_underflow
  /-- The `exit(EXIT_FAILURE)` of `op_gload` and `op_gstore`, "Data retrieval ... out of bounds". -/
  | data_out_of_bounds
deriving DecidableEq

/-- Result of a helper that returns a value. -/
inductive Res (α : Type) where
  | ok (a : α)
  | fatal (e : Fatal)
  | undefined

/-- Result of an instruction handler on a state of type `σ`. -/
inductive Step (σ : Type) where
  | ok (s : σ)
  | fatal (e : Fatal) (s : σ)
  | undefined

/-- An object none of whose bytes was assigned (fresh `malloc` memory, a fresh local). -/
def Object.indeterminate : Object := { type := none, i32 := none, u8 := none }

/-- An object all of whose bytes are zero (`memset(vm.data, 0, ...)`). -/
def Object.zero : Object := { type := some 0, i32 := some 0, u8 := some 0 }

def vm_create_stack (size : Int) : VMStack :=
  { top := 0, size := size, stack := fun _ => Object.indeterminate }

/-- `create_vm`; the field `opcodes` is assigned by `run_vm`. -/
def create_vm (data_size : Nat) (main : Nat) : VM :=
  { stack := vm_create_stack 1028
    ip := main
    data := fun _ => Object.zero
    data_size := data_size
    fp := 0
    opcodes := [] }

def obj_push (val : Int) : Object :=
  { Object.indeterminate with i32 := some val }

/-- `vm_push_stack`: stores at index `top`, increments `top` and returns it. -/
def vm_push_stack (stack : VMStack) (object : Object) : Res (Int × VMStack) :=
  if 0 ≤ stack.top ∧ stack.top < stack.size then
    Res.ok (stack.top + 1,
      { stack with stack := Function.update stack.stack stack.top object, top := stack.top + 1 })
  else Res.undefined

def vm_pop_stack (stack : VMStack) : Res (Object × VMStack) :=
  if stack.top > 0 then
    if stack.top - 1 < stack.size then
      Res.ok (stack.stack (stack.top - 1), { stack with top := stack.top - 1 })
    else Res.undefined
  else Res.fatal Fatal.stack_underflow

def vm_peek_stack (stack : VMStack) : Res Object :=
  if 0 ≤ stack.top ∧ stack.top < stack.size then Res.ok (stack.stack stack.top)
  else Res.undefined

/-- A handler: `typedef void (*instruction)(struct VM* vm)`. -/
abbrev instruction := VM → Step VM

def op_nop : instruction := fun vm =>
  Step.ok { vm with ip := u32_add vm.ip 1 }

def op_charconst : instruction := fun vm =>
  match vm.opcodes[u32_add vm.ip 1]? with
  | none => Step.undefined
  | some w =>
    let o : Object := { type := some CHARCONST, u8 := some (w % 256).toNat, i32 := none }
    match vm_push_stack vm.stack o with
    | Res.ok (_, st) => Step.ok { vm with stack := st, ip := u32_add vm.ip 2 }
    | Res.fatal e => Step.fatal e vm
    | Res.undefined => Step.undefined

def op_iconst : instruction := fun vm =>
  match vm.opcodes[u32_add vm.ip 1]? with
  | none => Step.undefined
  | some w =>
    let o : Object := { type := some ICONST, i32 := some w, u8 := none }
    match vm_push_stack vm.stack o with
    | Res.ok (_, st) => Step.ok { vm with stack := st, ip := u32_add vm.ip 2 }
    | Res.fatal e => Step.fatal e vm
    | Res.undefined => Step.undefined

/-- The C operators `/` and `%` on `int32_t`: the quotient is truncated toward zero; division
by zero and `INT_MIN / -1` are undefined. -/
def c_div (a b : Int) : Option Int :=
  if b = 0 ∨ (a = -2147483648 ∧ b = -1) then none else some (Int.tdiv a b)

def c_mod (a b : Int) : Option Int :=
  if b = 0 ∨ (a = -2147483648 ∧ b = -1) then none else some (Int.tmod a b)

/-- The `switch (operator)` of `operate_on_operands`: the value assigned to `result.i32`
from `o1.i32` and `o2.i32`. The outer result is `Res.undefined` when the C expression has
no value that C defines; the inner `none` is a `result.i32` that is left or becomes
indeterminate. -/
def operate_i32 (operator : Char) (a b : Option Int) : Res (Option Int) :=
  match operator with
  | '+' => Res.ok (do let x ← a; let y ← b; pure (to_int32 (x + y)))
  | '-' => Res.ok (do let x ← a; let y ← b; pure (to_int32 (x - y)))
  | '*' => Res.ok (do let x ← a; let y ← b; pure (to_int32 (x * y)))
  | '/' =>
    match a, b with
    | some x, some y => match c_div x y with
      | some q => Res.ok (some q)
      | none => Res.undefined
    | _, _ => Res.undefined
  | '%' =>
    match a, b with
    | some x, some y => match c_mod x y with
      | some r => Res.ok (some r)
      | none => Res.undefined
    | _, _ => Res.undefined
  | '=' => Res.ok (do let x ← a; let y ← b; pure (if x = y then 1 else 0))
  | '!' => Res.ok (do let x ← a; let y ← b; pure (if x ≠ y then 1 else 0))
  | '<' => Res.ok (do let x ← a; let y ← b; pure (if x < y then 1 else 0))
  | '>' => Res.ok (do let x ← a; let y ← b; pure (if x > y then 1 else 0))
  | 'l' => Res.ok (do let x ← a; let y ← b; pure (if x ≤ y then 1 else 0))
  | 'g' => Res.ok (do let x ← a; let y ← b; pure (if x ≥ y then 1 else 0))
  | 'a' =>
    match a with
    | some x => if x = 0 then Res.ok (some 0)
                else Res.ok (do let y ← b; pure (if y ≠ 0 then 1 else 0))
    | none => Res.ok none
  | 'o' =>
    match a with
    | some x => if x ≠ 0 then Res.ok (some 1)
                else Res.ok (do let y ← b; pure (if y ≠ 0 then 1 else 0))
    | none => Res.ok none
  | _ => Res.ok none

def operate_on_operands (vm : VM) (operator : Char) : Step VM :=
  match vm_pop_stack vm.stack with
  | Res.fatal e => Step.fatal e vm
  | Res.undefined => Step.undefined
  | Res.ok (o2, st1) =>
    match vm_pop_stack st1 with
    | Res.fatal e => Step.fatal e { vm with stack := st1 }
    | Res.undefined => Step.undefined
    | Res.ok (o1, st2) =>
      match operate_i32 operator o1.i32 o2.i32 with
      | Res.fatal e => Step.fatal e { vm with stack := st2 }
      | Res.undefined => Step.undefined
      | Res.ok r =>
        let result : Object := { type := o2.type, i32 := r, u8 := none }
        match vm_push_stack st2 result with
        | Res.ok (_, st3) => Step.ok { vm with stack := st3, ip := u32_add vm.ip 1 }
        | Res.fatal e => Step.fatal e { vm with stack := st2 }
        | Res.undefined => Step.undefined

def op_iadd : instruction := fun vm => operate_on_operands vm '+'
def op_isub : instruction := fun vm => operate_on_operands vm '-'
def op_imul : instruction := fun vm => operate_on_operands vm '*'
def op_idiv : instruction := fun vm => operate_on_operands vm '/'
def op_imod : instruction := fun vm => operate_on_operands vm '%'
def op_ieq : instruction := fun vm => operate_on_operands vm '='
def op_ineq : instruction := fun vm => operate_on_operands vm '!'
def op_ilt : instruction := fun vm => operate_on_operands vm '<'
def op_igt : instruction := fun vm => operate_on_operands vm '>'
def op_ilte : instruction := fun vm => operate_on_operands vm 'l'
def op_igte : instruction := fun vm => operate_on_operands vm 'g'
def op_iand : instruction := fun vm => operate_on_operands vm 'a'
def op_ior : instruction := fun vm => operate_on_operands vm 'o'

/-- `op_gload`: the comparison `vm->data_size <= vm->opcodes[vm->ip + 1]` is made in
`uint32_t`, the type of `data_size`. -/
def op_gload : instruction := fun vm =>
  match vm.opcodes[u32_add vm.ip 1]? with
  | none => Step.undefined
  | some w =>
    if vm.data_size ≤ to_uint32 w then Step.fatal Fatal.data_out_of_bounds vm
    else
      let addr : Nat := to_uint32 w
      let o : Object := vm.data addr
      match vm_push_stack vm.stack o with
      | Res.ok (_, st) => Step.ok { vm with stack := st, ip := u32_add vm.ip 2 }
      | Res.fatal e => Step.fatal e vm
      | Res.undefined => Step.undefined

def op_gstore : instruction := fun vm =>
  match vm.opcodes[u32_add vm.ip 1]? with
  | none => Step.undefined
  | some w =>
    if vm.data_size ≤ to_uint32 w then Step.fatal Fatal.data_out_of_bounds vm
    else
      match vm_pop_stack vm.stack with
      | Res.fatal e => Step.fatal e vm
      | Res.undefined => Step.undefined
      | Res.ok (o, st) =>
        let addr : Nat := to_uint32 w
        Step.ok { vm with stack := st, data := Function.update vm.data addr o,
                          ip := u32_add vm.ip 2 }

/-- Index `(vm->fp - 1) + offset` of `op_load` and `op_store`, in `int32_t` arithmetic. -/
def local_index (fp offset : Int) : Int := to_int32 (to_int32 (fp - 1) + offset)

def op_load : instruction := fun vm =>
  let vm1 := { vm with ip := u32_add vm.ip 1 }
  match vm1.opcodes[vm1.ip]? with
  | none => Step.undefined
  | some offset =>
    let vm2 := { vm1 with ip := u32_add vm1.ip 1 }
    let i := local_index vm2.fp offset
    if 0 ≤ i ∧ i < vm2.stack.size then
      match vm_push_stack vm2.stack (vm2.stack.stack i) with
      | Res.ok (_, st) => Step.ok { vm2 with stack := st }
      | Res.fatal e => Step.fatal e vm2
      | Res.undefined => Step.undefined
    else Step.undefined

def op_store : instruction := fun vm =>
  let vm1 := { vm with ip := u32_add vm.ip 1 }
  match vm1.opcodes[vm1.ip]? with
  | none => Step.undefined
  | some offset =>
    let vm2 := { vm1 with ip := u32_add vm1.ip 1 }
    match vm_pop_stack vm2.stack with
    | Res.fatal e => Step.fatal e vm2
    | Res.undefined => Step.undefined
    | Res.ok (o, st) =>
      let i := local_index vm2.fp offset
      if 0 ≤ i ∧ i < st.size then
        Step.ok { vm2 with stack := { st with stack := Function.update st.stack i o } }
      else Step.undefined

def op_jmp : instruction := fun vm =>
  match vm.opcodes[u32_add vm.ip 1]? with
  | none => Step.undefined
  | some w => Step.ok { vm with ip := to_uint32 w }

def op_jmpt : instruction := fun vm =>
  match vm_pop_stack vm.stack with
  | Res.fatal e => Step.fatal e vm
  | Res.undefined => Step.undefined
  | Res.ok (o, st) =>
    match o.i32 with
    | none => Step.undefined
    | some c =>
      if c ≠ 0 then
        match vm.opcodes[u32_add vm.ip 1]? with
        | none => Step.undefined
        | some w => Step.ok { vm with stack := st, ip := to_uint32 w }
      else Step.ok { vm with stack := st, ip := u32_add vm.ip 2 }

def op_jmpn : instruction := fun vm =>
  match vm_pop_stack vm.stack with
  | Res.fatal e => Step.fatal e vm
  | Res.undefined => Step.undefined
  | Res.ok (o, st) =>
    match o.i32 with
    | none => Step.undefined
    | some c =>
      if c = 0 then
        match vm.opcodes[u32_add vm.ip 1]? with
        | none => Step.undefined
        | some w => Step.ok { vm with stack := st, ip := to_uint32 w }
      else Step.ok { vm with stack := st, ip := u32_add vm.ip 2 }

def op_pop : instruction := fun vm =>
  match vm_pop_stack vm.stack with
  | Res.fatal e => Step.fatal e vm
  | Res.undefined => Step.undefined
  | Res.ok (_, st) => Step.ok { vm with stack := st, ip := u32_add vm.ip 1 }

def op_call : instruction := fun vm =>
  let vm1 := { vm with ip := u32_add vm.ip 1 }
  match vm1.opcodes[vm1.ip]? with
  | none => Step.undefined
  | some w1 =>
    let vm2 := { vm1 with ip := u32_add vm1.ip 1 }
    match vm2.opcodes[vm2.ip]? with
    | none => Step.undefined
    | some w2 =>
      let num_args : Object := { Object.indeterminate with i32 := some w2 }
      match vm_push_stack vm2.stack num_args with
      | Res.fatal e => Step.fatal e vm2
      | Res.undefined => Step.undefined
      | Res.ok (_, st1) =>
        match vm_push_stack st1 (obj_push vm2.fp) with
        | Res.fatal e => Step.fatal e { vm2 with stack := st1 }
        | Res.undefined => Step.undefined
        | Res.ok (_, st2) =>
          match vm_push_stack st2 (obj_push (to_int32 vm2.ip)) with
          | Res.fatal e => Step.fatal e { vm2 with stack := st2 }
          | Res.undefined => Step.undefined
          | Res.ok (_, st3) =>
            Step.ok { vm2 with stack := st3, fp := to_int32 st3.top, ip := to_uint32 w1 }

def op_ret : instruction := fun vm =>
  match vm_pop_stack vm.stack with
  | Res.fatal e => Step.fatal e vm
  | Res.undefined => Step.undefined
  | Res.ok (ret, st0) =>
    let st1 : VMStack := { st0 with top := vm.fp }
    match vm_pop_stack st1 with
    | Res.fatal e => Step.fatal e { vm with stack := st1 }
    | Res.undefined => Step.undefined
    | Res.ok (o_ip, st2) =>
      match o_ip.i32 with
      | none => Step.undefined
      | some saved_ip =>
        let vm1 := { vm with stack := st2, ip := to_uint32 saved_ip }
        match vm_pop_stack st2 with
        | Res.fatal e => Step.fatal e vm1
        | Res.undefined => Step.undefined
        | Res.ok (o_fp, st3) =>
          match o_fp.i32 with
          | none => Step.undefined
          | some saved_fp =>
            let vm2 := { vm1 with stack := st3, fp := saved_fp }
            match vm_pop_stack st3 with
            | Res.fatal e => Step.fatal e vm2
            | Res.undefined => Step.undefined
            | Res.ok (o_args, st4) =>
              match o_args.i32 with
              | none => Step.undefined
              | some args =>
                let st5 : VMStack := { st4 with top := to_int32 (st4.top - args) }
                match vm_push_stack st5 ret with
                | Res.fatal e => Step.fatal e { vm2 with stack := st5 }
                | Res.undefined => Step.undefined
                | Res.ok (_, st6) => Step.ok { vm2 with stack := st6, ip := u32_add vm2.ip 1 }

/-- A handler seen as a function of the whole machine: the handlers other than
`op_syswrite` touch no file-scope variable. -/
def on_vm (h : instruction) : Machine → Step Machine := fun m =>
  match h m.vm with
  | Step.ok vm => Step.ok { m with vm := vm }
  | Step.fatal e vm => Step.fatal e { m with vm := vm }
  | Step.undefined => Step.undefined

def op_syswrite : Machine → Step Machine := fun m =>
  match vm_pop_stack m.vm.stack with
  | Res.fatal e => Step.fatal e m
  | Res.undefined => Step.undefined
  | Res.ok (o, st) =>
    let output_index : Int := if m.output_index = MAX_OUTPUT then 0 else m.output_index
    if 0 ≤ output_index ∧ output_index < MAX_OUTPUT then
      Step.ok
        { vm := { m.vm with stack := st, ip := u32_add m.vm.ip 1 }
          output := Function.update m.output output_index { o := o, loc := to_int32 m.vm.ip }
          output_index := output_index + 1 }
    else Step.undefined

/-- The table `ops` as `init_vm` leaves it: every entry is first set to `op_nop`, then
the registered opcodes are assigned in the order of the source. -/
def init_vm : Nat → Machine → Step Machine :=
  let ops : Nat → Machine → Step Machine := fun _ => on_vm op_nop
  let ops := Function.update ops CHARCONST (on_vm op_charconst)
  let ops := Function.update ops SYS_WRITE op_syswrite
  let ops := Function.update ops ICONST (on_vm op_iconst)
  let ops := Function.update ops POP (on_vm op_pop)
  let ops := Function.update ops IADD (on_vm op_iadd)
  let ops := Function.update ops ISUB (on_vm op_isub)
  let ops := Function.update ops IMUL (on_vm op_imul)
  let ops := Function.update ops IDIV (on_vm op_idiv)
  let ops := Function.update ops IMOD (on_vm op_imod)
  let ops := Function.update ops IEQ (on_vm op_ieq)
  let ops := Function.update ops INEQ (on_vm op_ineq)
  let ops := Function.update ops ILT (on_vm op_ilt)
  let ops := Function.update ops IGT (on_vm op_igt)
  let ops := Function.update ops IGTE (on_vm op_igte)
  let ops := Function.update ops ILTE (on_vm op_ilte)
  let ops := Function.update ops IAND (on_vm op_iand)
  let ops := Function.update ops IOR (on_vm op_ior)
  let ops := Function.update ops GLOAD (on_vm op_gload)
  let ops := Function.update ops GSTORE (on_vm op_gstore)
  let ops := Function.update ops JMP (on_vm op_jmp)
  let ops := Function.update ops JMPT (on_vm op_jmpt)
  let ops := Function.update ops JMPN (on_vm op_jmpn)
  let ops := Function.update ops CALL (on_vm op_call)
  let ops := Function.update ops RET (on_vm op_ret)
  let ops := Function.update ops LOAD (on_vm op_load)
  let ops := Function.update ops STORE (on_vm op_store)
  ops

/-- The call `ops[vm.opcodes[vm.ip]](&vm)` of `run_vm` for the opcode word `w`: the table
has 256 entries. -/
def dispatch (w : Int) (m : Machine) : Step Machine :=
  if 0 ≤ w ∧ w < 256 then init_vm w.toNat m else Step.undefined

/-- How the loop of `run_vm` ends. -/
inductive Run where
  /-- The word at `ip` is `HALT`, after `steps` handlers have run. -/
  | halted (steps : Nat) (m : Machine)
  | fatal (e : Fatal) (m : Machine)
  | undefined
  /-- The loop is still running after `fuel` handlers. -/
  | running (m : Machine)

/-- One iteration of `while (vm.opcodes[vm.ip] != HALT)`: `none` when the loop exits. The
trace printed under `DUMP_BYTECODE` moves `ip` and puts it back, and is left out. -/
def step (m : Machine) : Option (Step Machine) :=
  match m.vm.opcodes[m.vm.ip]? with
  | none => some Step.undefined
  | some w => if w = HALT then none else some (dispatch w m)

/-- The loop of `run_vm`, run for at most `fuel` handlers; `n` counts the handlers run. -/
def run_loop : Nat → Nat → Machine → Run
  | 0, n, m =>
    match step m with
    | none => Run.halted n m
    | some _ => Run.running m
  | fuel + 1, n, m =>
    match step m with
    | none => Run.halted n m
    | some (Step.ok m1) => run_loop fuel (n + 1) m1
    | some (Step.fatal e m1) => Run.fatal e m1
    | some Step.undefined => Run.undefined

/-- The entries printed by the loop `for (i = 0; i < output_index; i++)` that ends `run_vm`. -/
def drained (m : Machine) : List OutputInfo :=
  (List.range m.output_index.toNat).map (fun i : Nat => m.output (i : Int))

/-- The end of `run_vm`, after its loop: the entries of the log below `output_index` are
printed and the stack and the data segment are freed. Neither `output` nor `output_index` is
assigned. The result is what is printed and the file-scope state that is left. -/
def after_loop (m : Machine) : List OutputInfo × Machine := (drained m, m)

/-- The file-scope variables when the process starts: `output_index = 0`, and static storage
is zero. -/
def Machine.startup : Machine :=
  { vm := create_vm 0 0
    output := fun _ => { o := Object.zero, loc := 0 }
    output_index := 0 }

/-- `run_vm` up to the end of its loop, in a process whose file-scope variables are those of
`g`: `create_vm` replaces the interpreter, `output` and `output_index` are kept. -/
def run_vm (g : Machine) (data_size : Nat) (opcodes : List Int) (main_ip : Nat)
    (fuel : Nat) : Run :=
  run_loop fuel 0 { g with vm := { create_vm data_size main_ip with opcodes := opcodes } }

/-! ## Concrete states and programs used in the statements below -/

/-- The program of `main.c`. -/
def program : List Int := [ICONST, 3, ICONST, 12, IADD, SYS_WRITE, HALT]

/-- The caller pushes `a` then `b` and calls the function at index 8 with two arguments; the
function loads both arguments, adds them and returns. -/
def two_arg_call (a b : Int) : List Int :=
  [ICONST, a, ICONST, b, CALL, 8, 2, HALT, LOAD, -4, LOAD, -3, IADD, RET]

/-- A stack on which `ICONST` is about to overflow: 1028 slots, all in use. -/
def full_vm : VM :=
  { create_vm 0 0 with
    opcodes := [ICONST, 7, HALT]
    stack := { vm_create_stack 1028 with top := 1028 } }

/-- One `ICONST 7` on an empty stack. -/
def iconst_vm : VM := { create_vm 0 0 with opcodes := [ICONST, 7, HALT] }

/-- A state in which `JMPT 9` and `JMPN 9` at index 0 find the value 5 on top of the stack. -/
def jump_vm : VM :=
  { create_vm 0 0 with
    opcodes := [JMPT, 9, HALT]
    stack := { vm_create_stack 1028 with
      top := 1
      stack := Function.update (fun _ => Object.indeterminate) 0
        { type := some ICONST, i32 := some 5, u8 := none } } }

/-- A state with three global slots in which `GSTORE 2; GLOAD 2` finds a value on the stack. -/
def global_vm : VM :=
  { create_vm 3 0 with
    opcodes := [GSTORE, 2, GLOAD, 2, HALT]
    stack := { vm_create_stack 1028 with
      top := 1
      stack := Function.update (fun _ => Object.indeterminate) 0
        { type := some ICONST, i32 := some 5, u8 := none } } }

/-- A data segment of `2^32 - 1` slots and the instruction `GLOAD -2` (or `GSTORE -2`, the
handlers do not read the opcode word), with one value on the stack. -/
def huge_data_vm : VM :=
  { create_vm 4294967295 0 with
    opcodes := [GLOAD, -2, HALT]
    stack := { vm_create_stack 1028 with
      top := 1
      stack := Function.update (fun _ => Object.indeterminate) 0
        { type := some ICONST, i32 := some 5, u8 := none } } }

/-- An empty stack, one global slot, and a one-immediate instruction with immediate 0 at
index 0 (read as `STORE 0` or as `GSTORE 0`). -/
def empty_vm : VM := { create_vm 1 0 with opcodes := [STORE, 0, HALT] }

/-- The state of `two_arg_call 40 2` after `ICONST 40; ICONST 2`, about to execute
`CALL 8 2` at index 4. -/
def call_vm : VM :=
  { create_vm 0 4 with
    opcodes := two_arg_call 40 2
    stack := { vm_create_stack 1028 with
      top := 2
      stack := Function.update (Function.update (fun _ => Object.indeterminate) 0
        { type := some ICONST, i32 := some 40, u8 := none }) 1
        { type := some ICONST, i32 := some 2, u8 := none } } }

/-- A state of the callee entered from `call_vm`, about to execute `RET` at index 13 with the
return value 42 on top of the linkage `2, 0, 6`. -/
def ret_vm : VM :=
  { create_vm 0 13 with
    opcodes := two_arg_call 40 2
    fp := 5
    stack := { vm_create_stack 1028 with
      top := 6
      stack := fun i =>
        if i = 0 then { type := some ICONST, i32 := some 40, u8 := none }
        else if i = 1 then { type := some ICONST, i32 := some 2, u8 := none }
        else if i = 2 then { Object.indeterminate with i32 := some 2 }
        else if i = 3 then obj_push 0
        else if i = 4 then obj_push 6
        else if i = 5 then { type := some ICONST, i32 := some 42, u8 := none }
        else Object.indeterminate } }

/-- One value on the stack and a binary operator to execute. -/
def one_value_vm : VM :=
  { create_vm 0 0 with
    opcodes := [IADD, HALT]
    stack := { vm_create_stack 1028 with
      top := 1
      stack := Function.update (fun _ => Object.indeterminate) 0
        { type := some ICONST, i32 := some 5, u8 := none } } }

/-- Three global slots and the instruction `GLOAD 3` (or `GSTORE 3`), on an empty stack. -/
def out_of_range_vm : VM := { create_vm 3 0 with opcodes := [GSTORE, 3, HALT] }

/-- What C4 says of the state `v` reached from `vm` by `ICONST a; ICONST b; <op>`, where `vm2`
is the state in which the opcode executes and `r` the expected `i32`: the depth is one more
than in `vm`, the slots below are those of `vm`, the new top value has `i32 = r`, and the
opcode has advanced `ip` by 1 (modulo `2^32`). -/
def binary_result (vm vm2 v : VM) (r : Int) : Prop :=
  v.stack.top = vm.stack.top + 1 ∧
    (∀ i, i < vm.stack.top → v.stack.stack i = vm.stack.stack i) ∧
    (v.stack.stack vm.stack.top).i32 = some r ∧
    v.ip = (vm2.ip + 1) % 4294967296

/-- `ICONST a; ICONST b; <op>` at index 0 on an empty stack. -/
def arith_vm (a b : Int) : VM := { create_vm 0 0 with opcodes := [ICONST, a, ICONST, b, IADD, HALT] }

/-- The machine after exactly `n` iterations of the loop of `run_vm`, when none of them ends the
process or is undefined and the loop does not exit before. -/
def iterate_loop : Nat → Machine → Option Machine
  | 0, m => some m
  | n + 1, m =>
    match step m with
    | some (Step.ok m1) => iterate_loop n m1
    | _ => none

/-- What the `SYS_WRITE` instructions among the first `n` iterations from `m` are given to
emit, in the order in which they execute: for each, the value on top of the stack and the
instruction pointer (as the `int` stored in `loc`) at the time it executes. -/
def emitted : Nat → Machine → List OutputInfo
  | 0, _ => []
  | n + 1, m =>
    match step m with
    | some (Step.ok m1) =>
      if m.vm.opcodes[m.vm.ip]? = some (SYS_WRITE : Int) then
        { o := m.vm.stack.stack (m.vm.stack.top - 1), loc := to_int32 m.vm.ip } :: emitted n m1
      else emitted n m1
    | _ => []

/-- `ICONST 3; ICONST 12; IADD` at index 0 with 1027 of the 1028 slots in use. -/
def nearly_full_vm : VM :=
  { create_vm 0 0 with
    opcodes := [ICONST, 3, ICONST, 12, IADD, HALT]
    stack := { vm_create_stack 1028 with top := 1027 } }

/-- Whether a handler returned normally. -/
def Step.is_ok {σ : Type} : Step σ → Bool
  | Step.ok _ => true
  | _ => false

/-- What C14 says of the state `v` reached from `vm` by a comparison or logical opcode whose
expected truth value is `r`: both operands are gone and one result is there (depth one less),
the result slot has `i32 = r`, which is 0 or 1, the slots below are those of `vm`, and `ip`
has advanced by 1 (modulo `2^32`). -/
def truth_result (vm v : VM) (r : Int) : Prop :=
  v.stack.top = vm.stack.top - 1 ∧
    (v.stack.stack (vm.stack.top - 2)).i32 = some r ∧
    (r = 0 ∨ r = 1) ∧
    (∀ i, i < vm.stack.top - 2 → v.stack.stack i = vm.stack.stack i) ∧
    v.ip = (vm.ip + 1) % 4294967296

/-- Two values, 3 pushed first and 12 second, and a binary opcode to execute. -/
def two_values_vm : VM :=
  { create_vm 0 0 with
    opcodes := [ILT, HALT]
    stack := { vm_create_stack 1028 with
      top := 2
      stack := Function.update (Function.update (fun _ => Object.indeterminate) 0
        { type := some ICONST, i32 := some 3, u8 := none }) 1
        { type := some ICONST, i32 := some 12, u8 := none } } }

/-- Two immediates `p`, `q` at indices 1 and 3 and `IADD` at index 4, on an empty stack: the
handlers of `CHARCONST p; ICONST q; IADD` and of `ICONST p; CHARCONST q; IADD` read only the
immediates. -/
def tag_vm (p q : Int) : VM :=
  { create_vm 0 0 with opcodes := [CHARCONST, p, ICONST, q, IADD, HALT] }

/-- A frame with `fp = 3` whose slot `(fp - 1) + (-2) = 0` holds 40, two values on the stack,
and `STORE -2; LOAD -2` at index 0. -/
def local_vm : VM :=
  { create_vm 0 0 with
    opcodes := [STORE, -2, LOAD, -2, HALT]
    fp := 3
    stack := { vm_create_stack 1028 with
      top := 2
      stack := Function.update (Function.update (fun _ => Object.indeterminate) 0
        { type := some ICONST, i32 := some 40, u8 := none }) 1
        { type := some ICONST, i32 := some 2, u8 := none } } }

/-- `LOAD 0` with `fp = 1`, so that the slot addressed is 0, on a stack whose 1028 slots are
all in use. -/
def full_load_vm : VM :=
  { create_vm 0 0 with
    opcodes := [LOAD, 0, HALT]
    fp := 1
    stack := { vm_create_stack 1028 with top := 1028 } }

/-- The value C18 gives for `output_index` after `k` writes to a log that was empty: 0 before
the first write, and `((k - 1) mod 1000) + 1` after the `k`-th. -/
def index_after (k : Nat) : Int := if k = 0 then 0 else ((k - 1) % 1000 : Nat) + 1

/-- A program that never halts: it pushes 7, writes it to the log and jumps back. -/
def writer_loop : List Int := [ICONST, 7, SYS_WRITE, JMP, 0]

/-- The state in which `run_vm` enters its loop on `writer_loop` in a fresh process. -/
def writer_machine : Machine :=
  { Machine.startup with vm := { create_vm 0 0 with opcodes := writer_loop } }

/-- The stack cursor invariant of C11. -/
def cursor_ok (st : VMStack) : Prop := 0 ≤ st.top ∧ st.top ≤ st.size

/-- What every handler that returns leaves as it was, the capacity of the stack, together with
the invariant it keeps: the instruction stream, the data segment and its size (`GSTORE` apart,
which has its own statement), and the stack cursor within `0..size`. -/
def ok_effect (vm v : VM) : Prop :=
  v.opcodes = vm.opcodes ∧ v.data_size = vm.data_size ∧ v.data = vm.data ∧
    v.stack.size = vm.stack.size ∧ (cursor_ok vm.stack → cursor_ok v.stack)

/-- What a handler that ends the process leaves as it was. -/
def fatal_effect (vm v : VM) : Prop :=
  v.opcodes = vm.opcodes ∧ v.data_size = vm.data_size ∧ v.data = vm.data

/-- The handlers of the table other than `op_gstore` and `op_syswrite`. -/
def plain_handlers : List instruction :=
  [op_nop, op_charconst, op_iconst, op_pop, op_iadd, op_isub, op_imul, op_idiv, op_imod,
   op_ieq, op_ineq, op_ilt, op_igt, op_igte, op_ilte, op_iand, op_ior, op_gload, op_jmp,
   op_jmpt, op_jmpn, op_call, op_ret, op_load, op_store]

/-- The states that handlers of the table lead to from the state in which `run_vm` enters its
loop, as long as every handler returns with all its accesses inside the arrays (`Step.ok`): a
handler that ends in a fatal error, or that stores or reads outside the stack array, has no
successor here. Any entry of the table may be executed in any state reached, whatever the word
at `ip`. -/
inductive Reachable (g : Machine) (ds main : Nat) (ops : List Int) : Machine → Prop where
  | init : Reachable g ds main ops { g with vm := { create_vm ds main with opcodes := ops } }
  | handler (m m1 : Machine) (w : Nat) :
      Reachable g ds main ops m → init_vm w m = Step.ok m1 → Reachable g ds main ops m1

/-- The state in which `run_vm` enters its loop on `program` in a fresh process. -/
def program_machine : Machine :=
  { Machine.startup with vm := { create_vm 0 0 with opcodes := program } }

/-- The state of a fresh process after the first handler of `program`, `ICONST 3`. -/
def first_push_machine : Machine :=
  { vm :=
      { stack :=
          { top := 1
            size := 1028
            stack := Function.update (fun _ => Object.indeterminate) 0
              { type := some ICONST, i32 := some 3, u8 := none } }
        data := fun _ => Object.zero
        opcodes := program
        ip := 2
        fp := 0
        data_size := 0 }
    output := fun _ => { o := Object.zero, loc := 0 }
    output_index := 0 }

/-- A program that never halts and never pops: it pushes 7 and jumps back. -/
def pusher_loop : List Int := [ICONST, 7, JMP, 0]

/-- The stack array after `k` rounds of `pusher_loop`: the slots below `k` hold 7. -/
def pushed : Nat → Int → Object
  | 0 => fun _ => Object.indeterminate
  | k + 1 =>
    Function.update (pushed k) (k : Int) { type := some ICONST, i32 := some 7, u8 := none }

/-- The state of a fresh process after `k` rounds of `pusher_loop`. -/
def pusher_machine (k : Nat) : Machine :=
  { vm :=
      { stack := { top := (k : Int), size := 1028, stack := pushed k }
        data := fun _ => Object.zero
        opcodes := pusher_loop
        ip := 0
        fp := 0
        data_size := 0 }
    output := fun _ => { o := Object.zero, loc := 0 }
    output_index := 0 }

/-- A call at index 0 on the empty stack that declares `n` arguments; the callee at index 3
pushes 1 and returns. -/
def ret_args (n : Int) : List Int := [CALL, 3, n, ICONST, 1, RET, HALT]

/-! ## Arithmetic of the machine integers -/

theorem to_int32_of_is_int32 (x : Int) (h : is_int32 x) : to_int32 x = x := by
  unfold is_int32 at h
  unfold to_int32
  omega

theorem is_int32_to_int32 (x : Int) : is_int32 (to_int32 x) := by
  unfold is_int32 to_int32
  omega

theorem to_uint32_lt (x : Int) : to_uint32 x < 4294967296 := by
  unfold to_uint32
  omega

theorem to_uint32_of_nonneg (x : Int) (h0 : 0 ≤ x) (h1 : x < 4294967296) :
    (to_uint32 x : Int) = x := by
  unfold to_uint32
  omega

theorem to_uint32_to_int32_cast (n : Nat) (h : n < 4294967296) :
    to_uint32 (to_int32 (n : Int)) = n := by
  unfold to_uint32 to_int32
  omega

theorem u32_add_lt (a b : Nat) : u32_add a b < 4294967296 := by
  unfold u32_add
  omega

theorem u32_add_of_lt (a b : Nat) (h : a + b < 4294967296) : u32_add a b = a + b := by
  unfold u32_add
  omega

theorem u32_add_add (a b c : Nat) : u32_add (u32_add a b) c = u32_add a (b + c) := by
  unfold u32_add
  omega

/-! ## The stack primitives -/

theorem vm_push_stack_ok (st : VMStack) (o : Object) (h0 : 0 ≤ st.top) (h1 : st.top < st.size) :
    vm_push_stack st o = Res.ok (st.top + 1,
      { st with stack := Function.update st.stack st.top o, top := st.top + 1 }) := by
  simp [vm_push_stack, h0, h1]

theorem vm_push_stack_full (st : VMStack) (o : Object) (h : st.size ≤ st.top) :
    vm_push_stack st o = Res.undefined := by
  have : ¬ st.top < st.size := by omega
  simp [vm_push_stack, this]

theorem vm_pop_stack_ok (st : VMStack) (h0 : 0 < st.top) (h1 : st.top ≤ st.size) :
    vm_pop_stack st = Res.ok (st.stack (st.top - 1), { st with top := st.top - 1 }) := by
  have : st.top - 1 < st.size := by omega
  simp [vm_pop_stack, h0, this]

theorem vm_pop_stack_empty (st : VMStack) (h : st.top ≤ 0) :
    vm_pop_stack st = Res.fatal Fatal.stack_underflow := by
  have : ¬ st.top > 0 := by omega
  simp [vm_pop_stack, this]

/-! ## The handlers on states in which they succeed -/

theorem op_iconst_eq (vm : VM) (v : Int) (himm : vm.opcodes[u32_add vm.ip 1]? = some v)
    (h0 : 0 ≤ vm.stack.top) (hcap : vm.stack.top < vm.stack.size) :
    op_iconst vm = Step.ok { vm with
      stack := { vm.stack with
        stack := Function.update vm.stack.stack vm.stack.top
          { type := some ICONST, i32 := some v, u8 := none }
        top := vm.stack.top + 1 }
      ip := u32_add vm.ip 2 } := by
  simp only [op_iconst, himm, vm_push_stack_ok _ _ h0 hcap]

/-- C10 (as amended): in a state whose stack is not full (`0 ≤ top < size`), `ICONST v`
advances `ip` by 2 (in `uint32_t` arithmetic, so by exactly 2 unless it wraps), increases the
depth by exactly 1, the new top value is tagged `ICONST` with `i32 = v`, and every other
stack slot, `fp`, the data segment and the instruction stream are unchanged. -/
theorem op_iconst_spec (vm : VM) (v : Int)
    (himm : vm.opcodes[u32_add vm.ip 1]? = some v)
    (h0 : 0 ≤ vm.stack.top) (hcap : vm.stack.top < vm.stack.size) :
    ∃ vm1, op_iconst vm = Step.ok vm1 ∧
      vm1.ip = (vm.ip + 2) % 4294967296 ∧
      (vm.ip + 2 < 4294967296 → vm1.ip = vm.ip + 2) ∧
      vm1.stack.top = vm.stack.top + 1 ∧
      vm1.stack.stack vm.stack.top = { type := some ICONST, i32 := some v, u8 := none } ∧
      (∀ i, i ≠ vm.stack.top → vm1.stack.stack i = vm.stack.stack i) ∧
      vm1.stack.size = vm.stack.size ∧
      vm1.fp = vm.fp ∧ vm1.data = vm.data ∧ vm1.data_size = vm.data_size ∧
      vm1.opcodes = vm.opcodes := by
  refine ⟨_, op_iconst_eq vm v himm h0 hcap, rfl, fun h => u32_add_of_lt _ _ h, rfl, ?_, ?_,
    rfl, rfl, rfl, rfl, rfl⟩
  · simp
  · intro i hi
    simp [Function.update_noteq hi]

theorem op_iconst_spec_witness :
    ∃ vm1, op_iconst iconst_vm = Step.ok vm1 ∧
      vm1.ip = (iconst_vm.ip + 2) % 4294967296 ∧
      (iconst_vm.ip + 2 < 4294967296 → vm1.ip = iconst_vm.ip + 2) ∧
      vm1.stack.top = iconst_vm.stack.top + 1 ∧
      vm1.stack.stack iconst_vm.stack.top = { type := some ICONST, i32 := some 7, u8 := none } ∧
      (∀ i, i ≠ iconst_vm.stack.top → vm1.stack.stack i = iconst_vm.stack.stack i) ∧
      vm1.stack.size = iconst_vm.stack.size ∧
      vm1.fp = iconst_vm.fp ∧ vm1.data = iconst_vm.data ∧
      vm1.data_size = iconst_vm.data_size ∧ vm1.opcodes = iconst_vm.opcodes :=
  op_iconst_spec iconst_vm 7 (by decide) (by decide) (by decide)

/-- C10 fails as stated: on a stack whose 1028 slots are all in use, `ICONST 7` stores
outside the array, and no state with depth 1029 results. -/
theorem op_iconst_full_stack :
    full_vm.stack.top = full_vm.stack.size ∧ full_vm.opcodes[u32_add full_vm.ip 1]? = some 7 ∧
      op_iconst full_vm = Step.undefined ∧
      ¬ ∃ vm1, op_iconst full_vm = Step.ok vm1 ∧ vm1.stack.top = full_vm.stack.top + 1 := by
  have h : op_iconst full_vm = Step.undefined := by
    simp [op_iconst, full_vm, create_vm, vm_create_stack, vm_push_stack, u32_add, ICONST, HALT]
  refine ⟨by decide, by decide, h, ?_⟩
  rintro ⟨vm1, h1, -⟩
  rw [h] at h1
  cases h1

theorem op_jmpt_eq (vm : VM) (x t : Int) (h0 : 0 < vm.stack.top)
    (h1 : vm.stack.top ≤ vm.stack.size)
    (hx : (vm.stack.stack (vm.stack.top - 1)).i32 = some x)
    (himm : vm.opcodes[u32_add vm.ip 1]? = some t) :
    op_jmpt vm = Step.ok { vm with
      stack := { vm.stack with top := vm.stack.top - 1 }
      ip := if x ≠ 0 then to_uint32 t else u32_add vm.ip 2 } := by
  simp only [op_jmpt, vm_pop_stack_ok _ h0 h1, hx, himm]
  split <;> rfl

theorem op_jmpn_eq (vm : VM) (x t : Int) (h0 : 0 < vm.stack.top)
    (h1 : vm.stack.top ≤ vm.stack.size)
    (hx : (vm.stack.stack (vm.stack.top - 1)).i32 = some x)
    (himm : vm.opcodes[u32_add vm.ip 1]? = some t) :
    op_jmpn vm = Step.ok { vm with
      stack := { vm.stack with top := vm.stack.top - 1 }
      ip := if x = 0 then to_uint32 t else u32_add vm.ip 2 } := by
  simp only [op_jmpn, vm_pop_stack_ok _ h0 h1, hx, himm]
  split <;> rfl

theorem op_gstore_eq (vm : VM) (w : Int) (h0 : 0 < vm.stack.top)
    (h1 : vm.stack.top ≤ vm.stack.size)
    (himm : vm.opcodes[u32_add vm.ip 1]? = some w) (hw : to_uint32 w < vm.data_size) :
    op_gstore vm = Step.ok { vm with
      stack := { vm.stack with top := vm.stack.top - 1 }
      data := Function.update vm.data (to_uint32 w) (vm.stack.stack (vm.stack.top - 1))
      ip := u32_add vm.ip 2 } := by
  have hn : ¬ vm.data_size ≤ to_uint32 w := by omega
  simp only [op_gstore, himm, hn, if_false, vm_pop_stack_ok _ h0 h1]

theorem op_gload_eq (vm : VM) (w : Int) (h0 : 0 ≤ vm.stack.top)
    (h1 : vm.stack.top < vm.stack.size)
    (himm : vm.opcodes[u32_add vm.ip 1]? = some w) (hw : to_uint32 w < vm.data_size) :
    op_gload vm = Step.ok { vm with
      stack := { vm.stack with
        stack := Function.update vm.stack.stack vm.stack.top (vm.data (to_uint32 w))
        top := vm.stack.top + 1 }
      ip := u32_add vm.ip 2 } := by
  have hn : ¬ vm.data_size ≤ to_uint32 w := by omega
  simp only [op_gload, himm, hn, if_false, vm_push_stack_ok _ _ h0 h1]

/-! ## C8: conditional jumps -/

/-- C8: on a non-empty stack whose top value has `i32 = x`, `JMPT t` and `JMPN t` at index
`p = ip` each pop exactly one slot (`top` decreases by 1; the slots, `fp` and the data segment
are unchanged); `JMPT` sets `ip` to `t` when `x ≠ 0` and to `p + 2` otherwise, `JMPN` sets `ip`
to `t` when `x = 0` and to `p + 2` otherwise, so on the same state exactly one of them jumps
and the other falls through. `ip` is a `uint32_t`: `t` is converted to it and `p + 2` is
taken modulo `2^32`. -/
theorem conditional_jumps (vm : VM) (x t : Int) (h0 : 0 < vm.stack.top)
    (h1 : vm.stack.top ≤ vm.stack.size)
    (hx : (vm.stack.stack (vm.stack.top - 1)).i32 = some x)
    (himm : vm.opcodes[u32_add vm.ip 1]? = some t) :
    ∃ vt vn, op_jmpt vm = Step.ok vt ∧ op_jmpn vm = Step.ok vn ∧
      vt.stack.top = vm.stack.top - 1 ∧ vn.stack.top = vm.stack.top - 1 ∧
      vt.stack.stack = vm.stack.stack ∧ vn.stack.stack = vm.stack.stack ∧
      vt.fp = vm.fp ∧ vn.fp = vm.fp ∧ vt.data = vm.data ∧ vn.data = vm.data ∧
      (x ≠ 0 → vt.ip = to_uint32 t ∧ vn.ip = (vm.ip + 2) % 4294967296) ∧
      (x = 0 → vt.ip = (vm.ip + 2) % 4294967296 ∧ vn.ip = to_uint32 t) ∧
      (0 ≤ t → t < 4294967296 → (to_uint32 t : Int) = t) ∧
      (vm.ip + 2 < 4294967296 → (vm.ip + 2) % 4294967296 = vm.ip + 2) := by
  refine ⟨_, _, op_jmpt_eq vm x t h0 h1 hx himm, op_jmpn_eq vm x t h0 h1 hx himm,
    rfl, rfl, rfl, rfl, rfl, rfl, rfl, rfl, ?_, ?_, to_uint32_of_nonneg t, ?_⟩
  · intro hne
    simp [hne, u32_add]
  · intro he
    simp [he, u32_add]
  · intro h
    omega

theorem conditional_jumps_witness :
    ∃ vt vn, op_jmpt jump_vm = Step.ok vt ∧ op_jmpn jump_vm = Step.ok vn ∧
      vt.stack.top = jump_vm.stack.top - 1 ∧ vn.stack.top = jump_vm.stack.top - 1 ∧
      vt.stack.stack = jump_vm.stack.stack ∧ vn.stack.stack = jump_vm.stack.stack ∧
      vt.fp = jump_vm.fp ∧ vn.fp = jump_vm.fp ∧ vt.data = jump_vm.data ∧
      vn.data = jump_vm.data ∧
      ((5 : Int) ≠ 0 → vt.ip = to_uint32 9 ∧ vn.ip = (jump_vm.ip + 2) % 4294967296) ∧
      ((5 : Int) = 0 → vt.ip = (jump_vm.ip + 2) % 4294967296 ∧ vn.ip = to_uint32 9) ∧
      ((0 : Int) ≤ 9 → (9 : Int) < 4294967296 → (to_uint32 9 : Int) = 9) ∧
      (jump_vm.ip + 2 < 4294967296 → (jump_vm.ip + 2) % 4294967296 = jump_vm.ip + 2) :=
  conditional_jumps jump_vm 5 9 (by decide) (by decide) (by decide) (by decide)

/-! ## C5: global store and load -/

/-- C5: for an address `w` with `0 ≤ w < data_size` and a non-empty stack with top value
`v`, `GSTORE w` followed by `GLOAD w` leaves `data[w] = v`, pushes `v` back so that the stack
(cursor and slots) is the one before the `GSTORE`, and advances `ip` by 4 in total (modulo
`2^32`, `ip` being a `uint32_t`). -/
theorem gstore_gload_round_trip (vm : VM) (w : Int)
    (hds : vm.data_size < 4294967296)
    (h0 : 0 < vm.stack.top) (h1 : vm.stack.top ≤ vm.stack.size)
    (hw0 : 0 ≤ w) (hw1 : w < vm.data_size)
    (hs : vm.opcodes[u32_add vm.ip 1]? = some w)
    (hl : vm.opcodes[u32_add (u32_add vm.ip 2) 1]? = some w) :
    ∃ vm1 vm2, op_gstore vm = Step.ok vm1 ∧ op_gload vm1 = Step.ok vm2 ∧
      vm1.stack.top = vm.stack.top - 1 ∧
      vm2.data w.toNat = vm.stack.stack (vm.stack.top - 1) ∧
      vm2.stack.stack (vm.stack.top - 1) = vm.stack.stack (vm.stack.top - 1) ∧
      vm2.stack = vm.stack ∧
      vm2.ip = (vm.ip + 4) % 4294967296 ∧
      (vm.ip + 4 < 4294967296 → vm2.ip = vm.ip + 4) ∧
      vm2.data_size = vm.data_size ∧ vm2.fp = vm.fp := by
  have hu : to_uint32 w = w.toNat := by
    unfold to_uint32
    omega
  have hlt : to_uint32 w < vm.data_size := by omega
  have e1 := op_gstore_eq vm w h0 h1 hs hlt
  have e2 := op_gload_eq
    { vm with
      stack := { vm.stack with top := vm.stack.top - 1 }
      data := Function.update vm.data (to_uint32 w) (vm.stack.stack (vm.stack.top - 1))
      ip := u32_add vm.ip 2 } w
    (by show (0 : Int) ≤ vm.stack.top - 1; omega)
    (by show vm.stack.top - 1 < vm.stack.size; omega) hl hlt
  have hip : u32_add (u32_add vm.ip 2) 2 = (vm.ip + 4) % 4294967296 := by
    rw [u32_add_add]
    rfl
  refine ⟨_, _, e1, e2, rfl, ?_, ?_, ?_, hip, ?_, rfl, rfl⟩
  · show Function.update vm.data (to_uint32 w) _ w.toNat = _
    rw [hu, Function.update_same]
  · simp
  · obtain ⟨st, dt, oc, ip, fp, ds⟩ := vm
    obtain ⟨top, size, stack⟩ := st
    simp
  · intro h
    show u32_add (u32_add vm.ip 2) 2 = _
    rw [hip]
    omega

theorem gstore_gload_round_trip_witness :
    ∃ vm1 vm2, op_gstore global_vm = Step.ok vm1 ∧ op_gload vm1 = Step.ok vm2 ∧
      vm1.stack.top = global_vm.stack.top - 1 ∧
      vm2.data (2 : Int).toNat = global_vm.stack.stack (global_vm.stack.top - 1) ∧
      vm2.stack.stack (global_vm.stack.top - 1) =
        global_vm.stack.stack (global_vm.stack.top - 1) ∧
      vm2.stack = global_vm.stack ∧
      vm2.ip = (global_vm.ip + 4) % 4294967296 ∧
      (global_vm.ip + 4 < 4294967296 → vm2.ip = global_vm.ip + 4) ∧
      vm2.data_size = global_vm.data_size ∧ vm2.fp = global_vm.fp :=
  gstore_gload_round_trip global_vm 2 (by decide) (by decide) (by decide) (by decide)
    (by decide) (by decide) (by decide)

theorem op_call_eq (vm : VM) (target nargs : Int)
    (hT : vm.opcodes[u32_add vm.ip 1]? = some target)
    (hN : vm.opcodes[u32_add (u32_add vm.ip 1) 1]? = some nargs)
    (h0 : 0 ≤ vm.stack.top) (hcap : vm.stack.top + 3 ≤ vm.stack.size) :
    op_call vm = Step.ok { vm with
      stack := { vm.stack with
        stack := Function.update (Function.update (Function.update vm.stack.stack
          vm.stack.top { Object.indeterminate with i32 := some nargs })
          (vm.stack.top + 1) (obj_push vm.fp))
          (vm.stack.top + 1 + 1) (obj_push (to_int32 (u32_add (u32_add vm.ip 1) 1)))
        top := vm.stack.top + 1 + 1 + 1 }
      fp := to_int32 (vm.stack.top + 1 + 1 + 1)
      ip := to_uint32 target } := by
  have a1 : vm.stack.top < vm.stack.size := by omega
  have a2 : vm.stack.top + 1 < vm.stack.size := by omega
  have a3 : vm.stack.top + 1 + 1 < vm.stack.size := by omega
  have b2 : (0 : Int) ≤ vm.stack.top + 1 := by omega
  have b3 : (0 : Int) ≤ vm.stack.top + 1 + 1 := by omega
  simp only [op_call, hT, hN, vm_push_stack, h0, a1, a2, a3, b2, b3, and_self, if_true]

theorem op_ret_eq (vm : VM) (sip sfp args : Int)
    (h0 : 0 < vm.stack.top) (h1 : vm.stack.top ≤ vm.stack.size)
    (hf0 : 3 ≤ vm.fp) (hf1 : vm.fp ≤ vm.stack.size)
    (hip : (vm.stack.stack (vm.fp - 1)).i32 = some sip)
    (hfp : (vm.stack.stack (vm.fp - 1 - 1)).i32 = some sfp)
    (hargs : (vm.stack.stack (vm.fp - 1 - 1 - 1)).i32 = some args)
    (ht0 : 0 ≤ to_int32 (vm.fp - 1 - 1 - 1 - args))
    (ht1 : to_int32 (vm.fp - 1 - 1 - 1 - args) < vm.stack.size) :
    op_ret vm = Step.ok { vm with
      stack := { vm.stack with
        stack := Function.update vm.stack.stack (to_int32 (vm.fp - 1 - 1 - 1 - args))
          (vm.stack.stack (vm.stack.top - 1))
        top := to_int32 (vm.fp - 1 - 1 - 1 - args) + 1 }
      fp := sfp
      ip := u32_add (to_uint32 sip) 1 } := by
  have a1 : vm.stack.top - 1 < vm.stack.size := by omega
  have c1 : vm.fp > 0 := by omega
  have c2 : vm.fp - 1 < vm.stack.size := by omega
  have c3 : vm.fp - 1 > 0 := by omega
  have c4 : vm.fp - 1 - 1 < vm.stack.size := by omega
  have c5 : vm.fp - 1 - 1 > 0 := by omega
  have c6 : vm.fp - 1 - 1 - 1 < vm.stack.size := by omega
  simp only [op_ret, vm_pop_stack, vm_push_stack, h0, a1, c1, c2, c3, c4, c5, c6, hip, hfp,
    hargs, ht0, ht1, and_self, if_true, gt_iff_lt]

/-! ## C1: `CALL` followed by `RET` -/

/-- C1: let `CALL target nargs` stand at index `c = ip` in a state with stack top `T` and
frame pointer `F0`, with `0 ≤ nargs ≤ T` and `T + 3` within the capacity. The call succeeds and
sets `fp = T + 3`. If afterwards `RET` executes in any state `s2` in which `fp` is still
`T + 3`, the three linkage slots `T`, `T + 1`, `T + 2` are as the call wrote them and a return
value `v` lies on top (`top > T + 3`), then after that `RET` the stack top is `T - nargs + 1`,
the top slot holds `v`, `fp = F0` and `ip = c + 3` (in `uint32_t` arithmetic). Nothing is
assumed about how `s2` was reached, so the statement holds at every call depth. -/
theorem call_ret_restores_caller (s0 : VM) (target nargs : Int)
    (hT : s0.opcodes[u32_add s0.ip 1]? = some target)
    (hN : s0.opcodes[u32_add (u32_add s0.ip 1) 1]? = some nargs)
    (hn0 : 0 ≤ nargs) (hn1 : nargs ≤ s0.stack.top)
    (hcap : s0.stack.top + 3 ≤ s0.stack.size) (hsize : s0.stack.size ≤ 2147483647) :
    ∃ s1, op_call s0 = Step.ok s1 ∧ s1.fp = s0.stack.top + 3 ∧
      s1.stack.top = s0.stack.top + 3 ∧
      ∀ s2 : VM, s2.fp = s0.stack.top + 3 → s2.stack.size = s0.stack.size →
        s2.stack.stack s0.stack.top = s1.stack.stack s0.stack.top →
        s2.stack.stack (s0.stack.top + 1) = s1.stack.stack (s0.stack.top + 1) →
        s2.stack.stack (s0.stack.top + 2) = s1.stack.stack (s0.stack.top + 2) →
        s0.stack.top + 3 < s2.stack.top → s2.stack.top ≤ s2.stack.size →
        ∃ s3, op_ret s2 = Step.ok s3 ∧
          s3.stack.top = s0.stack.top - nargs + 1 ∧
          s3.stack.stack (s0.stack.top - nargs) = s2.stack.stack (s2.stack.top - 1) ∧
          s3.fp = s0.fp ∧
          s3.ip = (s0.ip + 3) % 4294967296 ∧
          (s0.ip + 3 < 4294967296 → s3.ip = s0.ip + 3) := by
  have hT0 : 0 ≤ s0.stack.top := by omega
  refine ⟨_, op_call_eq s0 target nargs hT hN hT0 hcap, ?_, ?_, ?_⟩
  · show to_int32 (s0.stack.top + 1 + 1 + 1) = _
    rw [to_int32_of_is_int32 _ (by unfold is_int32; omega)]
    omega
  · show s0.stack.top + 1 + 1 + 1 = _
    omega
  · intro s2 hfp hsz hs0 hs1 hs2 htop hle
    have e0 : s2.fp - 1 - 1 - 1 = s0.stack.top := by omega
    have e1 : s2.fp - 1 - 1 = s0.stack.top + 1 := by omega
    have e2 : s2.fp - 1 = s0.stack.top + 2 := by omega
    have k0 : (s2.stack.stack (s2.fp - 1 - 1 - 1)).i32 = some nargs := by
      rw [e0, hs0]
      dsimp only
      rw [Function.update_noteq (by omega), Function.update_noteq (by omega),
        Function.update_same]
    have k1 : (s2.stack.stack (s2.fp - 1 - 1)).i32 = some s0.fp := by
      rw [e1, hs1]
      dsimp only
      rw [Function.update_noteq (by omega), Function.update_same]
      rfl
    have k2 : (s2.stack.stack (s2.fp - 1)).i32
        = some (to_int32 (u32_add (u32_add s0.ip 1) 1)) := by
      have e3 : s0.stack.top + 2 = s0.stack.top + 1 + 1 := by omega
      rw [e2, hs2, e3]
      dsimp only
      rw [Function.update_same]
      rfl
    have kt : to_int32 (s2.fp - 1 - 1 - 1 - nargs) = s0.stack.top - nargs := by
      rw [e0]
      exact to_int32_of_is_int32 _ (by unfold is_int32; omega)
    have e := op_ret_eq s2 _ _ _ (by omega) hle (by omega) (by omega) k2 k1 k0
      (by rw [kt]; omega) (by rw [kt]; omega)
    rw [kt] at e
    have hip : u32_add (to_uint32 (to_int32 ((u32_add (u32_add s0.ip 1) 1 : Nat) : Int))) 1
        = (s0.ip + 3) % 4294967296 := by
      rw [to_uint32_to_int32_cast _ (u32_add_lt _ _), u32_add_add, u32_add_add]
      rfl
    refine ⟨_, e, rfl, ?_, rfl, hip, ?_⟩
    · simp
    · intro hlt
      show u32_add (to_uint32 (to_int32 ((u32_add (u32_add s0.ip 1) 1 : Nat) : Int))) 1 = _
      rw [hip]
      omega

theorem call_ret_restores_caller_witness :
    ∃ s1 s3, op_call call_vm = Step.ok s1 ∧ op_ret ret_vm = Step.ok s3 ∧
      s3.stack.top = call_vm.stack.top - 2 + 1 ∧
      s3.stack.stack (call_vm.stack.top - 2) = ret_vm.stack.stack (ret_vm.stack.top - 1) ∧
      s3.fp = call_vm.fp ∧ s3.ip = (call_vm.ip + 3) % 4294967296 ∧
      (call_vm.ip + 3 < 4294967296 → s3.ip = call_vm.ip + 3) := by
  obtain ⟨s1, hc, -, -, h⟩ := call_ret_restores_caller call_vm 8 2 (by decide) (by decide)
    (by decide) (by decide) (by decide) (by decide)
  have hs1 := op_call_eq call_vm 8 2 (by decide) (by decide) (by decide) (by decide)
  rw [hs1] at hc
  cases hc
  obtain ⟨s3, hr, h3⟩ := h ret_vm (by decide) (by decide) (by decide) (by decide) (by decide)
    (by decide) (by decide)
  exact ⟨_, s3, hs1, hr, h3⟩

/-! ## C6: global access out of range -/

/-- C6 (as amended): the bounds check of `GLOAD w` and `GSTORE w` compares `data_size` with
the word `w` converted to `uint32_t`. For a 32-bit word `w` with `w ≥ data_size`, or with
`w < 0` and `data_size ≤ 2^32 + w`, both handlers end in the fatal out-of-range error in the
very state they were entered in: no data slot is read or written and the stack is neither
pushed nor popped, for `GSTORE` also when the stack is empty. -/
theorem global_access_out_of_range (vm : VM) (w : Int) (hw : is_int32 w)
    (himm : vm.opcodes[u32_add vm.ip 1]? = some w)
    (hr : (vm.data_size : Int) ≤ w ∨ (w < 0 ∧ (vm.data_size : Int) ≤ 4294967296 + w)) :
    op_gload vm = Step.fatal Fatal.data_out_of_bounds vm ∧
      op_gstore vm = Step.fatal Fatal.data_out_of_bounds vm := by
  have hle : vm.data_size ≤ to_uint32 w := by
    unfold is_int32 at hw
    unfold to_uint32
    omega
  constructor
  · simp only [op_gload, himm, hle, if_true]
  · simp only [op_gstore, himm, hle, if_true]

theorem global_access_out_of_range_witness :
    out_of_range_vm.stack.top = 0 ∧
      op_gload out_of_range_vm = Step.fatal Fatal.data_out_of_bounds out_of_range_vm ∧
      op_gstore out_of_range_vm = Step.fatal Fatal.data_out_of_bounds out_of_range_vm :=
  ⟨by decide, global_access_out_of_range out_of_range_vm 3 (by decide) (by decide)
    (Or.inl (by decide))⟩

/-- C6 fails as stated: with `data_size = 2^32 - 1` the negative word `-2` is not in
`0 ≤ w < data_size`, yet `GLOAD -2` pushes `data[4294967294]` and `GSTORE -2` pops into that
slot; neither is fatal. -/
theorem global_access_negative_word :
    is_int32 (-2) ∧ huge_data_vm.data_size = 4294967295 ∧
      huge_data_vm.opcodes[u32_add huge_data_vm.ip 1]? = some (-2) ∧
      (∃ vm1, op_gload huge_data_vm = Step.ok vm1 ∧
        vm1.stack.top = huge_data_vm.stack.top + 1 ∧
        vm1.stack.stack huge_data_vm.stack.top = huge_data_vm.data 4294967294) ∧
      (∃ vm1, op_gstore huge_data_vm = Step.ok vm1 ∧
        vm1.stack.top = huge_data_vm.stack.top - 1 ∧
        vm1.data 4294967294 = huge_data_vm.stack.stack (huge_data_vm.stack.top - 1)) := by
  have hu : to_uint32 (-2) = 4294967294 := by decide
  refine ⟨by decide, rfl, by decide, ⟨_, op_gload_eq huge_data_vm (-2) (by decide) (by decide)
    (by decide) (by decide), rfl, ?_⟩, ⟨_, op_gstore_eq huge_data_vm (-2) (by decide)
    (by decide) (by decide) (by decide), rfl, ?_⟩⟩
  · dsimp only
    rw [Function.update_same, hu]
  · dsimp only
    rw [hu, Function.update_same]

/-! ## C7: stack underflow -/

theorem operate_on_operands_underflow (vm : VM) (operator : Char)
    (h1 : vm.stack.top ≤ 1) (h2 : vm.stack.top ≤ vm.stack.size) :
    ∃ vm1, operate_on_operands vm operator = Step.fatal Fatal.stack_underflow vm1 ∧
      vm1.ip = vm.ip ∧ vm1.stack.stack = vm.stack.stack ∧ vm1.stack.top ≤ vm.stack.top ∧
      vm1.fp = vm.fp ∧ vm1.data = vm.data := by
  by_cases h0 : vm.stack.top ≤ 0
  · refine ⟨vm, ?_, rfl, rfl, le_refl _, rfl, rfl⟩
    simp only [operate_on_operands, vm_pop_stack_empty _ h0]
  · have hpos : 0 < vm.stack.top := by omega
    have hsnd : vm_pop_stack { vm.stack with top := vm.stack.top - 1 }
        = Res.fatal Fatal.stack_underflow :=
      vm_pop_stack_empty _ (by show vm.stack.top - 1 ≤ 0; omega)
    refine ⟨{ vm with stack := { vm.stack with top := vm.stack.top - 1 } }, ?_, rfl, rfl,
      ?_, rfl, rfl⟩
    · simp only [operate_on_operands, vm_pop_stack_ok _ hpos h2, hsnd]
    · show vm.stack.top - 1 ≤ vm.stack.top
      omega

theorem op_store_underflow (vm : VM) (w : Int) (hempty : vm.stack.top ≤ 0)
    (himm : vm.opcodes[u32_add vm.ip 1]? = some w) :
    op_store vm
      = Step.fatal Fatal.stack_underflow { vm with ip := u32_add (u32_add vm.ip 1) 1 } := by
  have hp := vm_pop_stack_empty vm.stack hempty
  simp only [op_store, himm, hp]

/-- C7 (as amended): `vm_pop_stack` on a stack with `top ≤ 0` ends in the fatal underflow
error and returns no value. Hence on an empty stack `POP`, `SYS_WRITE`, `JMPT`, `JMPN`, `RET`
and an in-range `GSTORE` are fatal in the very state they were entered in (nothing pushed,
`ip` not advanced); `STORE` is fatal too, but it has advanced `ip` past its immediate, by 2,
before the pop fails; and every binary operator executed on a stack `vb` with fewer than
two values is fatal with `ip` not advanced and no result pushed. -/
theorem stack_underflow_fatal (vm vb : VM) (out : Int → OutputInfo) (oi : Int) (w : Int)
    (operator : Char)
    (hempty : vm.stack.top ≤ 0)
    (himm : vm.opcodes[u32_add vm.ip 1]? = some w)
    (hb1 : vb.stack.top ≤ 1) (hb2 : vb.stack.top ≤ vb.stack.size) :
    vm_pop_stack vm.stack = Res.fatal Fatal.stack_underflow ∧
      op_pop vm = Step.fatal Fatal.stack_underflow vm ∧
      op_syswrite { vm := vm, output := out, output_index := oi }
        = Step.fatal Fatal.stack_underflow { vm := vm, output := out, output_index := oi } ∧
      op_jmpt vm = Step.fatal Fatal.stack_underflow vm ∧
      op_jmpn vm = Step.fatal Fatal.stack_underflow vm ∧
      op_ret vm = Step.fatal Fatal.stack_underflow vm ∧
      (to_uint32 w < vm.data_size → op_gstore vm = Step.fatal Fatal.stack_underflow vm) ∧
      op_store vm = Step.fatal Fatal.stack_underflow { vm with ip := u32_add (u32_add vm.ip 1) 1 } ∧
      (∃ vb1, operate_on_operands vb operator = Step.fatal Fatal.stack_underflow vb1 ∧
        vb1.ip = vb.ip ∧ vb1.stack.stack = vb.stack.stack ∧ vb1.stack.top ≤ vb.stack.top ∧
        vb1.fp = vb.fp ∧ vb1.data = vb.data) := by
  have hp := vm_pop_stack_empty vm.stack hempty
  refine ⟨hp, ?_, ?_, ?_, ?_, ?_, ?_, ?_, operate_on_operands_underflow vb operator hb1 hb2⟩
  · simp only [op_pop, hp]
  · simp only [op_syswrite, hp]
  · simp only [op_jmpt, hp]
  · simp only [op_jmpn, hp]
  · simp only [op_ret, hp]
  · intro hlt
    have hn : ¬ vm.data_size ≤ to_uint32 w := by omega
    simp only [op_gstore, himm, hn, if_false, hp]
  · exact op_store_underflow vm w hempty himm

theorem stack_underflow_fatal_witness :
    vm_pop_stack empty_vm.stack = Res.fatal Fatal.stack_underflow ∧
      op_pop empty_vm = Step.fatal Fatal.stack_underflow empty_vm ∧
      op_syswrite { vm := empty_vm, output := Machine.startup.output, output_index := 0 }
        = Step.fatal Fatal.stack_underflow
            { vm := empty_vm, output := Machine.startup.output, output_index := 0 } ∧
      op_jmpt empty_vm = Step.fatal Fatal.stack_underflow empty_vm ∧
      op_jmpn empty_vm = Step.fatal Fatal.stack_underflow empty_vm ∧
      op_ret empty_vm = Step.fatal Fatal.stack_underflow empty_vm ∧
      (to_uint32 0 < empty_vm.data_size →
        op_gstore empty_vm = Step.fatal Fatal.stack_underflow empty_vm) ∧
      op_store empty_vm
        = Step.fatal Fatal.stack_underflow { empty_vm with ip := u32_add (u32_add empty_vm.ip 1) 1 } ∧
      (∃ vb1, operate_on_operands one_value_vm '+'
          = Step.fatal Fatal.stack_underflow vb1 ∧
        vb1.ip = one_value_vm.ip ∧ vb1.stack.stack = one_value_vm.stack.stack ∧
        vb1.stack.top ≤ one_value_vm.stack.top ∧
        vb1.fp = one_value_vm.fp ∧ vb1.data = one_value_vm.data) :=
  stack_underflow_fatal empty_vm one_value_vm Machine.startup.output 0 0 '+'
    (by decide) (by decide) (by decide) (by decide)

/-- C7 fails as stated for `STORE`: on an empty stack `STORE 0` at index 0 is fatal, but the
interpreter has then already advanced `ip` from 0 to 2. -/
theorem store_underflow_advances_ip :
    empty_vm.stack.top = 0 ∧ empty_vm.ip = 0 ∧
      ∃ vm1, op_store empty_vm = Step.fatal Fatal.stack_underflow vm1 ∧ vm1.ip = 2 ∧
        vm1.ip ≠ empty_vm.ip := by
  refine ⟨rfl, rfl, _, op_store_underflow empty_vm 0 (by decide) (by decide), ?_, ?_⟩
  · decide
  · decide

/-! ## C4: the arithmetic opcodes -/

theorem operate_i32_add (a b : Int) :
    operate_i32 '+' (some a) (some b) = Res.ok (some (to_int32 (a + b))) := rfl

theorem operate_i32_sub (a b : Int) :
    operate_i32 '-' (some a) (some b) = Res.ok (some (to_int32 (a - b))) := rfl

theorem operate_i32_mul (a b : Int) :
    operate_i32 '*' (some a) (some b) = Res.ok (some (to_int32 (a * b))) := rfl

theorem operate_i32_div (a b : Int) (hb : b ≠ 0) (ho : ¬ (a = -2147483648 ∧ b = -1)) :
    operate_i32 '/' (some a) (some b) = Res.ok (some (Int.tdiv a b)) := by
  have h : c_div a b = some (Int.tdiv a b) := by
    unfold c_div
    rw [if_neg]
    rintro (h | h)
    · exact hb h
    · exact ho h
  show (match c_div a b with
    | some q => Res.ok (some q)
    | none => Res.undefined) = _
  rw [h]

theorem operate_i32_mod (a b : Int) (hb : b ≠ 0) (ho : ¬ (a = -2147483648 ∧ b = -1)) :
    operate_i32 '%' (some a) (some b) = Res.ok (some (Int.tmod a b)) := by
  have h : c_mod a b = some (Int.tmod a b) := by
    unfold c_mod
    rw [if_neg]
    rintro (h | h)
    · exact hb h
    · exact ho h
  show (match c_mod a b with
    | some q => Res.ok (some q)
    | none => Res.undefined) = _
  rw [h]

theorem operate_on_operands_eq (vm : VM) (operator : Char) (r : Option Int)
    (h0 : 2 ≤ vm.stack.top) (h1 : vm.stack.top ≤ vm.stack.size)
    (hr : operate_i32 operator (vm.stack.stack (vm.stack.top - 1 - 1)).i32
      (vm.stack.stack (vm.stack.top - 1)).i32 = Res.ok r) :
    operate_on_operands vm operator = Step.ok { vm with
      stack := { vm.stack with
        stack := Function.update vm.stack.stack (vm.stack.top - 1 - 1)
          { type := (vm.stack.stack (vm.stack.top - 1)).type, i32 := r, u8 := none }
        top := vm.stack.top - 1 - 1 + 1 }
      ip := u32_add vm.ip 1 } := by
  have a0 : vm.stack.top > 0 := by omega
  have a1 : vm.stack.top - 1 < vm.stack.size := by omega
  have a2 : vm.stack.top - 1 > 0 := by omega
  have a3 : vm.stack.top - 1 - 1 < vm.stack.size := by omega
  have a4 : 0 ≤ vm.stack.top - 1 - 1 := by omega
  simp only [operate_on_operands, vm_pop_stack, vm_push_stack, a0, a1, a2, a3, a4, hr,
    and_self, if_true]

theorem tdiv_is_int32 (a b : Int) (ha : is_int32 a) (hb0 : b ≠ 0)
    (hov : ¬ (a = -2147483648 ∧ b = -1)) : is_int32 (Int.tdiv a b) := by
  unfold is_int32 at ha ⊢
  have h1 := Int.natAbs_tdiv a b
  have hdiv : (a.natAbs).div (b.natAbs) = a.natAbs / b.natAbs := rfl
  rw [hdiv] at h1
  by_cases hb1 : b.natAbs = 1
  · rcases Int.natAbs_eq b with hb | hb
    · have : b = 1 := by omega
      subst this
      rw [Int.tdiv_one]
      exact ha
    · have hbm : b = -1 := by omega
      subst hbm
      have : a.tdiv (-1) = -a := by rw [Int.tdiv_neg, Int.tdiv_one]
      rw [this]
      omega
  · have hb2 : 2 ≤ b.natAbs := by
      have : b.natAbs ≠ 0 := by simpa using hb0
      omega
    have h2 : a.natAbs / b.natAbs ≤ a.natAbs / 2 := Nat.div_le_div_left hb2 (by norm_num)
    omega

theorem iconst_iconst_eq (vm : VM) (a b : Int)
    (h0 : 0 ≤ vm.stack.top) (hcap : vm.stack.top + 2 ≤ vm.stack.size)
    (hA : vm.opcodes[u32_add vm.ip 1]? = some a)
    (hB : vm.opcodes[u32_add (u32_add vm.ip 2) 1]? = some b) :
    ∃ vm1, op_iconst vm = Step.ok vm1 ∧
      op_iconst vm1 = Step.ok { vm with
        stack := { vm.stack with
          stack := Function.update (Function.update vm.stack.stack vm.stack.top
            { type := some ICONST, i32 := some a, u8 := none }) (vm.stack.top + 1)
            { type := some ICONST, i32 := some b, u8 := none }
          top := vm.stack.top + 1 + 1 }
        ip := u32_add (u32_add vm.ip 2) 2 } := by
  refine ⟨_, op_iconst_eq vm a hA h0 (by omega), ?_⟩
  exact op_iconst_eq
    { vm with
      stack := { vm.stack with
        stack := Function.update vm.stack.stack vm.stack.top
          { type := some ICONST, i32 := some a, u8 := none }
        top := vm.stack.top + 1 }
      ip := u32_add vm.ip 2 } b hB
    (by show (0 : Int) ≤ vm.stack.top + 1; omega)
    (by show vm.stack.top + 1 < vm.stack.size; omega)

theorem iconst_iconst_operate (vm vm2 : VM) (a b : Int) (operator : Char) (r : Int)
    (h0 : 0 ≤ vm.stack.top) (hcap : vm.stack.top + 2 ≤ vm.stack.size)
    (h2 : vm2 = { vm with
        stack := { vm.stack with
          stack := Function.update (Function.update vm.stack.stack vm.stack.top
            { type := some ICONST, i32 := some a, u8 := none }) (vm.stack.top + 1)
            { type := some ICONST, i32 := some b, u8 := none }
          top := vm.stack.top + 1 + 1 }
        ip := u32_add (u32_add vm.ip 2) 2 })
    (hr : operate_i32 operator (some a) (some b) = Res.ok (some r)) :
    ∃ v, operate_on_operands vm2 operator = Step.ok v ∧ binary_result vm vm2 v r := by
  have e1 : vm2.stack.top - 1 = vm.stack.top + 1 := by rw [h2]; show vm.stack.top + 1 + 1 - 1 = _; omega
  have e2 : vm2.stack.top - 1 - 1 = vm.stack.top := by rw [e1]; omega
  have s1 : vm2.stack.stack (vm2.stack.top - 1)
      = { type := some ICONST, i32 := some b, u8 := none } := by
    rw [e1, h2]
    dsimp only
    rw [Function.update_same]
  have s0 : vm2.stack.stack (vm2.stack.top - 1 - 1)
      = { type := some ICONST, i32 := some a, u8 := none } := by
    rw [e2, h2]
    dsimp only
    rw [Function.update_noteq (by omega), Function.update_same]
  have hsz : vm2.stack.size = vm.stack.size := by rw [h2]
  have e := operate_on_operands_eq vm2 operator (some r)
    (by rw [h2]; show (2 : Int) ≤ vm.stack.top + 1 + 1; omega)
    (by rw [hsz, h2]; show vm.stack.top + 1 + 1 ≤ vm.stack.size; omega)
    (by rw [s0, s1]; exact hr)
  refine ⟨_, e, ?_, ?_, ?_, rfl⟩
  · show vm2.stack.top - 1 - 1 + 1 = _
    rw [e2]
  · intro i hi
    show Function.update vm2.stack.stack (vm2.stack.top - 1 - 1) _ i = _
    rw [e2, Function.update_noteq (by omega), h2]
    dsimp only
    rw [Function.update_noteq (by omega), Function.update_noteq (by omega)]
  · show Object.i32 (Function.update vm2.stack.stack (vm2.stack.top - 1 - 1) _ vm.stack.top) = _
    rw [e2, Function.update_same]

/-- C4 (as amended): for 32-bit integers `a`, `b` (only the range of `a` is used) and a stack of depth `d ≥ 0` with
`d + 2` within the capacity, `ICONST a; ICONST b; <op>` leaves the depth at `d + 1`, the slots
below unchanged, and a top value whose `i32` is: for `IADD`, `ISUB`, `IMUL` the sum, difference
or product wrapped to 32 bits (the exact result whenever that is a 32-bit integer); for `IDIV`
and `IMOD`, when `b ≠ 0` and not (`a = -2^31` and `b = -1`), the quotient truncated toward
zero and the remainder `r` with `a = (a / b) * b + r`. The opcode advances `ip` by 1. -/
theorem arithmetic_opcodes (vm : VM) (a b : Int) (ha : is_int32 a)
    (h0 : 0 ≤ vm.stack.top) (hcap : vm.stack.top + 2 ≤ vm.stack.size)
    (hA : vm.opcodes[u32_add vm.ip 1]? = some a)
    (hB : vm.opcodes[u32_add (u32_add vm.ip 2) 1]? = some b) :
    ∃ vm1 vm2, op_iconst vm = Step.ok vm1 ∧ op_iconst vm1 = Step.ok vm2 ∧
      (∃ v, op_iadd vm2 = Step.ok v ∧ binary_result vm vm2 v (to_int32 (a + b))) ∧
      (∃ v, op_isub vm2 = Step.ok v ∧ binary_result vm vm2 v (to_int32 (a - b))) ∧
      (∃ v, op_imul vm2 = Step.ok v ∧ binary_result vm vm2 v (to_int32 (a * b))) ∧
      (is_int32 (a + b) → to_int32 (a + b) = a + b) ∧
      (is_int32 (a - b) → to_int32 (a - b) = a - b) ∧
      (is_int32 (a * b) → to_int32 (a * b) = a * b) ∧
      (b ≠ 0 → ¬ (a = -2147483648 ∧ b = -1) →
        (∃ v, op_idiv vm2 = Step.ok v ∧ binary_result vm vm2 v (Int.tdiv a b)) ∧
        (∃ v, op_imod vm2 = Step.ok v ∧ binary_result vm vm2 v (Int.tmod a b)) ∧
        a = Int.tdiv a b * b + Int.tmod a b ∧
        (Int.tdiv a b).natAbs = a.natAbs / b.natAbs ∧
        is_int32 (Int.tdiv a b)) := by
  obtain ⟨vm1, e1, e2⟩ := iconst_iconst_eq vm a b h0 hcap hA hB
  refine ⟨vm1, _, e1, e2,
    iconst_iconst_operate vm _ a b '+' _ h0 hcap rfl (operate_i32_add a b),
    iconst_iconst_operate vm _ a b '-' _ h0 hcap rfl (operate_i32_sub a b),
    iconst_iconst_operate vm _ a b '*' _ h0 hcap rfl (operate_i32_mul a b),
    to_int32_of_is_int32 _, to_int32_of_is_int32 _, to_int32_of_is_int32 _, ?_⟩
  intro hb0 hov
  refine ⟨iconst_iconst_operate vm _ a b '/' _ h0 hcap rfl (operate_i32_div a b hb0 hov),
    iconst_iconst_operate vm _ a b '%' _ h0 hcap rfl (operate_i32_mod a b hb0 hov),
    (Int.tdiv_add_tmod' a b).symm, Int.natAbs_tdiv a b, tdiv_is_int32 a b ha hb0 hov⟩

theorem arithmetic_opcodes_witness :
    ∃ vm1 vm2, op_iconst (arith_vm (-7) 2) = Step.ok vm1 ∧ op_iconst vm1 = Step.ok vm2 ∧
      (∃ v, op_iadd vm2 = Step.ok v ∧ binary_result (arith_vm (-7) 2) vm2 v (-5)) ∧
      (∃ v, op_isub vm2 = Step.ok v ∧ binary_result (arith_vm (-7) 2) vm2 v (-9)) ∧
      (∃ v, op_imul vm2 = Step.ok v ∧ binary_result (arith_vm (-7) 2) vm2 v (-14)) ∧
      (∃ v, op_idiv vm2 = Step.ok v ∧ binary_result (arith_vm (-7) 2) vm2 v (-3)) ∧
      (∃ v, op_imod vm2 = Step.ok v ∧ binary_result (arith_vm (-7) 2) vm2 v (-1)) := by
  obtain ⟨vm1, vm2, e1, e2, hadd, hsub, hmul, -, -, -, hdiv⟩ :=
    arithmetic_opcodes (arith_vm (-7) 2) (-7) 2 (by decide) (by decide) (by decide)
      (by decide) (by decide)
  obtain ⟨hd, hm, -⟩ := hdiv (by decide) (by decide)
  exact ⟨vm1, vm2, e1, e2, hadd, hsub, hmul, hd, hm⟩

/-- C4 fails as stated: `ICONST 2147483647; ICONST 1; IADD` leaves a top value with
`i32 = -2147483648`, not the integer sum `2147483648`; for `a = -2147483648`, `b = -1`
(with `b ≠ 0`) `IDIV` pushes no quotient at all; and from depth 1027 of 1028 the second
`ICONST` stores outside the stack array, so depth `d + 1` is not reached. -/
theorem arithmetic_overflow :
    is_int32 2147483647 ∧ is_int32 1 ∧
      (∃ vm1, op_iconst nearly_full_vm = Step.ok vm1 ∧ op_iconst vm1 = Step.undefined) ∧
      (∃ vm1 vm2 v, op_iconst (arith_vm 2147483647 1) = Step.ok vm1 ∧
        op_iconst vm1 = Step.ok vm2 ∧ op_iadd vm2 = Step.ok v ∧
        (v.stack.stack 0).i32 = some (-2147483648) ∧
        (v.stack.stack 0).i32 ≠ some (2147483647 + 1)) ∧
      (∃ vm1 vm2, op_iconst (arith_vm (-2147483648) (-1)) = Step.ok vm1 ∧
        op_iconst vm1 = Step.ok vm2 ∧ op_idiv vm2 = Step.undefined) := by
  refine ⟨by decide, by decide, ?_, ?_, ?_⟩
  · refine ⟨_, op_iconst_eq nearly_full_vm 3 (by decide) (by decide) (by decide), ?_⟩
    simp [op_iconst, nearly_full_vm, create_vm, vm_create_stack, vm_push_stack, u32_add]
  · obtain ⟨vm1, e1, e2⟩ := iconst_iconst_eq (arith_vm 2147483647 1) 2147483647 1
      (by decide) (by decide) (by decide) (by decide)
    obtain ⟨v, e3, -, -, h, -⟩ := iconst_iconst_operate (arith_vm 2147483647 1) _
      2147483647 1 '+' _ (by decide) (by decide) rfl (operate_i32_add 2147483647 1)
    have h1 : (v.stack.stack 0).i32 = some (-2147483648) := h
    refine ⟨vm1, _, v, e1, e2, e3, h1, ?_⟩
    rw [h1]
    decide
  · obtain ⟨vm1, e1, e2⟩ := iconst_iconst_eq (arith_vm (-2147483648) (-1)) (-2147483648) (-1)
      (by decide) (by decide) (by decide) (by decide)
    refine ⟨vm1, _, e1, e2, ?_⟩
    simp [op_idiv, operate_on_operands, vm_pop_stack, arith_vm, create_vm, vm_create_stack,
      operate_i32, c_div]

/-! ## The loop of `run_vm` -/

theorem run_loop_halted (fuel n : Nat) (m : Machine) (h : step m = none) :
    run_loop fuel n m = Run.halted n m := by
  cases fuel <;> simp only [run_loop, h]

theorem run_loop_succ_ok (fuel n : Nat) (m m1 : Machine) (h : step m = some (Step.ok m1)) :
    run_loop (fuel + 1) n m = run_loop fuel (n + 1) m1 := by
  simp only [run_loop, h]

theorem run_loop_zero_running (n : Nat) (m : Machine) (r : Step Machine)
    (h : step m = some r) : run_loop 0 n m = Run.running m := by
  simp only [run_loop, h]

theorem init_vm_other (n : Nat) (hn : n ≠ SYS_WRITE) : ∃ h, init_vm n = on_vm h := by
  by_cases h27 : n < 27
  · interval_cases n <;> first | exact ⟨_, rfl⟩ | exact ⟨op_nop, rfl⟩ | exact absurd rfl hn
  · refine ⟨op_nop, ?_⟩
    have h : ∀ k : Nat, k < 27 → n ≠ k := fun k hk => by omega
    unfold init_vm
    simp only [CHARCONST, SYS_WRITE, ICONST, POP, IADD, ISUB, IMUL, IDIV, IMOD, IEQ, INEQ, ILT,
      IGT, IGTE, ILTE, IAND, IOR, GLOAD, GSTORE, JMP, JMPT, JMPN, CALL, RET, LOAD, STORE]
    repeat rw [Function.update_noteq (h _ (by norm_num))]

theorem step_of_handler (m : Machine) (w : Int) (h : instruction) (vm1 : VM)
    (hop : m.vm.opcodes[m.vm.ip]? = some w) (hne : w ≠ HALT) (hr : 0 ≤ w ∧ w < 256)
    (htab : init_vm w.toNat = on_vm h) (hh : h m.vm = Step.ok vm1) :
    step m = some (Step.ok { m with vm := vm1 }) := by
  simp only [step, hop, hne, if_false, dispatch, hr, and_self, if_true, htab, on_vm, hh]

theorem op_load_eq (vm : VM) (off : Int)
    (himm : vm.opcodes[u32_add vm.ip 1]? = some off)
    (hi0 : 0 ≤ local_index vm.fp off) (hi1 : local_index vm.fp off < vm.stack.size)
    (h0 : 0 ≤ vm.stack.top) (h1 : vm.stack.top < vm.stack.size) :
    op_load vm = Step.ok { vm with
      stack := { vm.stack with
        stack := Function.update vm.stack.stack vm.stack.top
          (vm.stack.stack (local_index vm.fp off))
        top := vm.stack.top + 1 }
      ip := u32_add (u32_add vm.ip 1) 1 } := by
  simp only [op_load, himm, hi0, hi1, vm_push_stack, h0, h1, and_self, if_true]

theorem op_syswrite_eq (m : Machine) (h0 : 0 < m.vm.stack.top)
    (h1 : m.vm.stack.top ≤ m.vm.stack.size)
    (hi0 : 0 ≤ m.output_index) (hi1 : m.output_index < 1000) :
    op_syswrite m = Step.ok
      { vm := { m.vm with
          stack := { m.vm.stack with top := m.vm.stack.top - 1 }
          ip := u32_add m.vm.ip 1 }
        output := Function.update m.output m.output_index
          { o := m.vm.stack.stack (m.vm.stack.top - 1), loc := to_int32 m.vm.ip }
        output_index := m.output_index + 1 } := by
  have hne : m.output_index ≠ MAX_OUTPUT := by unfold MAX_OUTPUT; omega
  have hlt : m.output_index < MAX_OUTPUT := by unfold MAX_OUTPUT; omega
  simp only [op_syswrite, vm_pop_stack_ok _ h0 h1, hne, if_false, hi0, hlt, and_self, if_true]

theorem step_syswrite (m m1 : Machine)
    (hop : m.vm.opcodes[m.vm.ip]? = some (SYS_WRITE : Int))
    (hh : op_syswrite m = Step.ok m1) : step m = some (Step.ok m1) := by
  have hne : ((SYS_WRITE : Nat) : Int) ≠ HALT := by decide
  have hr : (0 : Int) ≤ (SYS_WRITE : Nat) ∧ ((SYS_WRITE : Nat) : Int) < 256 := by decide
  have htab : init_vm ((SYS_WRITE : Nat) : Int).toNat = op_syswrite := rfl
  simp only [step, hop, hne, if_false, dispatch, hr, and_self, if_true, htab, hh]

theorem step_halt (m : Machine) (hop : m.vm.opcodes[m.vm.ip]? = some (HALT : Int)) :
    step m = none := by
  simp only [step, hop, if_true]

/-! ### One iteration of the loop on a machine given field by field -/

theorem step_iconst {top size : Int} {st : Int → Object} {data : Nat → Object}
    {ops : List Int} {ip : Nat} {fp : Int} {ds : Nat} {out : Int → OutputInfo} {oi : Int}
    (v : Int) (hop : ops[ip]? = some (ICONST : Int)) (himm : ops[u32_add ip 1]? = some v)
    (h0 : 0 ≤ top) (h1 : top < size) :
    step ⟨⟨⟨top, size, st⟩, data, ops, ip, fp, ds⟩, out, oi⟩
      = some (Step.ok ⟨⟨⟨top + 1, size,
          Function.update st top { type := some ICONST, i32 := some v, u8 := none }⟩,
          data, ops, u32_add ip 2, fp, ds⟩, out, oi⟩) :=
  step_of_handler _ ICONST op_iconst _ hop (by decide) (by decide) rfl
    (op_iconst_eq _ v himm h0 h1)

theorem step_binary {top size : Int} {st : Int → Object} {data : Nat → Object}
    {ops : List Int} {ip : Nat} {fp : Int} {ds : Nat} {out : Int → OutputInfo} {oi : Int}
    (w : Int) (operator : Char) (r : Option Int)
    (hop : ops[ip]? = some w) (hne : w ≠ HALT) (hr : 0 ≤ w ∧ w < 256)
    (htab : init_vm w.toNat = on_vm (fun vm => operate_on_operands vm operator))
    (h0 : 2 ≤ top) (h1 : top ≤ size)
    (hres : operate_i32 operator (st (top - 1 - 1)).i32 (st (top - 1)).i32 = Res.ok r) :
    step ⟨⟨⟨top, size, st⟩, data, ops, ip, fp, ds⟩, out, oi⟩
      = some (Step.ok ⟨⟨⟨top - 1 - 1 + 1, size,
          Function.update st (top - 1 - 1) { type := (st (top - 1)).type, i32 := r, u8 := none }⟩,
          data, ops, u32_add ip 1, fp, ds⟩, out, oi⟩) :=
  step_of_handler _ w _ _ hop hne hr htab
    (operate_on_operands_eq ⟨⟨top, size, st⟩, data, ops, ip, fp, ds⟩ operator r h0 h1 hres)

theorem step_syswrite_flat {top size : Int} {st : Int → Object} {data : Nat → Object}
    {ops : List Int} {ip : Nat} {fp : Int} {ds : Nat} {out : Int → OutputInfo} {oi : Int}
    (hop : ops[ip]? = some (SYS_WRITE : Int))
    (h0 : 0 < top) (h1 : top ≤ size) (hi0 : 0 ≤ oi) (hi1 : oi < 1000) :
    step ⟨⟨⟨top, size, st⟩, data, ops, ip, fp, ds⟩, out, oi⟩
      = some (Step.ok ⟨⟨⟨top - 1, size, st⟩, data, ops, u32_add ip 1, fp, ds⟩,
          Function.update out oi { o := st (top - 1), loc := to_int32 ip }, oi + 1⟩) :=
  step_syswrite _ _ hop
    (op_syswrite_eq ⟨⟨⟨top, size, st⟩, data, ops, ip, fp, ds⟩, out, oi⟩ h0 h1 hi0 hi1)

theorem step_call {top size : Int} {st : Int → Object} {data : Nat → Object}
    {ops : List Int} {ip : Nat} {fp : Int} {ds : Nat} {out : Int → OutputInfo} {oi : Int}
    (target nargs : Int) (hop : ops[ip]? = some (CALL : Int))
    (hT : ops[u32_add ip 1]? = some target) (hN : ops[u32_add (u32_add ip 1) 1]? = some nargs)
    (h0 : 0 ≤ top) (h1 : top + 3 ≤ size) :
    step ⟨⟨⟨top, size, st⟩, data, ops, ip, fp, ds⟩, out, oi⟩
      = some (Step.ok ⟨⟨⟨top + 1 + 1 + 1, size,
          Function.update (Function.update (Function.update st
            top { Object.indeterminate with i32 := some nargs })
            (top + 1) (obj_push fp))
            (top + 1 + 1) (obj_push (to_int32 (u32_add (u32_add ip 1) 1)))⟩,
          data, ops, to_uint32 target, to_int32 (top + 1 + 1 + 1), ds⟩, out, oi⟩) :=
  step_of_handler _ CALL op_call _ hop (by decide) (by decide) rfl
    (op_call_eq ⟨⟨top, size, st⟩, data, ops, ip, fp, ds⟩ target nargs hT hN h0 h1)

theorem step_load {top size : Int} {st : Int → Object} {data : Nat → Object}
    {ops : List Int} {ip : Nat} {fp : Int} {ds : Nat} {out : Int → OutputInfo} {oi : Int}
    (off : Int) (hop : ops[ip]? = some (LOAD : Int)) (himm : ops[u32_add ip 1]? = some off)
    (hi0 : 0 ≤ local_index fp off) (hi1 : local_index fp off < size)
    (h0 : 0 ≤ top) (h1 : top < size) :
    step ⟨⟨⟨top, size, st⟩, data, ops, ip, fp, ds⟩, out, oi⟩
      = some (Step.ok ⟨⟨⟨top + 1, size, Function.update st top (st (local_index fp off))⟩,
          data, ops, u32_add (u32_add ip 1) 1, fp, ds⟩, out, oi⟩) :=
  step_of_handler _ LOAD op_load _ hop (by decide) (by decide) rfl
    (op_load_eq ⟨⟨top, size, st⟩, data, ops, ip, fp, ds⟩ off himm hi0 hi1 h0 h1)

theorem step_ret {top size : Int} {st : Int → Object} {data : Nat → Object}
    {ops : List Int} {ip : Nat} {fp : Int} {ds : Nat} {out : Int → OutputInfo} {oi : Int}
    (sip sfp args : Int) (hop : ops[ip]? = some (RET : Int))
    (h0 : 0 < top) (h1 : top ≤ size) (hf0 : 3 ≤ fp) (hf1 : fp ≤ size)
    (hip : (st (fp - 1)).i32 = some sip) (hfp : (st (fp - 1 - 1)).i32 = some sfp)
    (hargs : (st (fp - 1 - 1 - 1)).i32 = some args)
    (ht0 : 0 ≤ to_int32 (fp - 1 - 1 - 1 - args))
    (ht1 : to_int32 (fp - 1 - 1 - 1 - args) < size) :
    step ⟨⟨⟨top, size, st⟩, data, ops, ip, fp, ds⟩, out, oi⟩
      = some (Step.ok ⟨⟨⟨to_int32 (fp - 1 - 1 - 1 - args) + 1, size,
          Function.update st (to_int32 (fp - 1 - 1 - 1 - args)) (st (top - 1))⟩,
          data, ops, u32_add (to_uint32 sip) 1, sfp, ds⟩, out, oi⟩) :=
  step_of_handler _ RET op_ret _ hop (by decide) (by decide) rfl
    (op_ret_eq ⟨⟨top, size, st⟩, data, ops, ip, fp, ds⟩ sip sfp args h0 h1 hf0 hf1 hip hfp hargs
      ht0 ht1)

theorem step_halt_flat {top size : Int} {st : Int → Object} {data : Nat → Object}
    {ops : List Int} {ip : Nat} {fp : Int} {ds : Nat} {out : Int → OutputInfo} {oi : Int}
    (hop : ops[ip]? = some (HALT : Int)) :
    step ⟨⟨⟨top, size, st⟩, data, ops, ip, fp, ds⟩, out, oi⟩ = none :=
  step_halt _ hop

/-! ## C3: the program of `main.c` -/

theorem program_run (g : Machine) (hg : g.output_index = 0) (k : Nat) :
    ∃ m, run_vm g 0 program 0 (4 + k) = Run.halted 4 m ∧
      m.vm.opcodes[m.vm.ip]? = some (HALT : Int) ∧ m.vm.ip = 6 ∧ m.vm.stack.top = 0 ∧
      m.output_index = 1 ∧
      m.output 0 = { o := { type := some ICONST, i32 := some 15, u8 := none }, loc := 5 } := by
  have e : 4 + k = k + 1 + 1 + 1 + 1 := by omega
  refine Exists.intro ?w (And.intro ?run ?rest)
  case run =>
    rw [e]
    show run_loop _ 0 ⟨⟨⟨0, 1028, fun _ => Object.indeterminate⟩, fun _ => Object.zero, program,
      0, 0, 0⟩, g.output, g.output_index⟩ = _
    rw [hg]
    refine (run_loop_succ_ok _ _ _ _ (step_iconst 3 rfl rfl (by decide) (by decide))).trans ?_
    refine (run_loop_succ_ok _ _ _ _ (step_iconst 12 rfl rfl (by decide) (by decide))).trans ?_
    refine (run_loop_succ_ok _ _ _ _ (step_binary IADD '+' _ rfl (by decide) (by decide) rfl
      (by decide) (by decide) (operate_i32_add 3 12))).trans ?_
    refine (run_loop_succ_ok _ _ _ _ (step_syswrite_flat rfl (by decide) (by decide) (by decide)
      (by decide))).trans ?_
    refine run_loop_halted _ _ _ (step_halt_flat ?_)
    rfl
  case rest =>
    refine ⟨rfl, rfl, by norm_num, by norm_num, ?_⟩
    show Function.update g.output 0 _ 0 = _
    rw [Function.update_same]
    rfl

theorem run_loop_more_fuel (fuel : Nat) :
    ∀ (n : Nat) (m : Machine) (n1 : Nat) (m1 : Machine) (j : Nat),
      run_loop fuel n m = Run.halted n1 m1 → run_loop (fuel + j) n m = Run.halted n1 m1 := by
  induction fuel with
  | zero =>
    intro n m n1 m1 j h
    cases hs : step m with
    | none =>
      rw [run_loop_halted _ _ _ hs] at h ⊢
      exact h
    | some r =>
      rw [run_loop_zero_running _ _ _ hs] at h
      cases h
  | succ f ih =>
    intro n m n1 m1 j h
    cases hs : step m with
    | none =>
      rw [run_loop_halted _ _ _ hs] at h ⊢
      exact h
    | some r =>
      have e : f + 1 + j = (f + j) + 1 := by omega
      rw [e]
      cases r with
      | ok m2 =>
        rw [run_loop_succ_ok _ _ _ _ hs] at h ⊢
        exact ih _ _ _ _ _ h
      | fatal e2 m2 =>
        simp only [run_loop, hs] at h
        cases h
      | undefined =>
        simp only [run_loop, hs] at h
        cases h

theorem run_loop_halted_unique (f1 f2 n : Nat) (m : Machine) (a b : Nat) (x y : Machine)
    (h1 : run_loop f1 n m = Run.halted a x) (h2 : run_loop f2 n m = Run.halted b y) :
    a = b ∧ x = y := by
  have k1 := run_loop_more_fuel f1 n m a x f2 h1
  have k2 := run_loop_more_fuel f2 n m b y f1 h2
  rw [Nat.add_comm f2 f1, k1] at k2
  injection k2 with hab hxy
  exact ⟨hab, hxy⟩

/-- C3 (as amended): from any process state with an empty output log, the stream
`[ICONST, 3, ICONST, 12, IADD, SYS_WRITE, HALT]` started at index 0 with `data_size = 0` halts
after 4 instruction steps (given fuel for at least 4), with `ip = 6` at the `HALT`, and leaves
an output log of exactly one entry, whose value is tagged `ICONST` with `i32 = 15` and whose
recorded instruction pointer is 5, the index of `SYS_WRITE`; every halting run of the loop
takes 4 steps and stops in this state. -/
theorem sample_program (g : Machine) (hg : g.output_index = 0) (fuel : Nat) (hfuel : 4 ≤ fuel) :
    ∃ m, run_vm g 0 program 0 fuel = Run.halted 4 m ∧
      m.vm.ip = 6 ∧ m.vm.opcodes[m.vm.ip]? = some (HALT : Int) ∧ m.vm.stack.top = 0 ∧
      m.output_index = 1 ∧
      drained m = [{ o := { type := some ICONST, i32 := some 15, u8 := none }, loc := 5 }] ∧
      ∀ f n m1, run_vm g 0 program 0 f = Run.halted n m1 → n = 4 ∧ m1 = m := by
  obtain ⟨m, hrun, hhalt, hip, htop, hoi, hout⟩ := program_run g hg (fuel - 4)
  have e : 4 + (fuel - 4) = fuel := by omega
  rw [e] at hrun
  refine ⟨m, hrun, hip, hhalt, htop, hoi, ?_, ?_⟩
  · have hr : List.range 1 = [0] := rfl
    simp only [drained, hoi, Int.toNat_one, hr, List.map_cons, List.map_nil, Nat.cast_zero, hout]
  · intro f n m1 h
    obtain ⟨h1, h2⟩ := run_loop_halted_unique _ _ _ _ _ _ _ _ hrun h
    exact ⟨h1.symm, h2.symm⟩

theorem sample_program_witness :
    ∃ m, run_vm Machine.startup 0 program 0 4 = Run.halted 4 m ∧
      m.vm.ip = 6 ∧ m.vm.opcodes[m.vm.ip]? = some (HALT : Int) ∧ m.vm.stack.top = 0 ∧
      m.output_index = 1 ∧
      drained m = [{ o := { type := some ICONST, i32 := some 15, u8 := none }, loc := 5 }] ∧
      ∀ f n m1, run_vm Machine.startup 0 program 0 f = Run.halted n m1 → n = 4 ∧ m1 = m :=
  sample_program Machine.startup rfl 4 (by decide)

/-- C3 fails as stated: no run of the sample program halts after 6 instruction steps, and
in no halting run is the recorded instruction pointer of the log entry 4. -/
theorem main_program_six_steps_refuted :
    (¬ ∃ fuel m, run_vm Machine.startup 0 program 0 fuel = Run.halted 6 m) ∧
      (¬ ∃ fuel n m, run_vm Machine.startup 0 program 0 fuel = Run.halted n m ∧
        (m.output 0).loc = 4) := by
  obtain ⟨m, hrun, -, -, -, -, hout⟩ := program_run Machine.startup rfl 0
  constructor
  · rintro ⟨fuel, m1, h⟩
    have := (run_loop_halted_unique _ _ _ _ _ _ _ _ hrun h).1
    omega
  · rintro ⟨fuel, n, m1, h, hloc⟩
    have h2 := (run_loop_halted_unique _ _ _ _ _ _ _ _ hrun h).2
    rw [← h2, hout] at hloc
    exact absurd hloc (by decide)

/-! ## C2: a call with two arguments -/

theorem two_arg_call_run (g : Machine) (ds : Nat) (a b : Int) (k : Nat) :
    ∃ m, run_vm g ds (two_arg_call a b) 0 (7 + k) = Run.halted 7 m ∧
      m.vm.opcodes[m.vm.ip]? = some (HALT : Int) ∧ m.vm.ip = 7 ∧ m.vm.fp = 0 ∧
      m.vm.stack.top = 1 ∧
      m.vm.stack.stack 0 = { type := some ICONST, i32 := some (to_int32 (a + b)), u8 := none } ∧
      m.output = g.output ∧ m.output_index = g.output_index := by
  have e : 7 + k = k + 1 + 1 + 1 + 1 + 1 + 1 + 1 := by omega
  refine Exists.intro ?w (And.intro ?run ?rest)
  case run =>
    rw [e]
    show run_loop _ 0 ⟨⟨⟨0, 1028, fun _ => Object.indeterminate⟩, fun _ => Object.zero,
      two_arg_call a b, 0, 0, ds⟩, g.output, g.output_index⟩ = _
    refine (run_loop_succ_ok _ _ _ _ (step_iconst a rfl rfl (by decide) (by decide))).trans ?_
    refine (run_loop_succ_ok _ _ _ _ (step_iconst b rfl rfl (by decide) (by decide))).trans ?_
    refine (run_loop_succ_ok _ _ _ _ (step_call 8 2 rfl rfl rfl (by decide)
      (by decide))).trans ?_
    refine (run_loop_succ_ok _ _ _ _ (step_load (-4) rfl rfl (by decide) (by decide)
      (by decide) (by decide))).trans ?_
    refine (run_loop_succ_ok _ _ _ _ (step_load (-3) rfl rfl (by decide) (by decide)
      (by decide) (by decide))).trans ?_
    refine (run_loop_succ_ok _ _ _ _ (step_binary IADD '+' _ rfl (by decide) (by decide) rfl
      (by decide) (by decide) (operate_i32_add a b))).trans ?_
    refine (run_loop_succ_ok _ _ _ _ (step_ret 6 0 2 rfl (by decide) (by decide) (by decide)
      (by decide) rfl rfl rfl (by decide) (by decide))).trans ?_
    refine run_loop_halted _ _ _ (step_halt_flat ?_)
    rfl
  case rest =>
    refine ⟨rfl, rfl, rfl, ?_, ?_, rfl, rfl⟩
    · show to_int32 (to_int32 (0 + 1 + 1 + 1 + 1 + 1) - 1 - 1 - 1 - 2) + 1 = 1
      decide
    · rfl

/-- C2: for all `a` and `b`, from any process state and with any data-segment size, the stream
`[ICONST, a, ICONST, b, CALL, 8, 2, HALT, LOAD, -4, LOAD, -3, IADD, RET]` started at index 0 on
the empty stack reaches `HALT` (after 7 instruction steps, given fuel for at least 7) with the
caller's stack holding exactly one value, whose `i32` is `a + b` as a 32-bit integer, with
`fp` restored to 0 and `ip = 7`, the `HALT` that follows the call. -/
theorem two_argument_call (g : Machine) (ds : Nat) (a b : Int) (fuel : Nat) (hfuel : 7 ≤ fuel) :
    ∃ m, run_vm g ds (two_arg_call a b) 0 fuel = Run.halted 7 m ∧
      m.vm.stack.top = 1 ∧
      (m.vm.stack.stack 0).i32 = some (to_int32 (a + b)) ∧
      (m.vm.stack.stack 0).type = some ICONST ∧
      (is_int32 (a + b) → (m.vm.stack.stack 0).i32 = some (a + b)) ∧
      m.vm.fp = 0 ∧ m.vm.ip = 7 ∧ m.vm.opcodes[m.vm.ip]? = some (HALT : Int) := by
  obtain ⟨m, hrun, hhalt, hip, hfp, htop, hst, -, -⟩ := two_arg_call_run g ds a b (fuel - 7)
  have e : 7 + (fuel - 7) = fuel := by omega
  rw [e] at hrun
  refine ⟨m, hrun, htop, ?_, ?_, ?_, hfp, hip, hhalt⟩
  · rw [hst]
  · rw [hst]
  · intro h
    rw [hst, to_int32_of_is_int32 _ h]

theorem two_argument_call_witness :
    ∃ m, run_vm Machine.startup 0 (two_arg_call 40 2) 0 7 = Run.halted 7 m ∧
      m.vm.stack.top = 1 ∧
      (m.vm.stack.stack 0).i32 = some (to_int32 (40 + 2)) ∧
      (m.vm.stack.stack 0).type = some ICONST ∧
      (is_int32 (40 + 2) → (m.vm.stack.stack 0).i32 = some (40 + 2)) ∧
      m.vm.fp = 0 ∧ m.vm.ip = 7 ∧ m.vm.opcodes[m.vm.ip]? = some (HALT : Int) :=
  two_argument_call Machine.startup 0 40 2 7 (by decide)

/-! ## C9: the output log -/

theorem on_vm_output (h : instruction) (m m1 : Machine) (e : on_vm h m = Step.ok m1) :
    m1.output = m.output ∧ m1.output_index = m.output_index := by
  unfold on_vm at e
  cases hh : h m.vm with
  | ok vm =>
    rw [hh] at e
    injection e with e
    subst e
    exact ⟨rfl, rfl⟩
  | fatal e2 vm =>
    rw [hh] at e
    cases e
  | undefined =>
    rw [hh] at e
    cases e

theorem step_output (m m1 : Machine) (hs : step m = some (Step.ok m1)) :
    (m.vm.opcodes[m.vm.ip]? ≠ some (SYS_WRITE : Int) →
      m1.output = m.output ∧ m1.output_index = m.output_index) ∧
    (m.vm.opcodes[m.vm.ip]? = some (SYS_WRITE : Int) → op_syswrite m = Step.ok m1) := by
  unfold step at hs
  cases hw : m.vm.opcodes[m.vm.ip]? with
  | none =>
    rw [hw] at hs
    cases hs
  | some w =>
    rw [hw] at hs
    dsimp only at hs
    by_cases hh : w = (HALT : Int)
    · rw [if_pos hh] at hs
      cases hs
    · rw [if_neg hh] at hs
      injection hs with hs
      unfold dispatch at hs
      by_cases hr : 0 ≤ w ∧ w < 256
      · rw [if_pos hr] at hs
        constructor
        · intro hne
          have hn : w.toNat ≠ SYS_WRITE := by
            intro hc
            apply hne
            have : w = (SYS_WRITE : Int) := by
              rw [← hc]
              omega
            rw [this]
          obtain ⟨h, hh2⟩ := init_vm_other w.toNat hn
          rw [hh2] at hs
          exact on_vm_output h m m1 hs
        · intro he
          injection he with he
          have htab : init_vm w.toNat = op_syswrite := by
            rw [he]
            rfl
          rw [htab] at hs
          exact hs
      · rw [if_neg hr] at hs
        cases hs

theorem op_syswrite_ok_inv (m m1 : Machine) (h : op_syswrite m = Step.ok m1) :
    0 < m.vm.stack.top ∧
      0 ≤ (if m.output_index = 1000 then 0 else m.output_index) ∧
      (if m.output_index = 1000 then 0 else m.output_index) < 1000 ∧
      m1.output = Function.update m.output (if m.output_index = 1000 then 0 else m.output_index)
        { o := m.vm.stack.stack (m.vm.stack.top - 1), loc := to_int32 m.vm.ip } ∧
      m1.output_index = (if m.output_index = 1000 then 0 else m.output_index) + 1 ∧
      m1.vm.stack.top = m.vm.stack.top - 1 ∧
      m1.vm.stack.stack = m.vm.stack.stack ∧
      m1.vm.ip = (m.vm.ip + 1) % 4294967296 := by
  unfold op_syswrite vm_pop_stack at h
  by_cases h0 : m.vm.stack.top > 0
  · rw [if_pos h0] at h
    by_cases h1 : m.vm.stack.top - 1 < m.vm.stack.size
    · rw [if_pos h1] at h
      dsimp only [MAX_OUTPUT] at h
      by_cases h2 : 0 ≤ (if m.output_index = 1000 then 0 else m.output_index) ∧
          (if m.output_index = 1000 then 0 else m.output_index) < 1000
      · rw [if_pos h2] at h
        injection h with h
        subst h
        exact ⟨h0, h2.1, h2.2, rfl, rfl, rfl, rfl, rfl⟩
      · rw [if_neg h2] at h
        cases h
    · rw [if_neg h1] at h
      cases h
  · rw [if_neg h0] at h
    cases h

theorem emitted_logged (n : Nat) :
    ∀ m mN : Machine, iterate_loop n m = some mN → 0 ≤ m.output_index →
      m.output_index + (emitted n m).length ≤ 1000 →
      mN.output_index = m.output_index + (emitted n m).length ∧
      (∀ i, i < m.output_index → mN.output i = m.output i) ∧
      ∀ t : Nat, t < (emitted n m).length →
        (emitted n m)[t]? = some (mN.output (m.output_index + t)) := by
  induction n with
  | zero =>
    intro m mN hit _ _
    simp only [iterate_loop] at hit
    injection hit with hit
    subst hit
    refine ⟨by simp [emitted], fun i _ => rfl, ?_⟩
    intro t ht
    simp [emitted] at ht
  | succ n ih =>
    intro m mN hit h0 hlen
    cases hs : step m with
    | none =>
      simp only [iterate_loop, hs] at hit
      cases hit
    | some r =>
      cases r with
      | fatal e m1 =>
        simp only [iterate_loop, hs] at hit
        cases hit
      | undefined =>
        simp only [iterate_loop, hs] at hit
        cases hit
      | ok m1 =>
        simp only [iterate_loop, hs] at hit
        obtain ⟨hother, hsys⟩ := step_output m m1 hs
        by_cases hw : m.vm.opcodes[m.vm.ip]? = some (SYS_WRITE : Int)
        · have hem : emitted (n + 1) m
              = { o := m.vm.stack.stack (m.vm.stack.top - 1), loc := to_int32 m.vm.ip }
                :: emitted n m1 := by
            simp only [emitted, hs, hw, if_true]
          rw [hem] at hlen ⊢
          simp only [List.length_cons, Nat.cast_add, Nat.cast_one] at hlen ⊢
          obtain ⟨-, -, -, hout, hoi, -, -, -⟩ := op_syswrite_ok_inv m m1 (hsys hw)
          have hne : m.output_index ≠ 1000 := by omega
          rw [if_neg hne] at hout hoi
          obtain ⟨i1, i2, i3⟩ := ih m1 mN hit (by omega) (by omega)
          refine ⟨by omega, ?_, ?_⟩
          · intro i hi
            rw [i2 i (by omega), hout, Function.update_noteq (by omega)]
          · intro t ht
            cases t with
            | zero =>
              simp only [List.getElem?_cons_zero, Nat.cast_zero, Int.add_zero]
              rw [i2 _ (by omega), hout, Function.update_same]
            | succ t =>
              simp only [List.getElem?_cons_succ]
              rw [i3 t (by omega), hoi]
              congr 2
              push_cast
              omega
        · have hem : emitted (n + 1) m = emitted n m1 := by
            simp only [emitted, hs, hw, if_false]
          rw [hem] at hlen ⊢
          obtain ⟨hout, hoi⟩ := hother hw
          obtain ⟨i1, i2, i3⟩ := ih m1 mN hit (by omega) (by omega)
          refine ⟨by omega, ?_, ?_⟩
          · intro i hi
            rw [i2 i (by omega), hout]
          · intro t ht
            rw [i3 t ht, hoi]

theorem run_loop_iterate (fuel : Nat) :
    ∀ (n : Nat) (m : Machine) (n1 : Nat) (mN : Machine),
      run_loop fuel n m = Run.halted n1 mN →
      ∃ j, n1 = n + j ∧ iterate_loop j m = some mN := by
  induction fuel with
  | zero =>
    intro n m n1 mN h
    cases hs : step m with
    | none =>
      rw [run_loop_halted _ _ _ hs] at h
      injection h with h1 h2
      exact ⟨0, by omega, by rw [h2]; rfl⟩
    | some r =>
      rw [run_loop_zero_running _ _ _ hs] at h
      cases h
  | succ f ih =>
    intro n m n1 mN h
    cases hs : step m with
    | none =>
      rw [run_loop_halted _ _ _ hs] at h
      injection h with h1 h2
      exact ⟨0, by omega, by rw [h2]; rfl⟩
    | some r =>
      cases r with
      | ok m2 =>
        rw [run_loop_succ_ok _ _ _ _ hs] at h
        obtain ⟨j, hj, hit⟩ := ih _ _ _ _ h
        refine ⟨j + 1, by omega, ?_⟩
        simp only [iterate_loop, hs]
        exact hit
      | fatal e2 m2 =>
        simp only [run_loop, hs] at h
        cases h
      | undefined =>
        simp only [run_loop, hs] at h
        cases h

theorem drained_eq_of_logged (m : Machine) (l : List OutputInfo)
    (hoi : m.output_index = l.length)
    (hl : ∀ t : Nat, t < l.length → l[t]? = some (m.output t)) : drained m = l := by
  apply List.ext_getElem?
  intro t
  unfold drained
  rw [hoi, Int.toNat_natCast, List.getElem?_map]
  by_cases ht : t < l.length
  · rw [hl t ht, List.getElem?_range ht]
    rfl
  · have h1 : l[t]? = none := List.getElem?_eq_none (by omega)
    have h2 : (List.range l.length)[t]? = none :=
      List.getElem?_eq_none (by rw [List.length_range]; omega)
    rw [h1, h2]
    rfl

/-- C9: a run of `run_vm` that starts with an empty output log (`output_index = 0`) and
halts after `n` instruction steps, `N < 1000` of which execute `SYS_WRITE`, ends with
`output_index = N` and with a log whose entry `k < N` holds the value that was on top of the
stack when the `(k+1)`-th `SYS_WRITE` executed, together with the instruction pointer at that
time (as the `int` stored in `loc`): the drained log is the list of emissions in emission
order. A `SYS_WRITE` that succeeds pops one value (the slots are untouched) and advances `ip`
by 1 (modulo `2^32`). -/
theorem output_log_order (g : Machine) (ds : Nat) (ops : List Int) (main fuel n : Nat)
    (mN : Machine) (hg : g.output_index = 0)
    (hrun : run_vm g ds ops main fuel = Run.halted n mN)
    (hN : (emitted n { g with vm := { create_vm ds main with opcodes := ops } }).length < 1000) :
    mN.output_index
        = (emitted n { g with vm := { create_vm ds main with opcodes := ops } }).length ∧
      drained mN = emitted n { g with vm := { create_vm ds main with opcodes := ops } } ∧
      (∀ k : Nat,
        k < (emitted n { g with vm := { create_vm ds main with opcodes := ops } }).length →
        (emitted n { g with vm := { create_vm ds main with opcodes := ops } })[k]?
          = some (mN.output k)) ∧
      (∀ m m1 : Machine, op_syswrite m = Step.ok m1 →
        m1.vm.stack.top = m.vm.stack.top - 1 ∧ m1.vm.stack.stack = m.vm.stack.stack ∧
        m1.vm.ip = (m.vm.ip + 1) % 4294967296 ∧
        (m.vm.ip + 1 < 4294967296 → m1.vm.ip = m.vm.ip + 1) ∧
        m1.output (if m.output_index = 1000 then 0 else m.output_index)
          = { o := m.vm.stack.stack (m.vm.stack.top - 1), loc := to_int32 m.vm.ip }) := by
  unfold run_vm at hrun
  obtain ⟨j, hj, hit⟩ := run_loop_iterate _ _ _ _ _ hrun
  have hnj : n = j := by omega
  subst hnj
  obtain ⟨i1, -, i3⟩ := emitted_logged n _ mN hit (by show (0 : Int) ≤ g.output_index; omega)
    (by show g.output_index + _ ≤ 1000; omega)
  have hoi : mN.output_index
      = (emitted n { g with vm := { create_vm ds main with opcodes := ops } }).length := by
    rw [i1]
    show g.output_index + _ = _
    omega
  have hk : ∀ k : Nat,
      k < (emitted n { g with vm := { create_vm ds main with opcodes := ops } }).length →
      (emitted n { g with vm := { create_vm ds main with opcodes := ops } })[k]?
        = some (mN.output k) := by
    intro k hk
    rw [i3 k hk]
    show some (mN.output (g.output_index + k)) = _
    rw [hg, Int.zero_add]
  refine ⟨hoi, drained_eq_of_logged mN _ hoi hk, hk, ?_⟩
  intro m m1 h
  obtain ⟨-, -, -, hout, -, htop, hst, hip⟩ := op_syswrite_ok_inv m m1 h
  refine ⟨htop, hst, hip, ?_, ?_⟩
  · intro hlt
    rw [hip]
    omega
  · rw [hout, Function.update_same]

theorem output_log_order_witness :
    ∃ mN, run_vm Machine.startup 0 program 0 4 = Run.halted 4 mN ∧
      mN.output_index = (emitted 4 { Machine.startup with
        vm := { create_vm 0 0 with opcodes := program } }).length ∧
      drained mN = emitted 4 { Machine.startup with
        vm := { create_vm 0 0 with opcodes := program } } ∧
      emitted 4 { Machine.startup with vm := { create_vm 0 0 with opcodes := program } }
        = [{ o := { type := some ICONST, i32 := some 15, u8 := none }, loc := 5 }] := by
  obtain ⟨mN, hrun, -⟩ := program_run Machine.startup rfl 0
  obtain ⟨h1, h2, -, -⟩ :=
    output_log_order Machine.startup 0 program 0 4 4 mN rfl hrun (by decide)
  exact ⟨mN, hrun, h1, h2, by decide⟩

/-! ## C12: the dispatch table -/

theorem init_vm_unregistered (n : Nat) (h27 : 27 ≤ n) : init_vm n = on_vm op_nop := by
  have h : ∀ k : Nat, k < 27 → n ≠ k := fun k hk => by omega
  unfold init_vm
  simp only [CHARCONST, SYS_WRITE, ICONST, POP, IADD, ISUB, IMUL, IDIV, IMOD, IEQ, INEQ, ILT,
    IGT, IGTE, ILTE, IAND, IOR, GLOAD, GSTORE, JMP, JMPT, JMPN, CALL, RET, LOAD, STORE]
  repeat rw [Function.update_noteq (h _ (by norm_num))]

/-- C12: after `init_vm`, dispatching an opcode byte `w` with `27 ≤ w ≤ 255` (not registered,
and not `HALT`) increases `ip` by exactly 1 (modulo `2^32`) and leaves the stack, `fp`, the
data segment and the output log unchanged; each of the 26 opcodes of the enumeration other
than `HALT` is mapped to its own handler, which is not the no-op (on the start-up state the
no-op returns and none of the 26 does). -/
theorem unknown_opcode_no_op (w : Int) (m : Machine) (h0 : 27 ≤ w) (h1 : w ≤ 255) :
    (∃ m1, dispatch w m = Step.ok m1 ∧
      m1.vm.ip = (m.vm.ip + 1) % 4294967296 ∧
      (m.vm.ip + 1 < 4294967296 → m1.vm.ip = m.vm.ip + 1) ∧
      m1.vm.stack = m.vm.stack ∧ m1.vm.fp = m.vm.fp ∧ m1.vm.data = m.vm.data ∧
      m1.vm.data_size = m.vm.data_size ∧ m1.vm.opcodes = m.vm.opcodes ∧
      m1.output = m.output ∧ m1.output_index = m.output_index) ∧
    (init_vm IADD = on_vm op_iadd ∧ init_vm ISUB = on_vm op_isub ∧
      init_vm IMUL = on_vm op_imul ∧ init_vm IDIV = on_vm op_idiv ∧
      init_vm IMOD = on_vm op_imod ∧ init_vm IEQ = on_vm op_ieq ∧
      init_vm INEQ = on_vm op_ineq ∧ init_vm ILT = on_vm op_ilt ∧
      init_vm IGT = on_vm op_igt ∧ init_vm ILTE = on_vm op_ilte ∧
      init_vm IGTE = on_vm op_igte ∧ init_vm IAND = on_vm op_iand ∧
      init_vm IOR = on_vm op_ior ∧ init_vm ICONST = on_vm op_iconst ∧
      init_vm POP = on_vm op_pop ∧ init_vm SYS_WRITE = op_syswrite ∧
      init_vm STORE = on_vm op_store ∧ init_vm GSTORE = on_vm op_gstore ∧
      init_vm LOAD = on_vm op_load ∧ init_vm GLOAD = on_vm op_gload ∧
      init_vm CHARCONST = on_vm op_charconst ∧ init_vm JMP = on_vm op_jmp ∧
      init_vm JMPT = on_vm op_jmpt ∧ init_vm JMPN = on_vm op_jmpn ∧
      init_vm CALL = on_vm op_call ∧ init_vm RET = on_vm op_ret) ∧
    (on_vm op_nop Machine.startup).is_ok = true ∧
    (∀ k : Nat, k < 27 → k ≠ HALT → (init_vm k Machine.startup).is_ok = false) := by
  refine ⟨?_, ?_, rfl, ?_⟩
  · have hr : 0 ≤ w ∧ w < 256 := by omega
    have hd : dispatch w m = Step.ok { m with vm := { m.vm with ip := u32_add m.vm.ip 1 } } := by
      simp only [dispatch, hr, and_self, if_true, init_vm_unregistered w.toNat (by omega), on_vm,
        op_nop]
    refine ⟨_, hd, rfl, fun h => u32_add_of_lt _ _ h, rfl, rfl, rfl, rfl, rfl, rfl, rfl⟩
  · exact ⟨rfl, rfl, rfl, rfl, rfl, rfl, rfl, rfl, rfl, rfl, rfl, rfl, rfl, rfl, rfl, rfl, rfl,
      rfl, rfl, rfl, rfl, rfl, rfl, rfl, rfl, rfl⟩
  · intro k hk hne
    interval_cases k <;> first | rfl | exact absurd rfl hne

theorem unknown_opcode_no_op_witness :
    (∃ m1, dispatch 200 Machine.startup = Step.ok m1 ∧
      m1.vm.ip = (Machine.startup.vm.ip + 1) % 4294967296 ∧
      m1.vm.stack = Machine.startup.vm.stack ∧ m1.vm.fp = Machine.startup.vm.fp ∧
      m1.vm.data = Machine.startup.vm.data ∧ m1.output = Machine.startup.output ∧
      m1.output_index = Machine.startup.output_index) := by
  obtain ⟨⟨m1, h, hip, -, hst, hfp, hd, -, -, ho, hoi⟩, -⟩ :=
    unknown_opcode_no_op 200 Machine.startup (by decide) (by decide)
  exact ⟨m1, h, hip, hst, hfp, hd, ho, hoi⟩

/-! ## C13: the frame written by `CALL` -/

/-- C13 (as amended): in a state with stack top `T ≥ 0`, `T + 3` within the capacity, and
frame pointer `F0`, `CALL target nargs` at index `c = ip` pushes exactly three values, in
order: slot `T` with `i32 = nargs`, slot `T + 1` with `i32 = F0`, slot `T + 2` with
`i32 = c + 2`, the index of the call's last immediate (`RET` adds the final 1); their tags
are not assigned. It then sets `fp = T + 3`, the new stack top, and `ip = target`, leaving
every other slot and the data segment unchanged. -/
theorem call_frame_layout (s0 : VM) (target nargs : Int)
    (hT : s0.opcodes[u32_add s0.ip 1]? = some target)
    (hN : s0.opcodes[u32_add (u32_add s0.ip 1) 1]? = some nargs)
    (h0 : 0 ≤ s0.stack.top) (hcap : s0.stack.top + 3 ≤ s0.stack.size)
    (hsize : s0.stack.size ≤ 2147483647) :
    ∃ s1, op_call s0 = Step.ok s1 ∧
      s1.stack.top = s0.stack.top + 3 ∧
      (s1.stack.stack s0.stack.top).i32 = some nargs ∧
      (s1.stack.stack (s0.stack.top + 1)).i32 = some s0.fp ∧
      (s1.stack.stack (s0.stack.top + 2)).i32 = some (to_int32 ((s0.ip + 2) % 4294967296 : Nat)) ∧
      (s0.ip + 2 < 2147483648 →
        (s1.stack.stack (s0.stack.top + 2)).i32 = some ((s0.ip : Int) + 2)) ∧
      (s1.stack.stack s0.stack.top).type = none ∧
      (s1.stack.stack (s0.stack.top + 1)).type = none ∧
      (s1.stack.stack (s0.stack.top + 2)).type = none ∧
      s1.fp = s0.stack.top + 3 ∧ s1.ip = to_uint32 target ∧
      (0 ≤ target → target < 4294967296 → (s1.ip : Int) = target) ∧
      (∀ i, i < s0.stack.top ∨ s0.stack.top + 3 ≤ i → s1.stack.stack i = s0.stack.stack i) ∧
      s1.stack.size = s0.stack.size ∧
      s1.data = s0.data ∧ s1.data_size = s0.data_size ∧ s1.opcodes = s0.opcodes := by
  have e2 : s0.stack.top + 2 = s0.stack.top + 1 + 1 := by omega
  have hsaved : u32_add (u32_add s0.ip 1) 1 = (s0.ip + 2) % 4294967296 := by
    rw [u32_add_add]
    rfl
  have hslot2 : (Function.update (Function.update (Function.update s0.stack.stack
      s0.stack.top { Object.indeterminate with i32 := some nargs })
      (s0.stack.top + 1) (obj_push s0.fp))
      (s0.stack.top + 1 + 1) (obj_push (to_int32 (u32_add (u32_add s0.ip 1) 1)))
      (s0.stack.top + 2)) = obj_push (to_int32 ((s0.ip + 2) % 4294967296 : Nat)) := by
    rw [e2, Function.update_same, hsaved]
  have hslot1 : (Function.update (Function.update (Function.update s0.stack.stack
      s0.stack.top { Object.indeterminate with i32 := some nargs })
      (s0.stack.top + 1) (obj_push s0.fp))
      (s0.stack.top + 1 + 1) (obj_push (to_int32 (u32_add (u32_add s0.ip 1) 1)))
      (s0.stack.top + 1)) = obj_push s0.fp := by
    rw [Function.update_noteq (by omega), Function.update_same]
  have hslot0 : (Function.update (Function.update (Function.update s0.stack.stack
      s0.stack.top { Object.indeterminate with i32 := some nargs })
      (s0.stack.top + 1) (obj_push s0.fp))
      (s0.stack.top + 1 + 1) (obj_push (to_int32 (u32_add (u32_add s0.ip 1) 1)))
      s0.stack.top) = { Object.indeterminate with i32 := some nargs } := by
    rw [Function.update_noteq (by omega), Function.update_noteq (by omega),
      Function.update_same]
  refine ⟨_, op_call_eq s0 target nargs hT hN h0 hcap, ?_, ?_, ?_, ?_, ?_, ?_, ?_, ?_, ?_, rfl,
    to_uint32_of_nonneg target, ?_, rfl, rfl, rfl, rfl⟩
  · show s0.stack.top + 1 + 1 + 1 = _
    omega
  · dsimp only
    rw [hslot0]
  · dsimp only
    rw [hslot1]
    rfl
  · dsimp only
    rw [hslot2]
    rfl
  · intro hlt
    dsimp only
    rw [hslot2]
    have hv : to_int32 ((s0.ip + 2) % 4294967296 : Nat) = (s0.ip : Int) + 2 := by
      unfold to_int32
      omega
    show some (to_int32 ((s0.ip + 2) % 4294967296 : Nat)) = _
    rw [hv]
  · dsimp only
    rw [hslot0]
    rfl
  · dsimp only
    rw [hslot1]
    rfl
  · dsimp only
    rw [hslot2]
    rfl
  · show to_int32 (s0.stack.top + 1 + 1 + 1) = _
    rw [to_int32_of_is_int32 _ (by unfold is_int32; omega)]
    omega
  · intro i hi
    dsimp only
    rw [Function.update_noteq (by omega), Function.update_noteq (by omega),
      Function.update_noteq (by omega)]

theorem call_frame_layout_witness :
    ∃ s1, op_call call_vm = Step.ok s1 ∧
      s1.stack.top = 5 ∧
      (s1.stack.stack 2).i32 = some 2 ∧
      (s1.stack.stack 3).i32 = some 0 ∧
      (s1.stack.stack 4).i32 = some 6 ∧
      s1.fp = 5 ∧ s1.ip = 8 := by
  obtain ⟨s1, h, htop, ha, hf, -, hi, -, -, -, hfp, hip, -⟩ :=
    call_frame_layout call_vm 8 2 (by decide) (by decide) (by decide) (by decide) (by decide)
  exact ⟨s1, h, htop, ha, hf, hi (by decide), hfp, hip⟩

/-- C13 fails as stated: `CALL 8 2` at index `c = 4` saves the instruction pointer 6 (`c + 2`)
in slot `T + 2 = 4`, not 7 (`c + 3`). -/
theorem call_saves_last_immediate :
    call_vm.ip = 4 ∧ call_vm.stack.top = 2 ∧
      ∃ s1, op_call call_vm = Step.ok s1 ∧ (s1.stack.stack 4).i32 = some 6 ∧
        (s1.stack.stack 4).i32 ≠ some (4 + 3) := by
  refine ⟨rfl, rfl, _, op_call_eq call_vm 8 2 (by decide) (by decide) (by decide) (by decide),
    by decide, by decide⟩

/-! ## C14: comparison and logical operators -/

theorem binary_on_values (vm : VM) (operator : Char) (r : Option Int)
    (h0 : 2 ≤ vm.stack.top) (h1 : vm.stack.top ≤ vm.stack.size)
    (hres : operate_i32 operator (vm.stack.stack (vm.stack.top - 2)).i32
      (vm.stack.stack (vm.stack.top - 1)).i32 = Res.ok r) :
    ∃ v, operate_on_operands vm operator = Step.ok v ∧
      v.stack.top = vm.stack.top - 1 ∧
      v.stack.stack (vm.stack.top - 2)
        = { type := (vm.stack.stack (vm.stack.top - 1)).type, i32 := r, u8 := none } ∧
      (∀ i, i ≠ vm.stack.top - 2 → v.stack.stack i = vm.stack.stack i) ∧
      v.stack.size = vm.stack.size ∧
      v.ip = (vm.ip + 1) % 4294967296 ∧
      v.fp = vm.fp ∧ v.data = vm.data ∧ v.data_size = vm.data_size ∧
      v.opcodes = vm.opcodes := by
  have e : vm.stack.top - 1 - 1 = vm.stack.top - 2 := by omega
  have hres1 : operate_i32 operator (vm.stack.stack (vm.stack.top - 1 - 1)).i32
      (vm.stack.stack (vm.stack.top - 1)).i32 = Res.ok r := by
    rw [e]
    exact hres
  refine ⟨_, operate_on_operands_eq vm operator r h0 h1 hres1, ?_, ?_, ?_, rfl, rfl, rfl, rfl,
    rfl, rfl⟩
  · show vm.stack.top - 1 - 1 + 1 = _
    omega
  · dsimp only
    rw [e, Function.update_same]
  · intro i hi
    dsimp only
    rw [e, Function.update_noteq hi]

theorem truth_result_of (vm v : VM) (r : Int) (o : Object) (hr : r = 0 ∨ r = 1)
    (h : v.stack.top = vm.stack.top - 1 ∧
      v.stack.stack (vm.stack.top - 2) = { type := o.type, i32 := some r, u8 := none } ∧
      (∀ i, i ≠ vm.stack.top - 2 → v.stack.stack i = vm.stack.stack i) ∧
      v.stack.size = vm.stack.size ∧
      v.ip = (vm.ip + 1) % 4294967296 ∧
      v.fp = vm.fp ∧ v.data = vm.data ∧ v.data_size = vm.data_size ∧
      v.opcodes = vm.opcodes) : truth_result vm v r := by
  obtain ⟨h1, h2, h3, -, h5, -⟩ := h
  refine ⟨h1, ?_, hr, ?_, h5⟩
  · rw [h2]
  · intro i hi
    exact h3 i (by omega)

theorem ite_zero_or_one (p : Prop) [Decidable p] :
    (if p then (1 : Int) else 0) = 0 ∨ (if p then (1 : Int) else 0) = 1 := by
  by_cases h : p
  · rw [if_pos h]
    exact Or.inr rfl
  · rw [if_neg h]
    exact Or.inl rfl

theorem operate_i32_and (a b : Int) :
    operate_i32 'a' (some a) (some b) = Res.ok (some (if a ≠ 0 ∧ b ≠ 0 then 1 else 0)) := by
  show (if a = 0 then Res.ok (some 0)
    else Res.ok (do let y ← some b; pure (if y ≠ 0 then 1 else 0))) = _
  by_cases ha : a = 0
  · simp [ha]
  · by_cases hb : b = 0
    · simp [ha, hb]
    · simp [ha, hb]

theorem operate_i32_or (a b : Int) :
    operate_i32 'o' (some a) (some b) = Res.ok (some (if a ≠ 0 ∨ b ≠ 0 then 1 else 0)) := by
  show (if a ≠ 0 then Res.ok (some 1)
    else Res.ok (do let y ← some b; pure (if y ≠ 0 then 1 else 0))) = _
  by_cases ha : a = 0
  · by_cases hb : b = 0
    · simp [ha, hb]
    · simp [ha, hb]
  · simp [ha]

/-- C14: for two values on the stack with `i32` fields `a` (pushed first) and `b` (pushed
second), `IEQ`, `INEQ`, `ILT`, `IGT`, `ILTE`, `IGTE` push a value whose `i32` is 1 if
respectively `a = b`, `a ≠ b`, `a < b`, `a > b`, `a ≤ b`, `a ≥ b` and 0 otherwise; `IAND`
pushes 1 if both are nonzero and 0 otherwise; `IOR` pushes 1 if at least one is nonzero and 0
otherwise. In every case both operands are popped, the result is 0 or 1, the depth decreases
by 1 and `ip` advances by 1. -/
theorem comparison_and_logical (vm : VM) (a b : Int)
    (h0 : 2 ≤ vm.stack.top) (h1 : vm.stack.top ≤ vm.stack.size)
    (ha : (vm.stack.stack (vm.stack.top - 2)).i32 = some a)
    (hb : (vm.stack.stack (vm.stack.top - 1)).i32 = some b) :
    (∃ v, op_ieq vm = Step.ok v ∧ truth_result vm v (if a = b then 1 else 0)) ∧
    (∃ v, op_ineq vm = Step.ok v ∧ truth_result vm v (if a ≠ b then 1 else 0)) ∧
    (∃ v, op_ilt vm = Step.ok v ∧ truth_result vm v (if a < b then 1 else 0)) ∧
    (∃ v, op_igt vm = Step.ok v ∧ truth_result vm v (if a > b then 1 else 0)) ∧
    (∃ v, op_ilte vm = Step.ok v ∧ truth_result vm v (if a ≤ b then 1 else 0)) ∧
    (∃ v, op_igte vm = Step.ok v ∧ truth_result vm v (if a ≥ b then 1 else 0)) ∧
    (∃ v, op_iand vm = Step.ok v ∧ truth_result vm v (if a ≠ 0 ∧ b ≠ 0 then 1 else 0)) ∧
    (∃ v, op_ior vm = Step.ok v ∧ truth_result vm v (if a ≠ 0 ∨ b ≠ 0 then 1 else 0)) := by
  have key : ∀ (operator : Char) (r : Int), (r = 0 ∨ r = 1) →
      operate_i32 operator (some a) (some b) = Res.ok (some r) →
      ∃ v, operate_on_operands vm operator = Step.ok v ∧ truth_result vm v r := by
    intro operator r hr hres
    obtain ⟨v, hv, hrest⟩ := binary_on_values vm operator (some r) h0 h1
      (by rw [ha, hb]; exact hres)
    exact ⟨v, hv, truth_result_of vm v r _ hr hrest⟩
  exact ⟨key '=' _ (ite_zero_or_one _) rfl, key '!' _ (ite_zero_or_one _) rfl,
    key '<' _ (ite_zero_or_one _) rfl, key '>' _ (ite_zero_or_one _) rfl,
    key 'l' _ (ite_zero_or_one _) rfl, key 'g' _ (ite_zero_or_one _) rfl,
    key 'a' _ (ite_zero_or_one _) (operate_i32_and a b),
    key 'o' _ (ite_zero_or_one _) (operate_i32_or a b)⟩

theorem comparison_and_logical_witness :
    (∃ v, op_ieq two_values_vm = Step.ok v ∧ truth_result two_values_vm v 0) ∧
    (∃ v, op_ineq two_values_vm = Step.ok v ∧ truth_result two_values_vm v 1) ∧
    (∃ v, op_ilt two_values_vm = Step.ok v ∧ truth_result two_values_vm v 1) ∧
    (∃ v, op_igt two_values_vm = Step.ok v ∧ truth_result two_values_vm v 0) ∧
    (∃ v, op_ilte two_values_vm = Step.ok v ∧ truth_result two_values_vm v 1) ∧
    (∃ v, op_igte two_values_vm = Step.ok v ∧ truth_result two_values_vm v 0) ∧
    (∃ v, op_iand two_values_vm = Step.ok v ∧ truth_result two_values_vm v 1) ∧
    (∃ v, op_ior two_values_vm = Step.ok v ∧ truth_result two_values_vm v 1) :=
  comparison_and_logical two_values_vm 3 12 (by decide) (by decide) (by decide) (by decide)

/-! ## What a handler that returned has done -/

theorem vm_pop_stack_inv (st : VMStack) (o : Object) (st1 : VMStack)
    (h : vm_pop_stack st = Res.ok (o, st1)) :
    0 < st.top ∧ st.top ≤ st.size ∧ o = st.stack (st.top - 1) ∧
      st1 = { st with top := st.top - 1 } := by
  unfold vm_pop_stack at h
  by_cases h0 : st.top > 0
  · rw [if_pos h0] at h
    by_cases h1 : st.top - 1 < st.size
    · rw [if_pos h1] at h
      injection h with h
      injection h with ho hs
      exact ⟨h0, by omega, ho.symm, hs.symm⟩
    · rw [if_neg h1] at h
      cases h
  · rw [if_neg h0] at h
    cases h

theorem vm_push_stack_inv (st : VMStack) (o : Object) (t : Int) (st1 : VMStack)
    (h : vm_push_stack st o = Res.ok (t, st1)) :
    0 ≤ st.top ∧ st.top < st.size ∧
      st1 = { st with stack := Function.update st.stack st.top o, top := st.top + 1 } := by
  unfold vm_push_stack at h
  by_cases h0 : 0 ≤ st.top ∧ st.top < st.size
  · rw [if_pos h0] at h
    injection h with h
    injection h with _ hs
    exact ⟨h0.1, h0.2, hs.symm⟩
  · rw [if_neg h0] at h
    cases h

theorem vm_push_stack_not_fatal (st : VMStack) (o : Object) (e : Fatal) :
    vm_push_stack st o ≠ Res.fatal e := by
  unfold vm_push_stack
  split <;> intro h <;> cases h

theorem operate_on_operands_inv (vm : VM) (operator : Char) (v : VM)
    (h : operate_on_operands vm operator = Step.ok v) :
    2 ≤ vm.stack.top ∧ vm.stack.top ≤ vm.stack.size ∧
      ∃ r, operate_i32 operator (vm.stack.stack (vm.stack.top - 1 - 1)).i32
          (vm.stack.stack (vm.stack.top - 1)).i32 = Res.ok r ∧
        v = { vm with
          stack := { vm.stack with
            stack := Function.update vm.stack.stack (vm.stack.top - 1 - 1)
              { type := (vm.stack.stack (vm.stack.top - 1)).type, i32 := r, u8 := none }
            top := vm.stack.top - 1 - 1 + 1 }
          ip := u32_add vm.ip 1 } := by
  unfold operate_on_operands at h
  cases hp2 : vm_pop_stack vm.stack with
  | fatal e =>
    rw [hp2] at h
    cases h
  | undefined =>
    rw [hp2] at h
    cases h
  | ok p2 =>
    obtain ⟨o2, st1⟩ := p2
    rw [hp2] at h
    dsimp only at h
    obtain ⟨a0, a1, ho2, hst1⟩ := vm_pop_stack_inv _ _ _ hp2
    cases hp1 : vm_pop_stack st1 with
    | fatal e =>
      rw [hp1] at h
      cases h
    | undefined =>
      rw [hp1] at h
      cases h
    | ok p1 =>
      obtain ⟨o1, st2⟩ := p1
      rw [hp1] at h
      dsimp only at h
      obtain ⟨b0, b1, ho1, hst2⟩ := vm_pop_stack_inv _ _ _ hp1
      cases hr : operate_i32 operator o1.i32 o2.i32 with
      | fatal e =>
        rw [hr] at h
        cases h
      | undefined =>
        rw [hr] at h
        cases h
      | ok r =>
        rw [hr] at h
        dsimp only at h
        cases hq : vm_push_stack st2 { type := o2.type, i32 := r, u8 := none } with
        | fatal e =>
          rw [hq] at h
          cases h
        | undefined =>
          rw [hq] at h
          cases h
        | ok q =>
          obtain ⟨t, st3⟩ := q
          rw [hq] at h
          dsimp only at h
          obtain ⟨c0, c1, hst3⟩ := vm_push_stack_inv _ _ _ _ hq
          injection h with h
          subst hst1
          subst hst2
          subst hst3
          subst ho2
          subst ho1
          subst h
          exact ⟨by simpa using b0, a1, r, hr, rfl⟩

/-! ## C17: the tag of a result -/

theorem operate_i32_total (operator : Char) (a b : Option Int)
    (hd : operator ≠ '/') (hm : operator ≠ '%') : ∃ r, operate_i32 operator a b = Res.ok r := by
  unfold operate_i32
  split
  · exact ⟨_, rfl⟩
  · exact ⟨_, rfl⟩
  · exact ⟨_, rfl⟩
  · exact absurd rfl hd
  · exact absurd rfl hm
  · exact ⟨_, rfl⟩
  · exact ⟨_, rfl⟩
  · exact ⟨_, rfl⟩
  · exact ⟨_, rfl⟩
  · exact ⟨_, rfl⟩
  · exact ⟨_, rfl⟩
  · split
    · split
      · exact ⟨_, rfl⟩
      · exact ⟨_, rfl⟩
    · exact ⟨_, rfl⟩
  · split
    · split
      · exact ⟨_, rfl⟩
      · exact ⟨_, rfl⟩
    · exact ⟨_, rfl⟩
  · exact ⟨_, rfl⟩

theorem op_charconst_eq (vm : VM) (w : Int) (himm : vm.opcodes[u32_add vm.ip 1]? = some w)
    (h0 : 0 ≤ vm.stack.top) (hcap : vm.stack.top < vm.stack.size) :
    op_charconst vm = Step.ok { vm with
      stack := { vm.stack with
        stack := Function.update vm.stack.stack vm.stack.top
          { type := some CHARCONST, u8 := some (w % 256).toNat, i32 := none }
        top := vm.stack.top + 1 }
      ip := u32_add vm.ip 2 } := by
  simp only [op_charconst, himm, vm_push_stack_ok _ _ h0 hcap]

theorem push_push_operate (vm vm2 : VM) (o1 o2 : Object) (operator : Char) (r : Option Int)
    (h0 : 0 ≤ vm.stack.top) (hcap : vm.stack.top + 2 ≤ vm.stack.size)
    (h2 : vm2 = { vm with
        stack := { vm.stack with
          stack := Function.update (Function.update vm.stack.stack vm.stack.top o1)
            (vm.stack.top + 1) o2
          top := vm.stack.top + 1 + 1 }
        ip := u32_add (u32_add vm.ip 2) 2 })
    (hr : operate_i32 operator o1.i32 o2.i32 = Res.ok r) :
    ∃ v, operate_on_operands vm2 operator = Step.ok v ∧
      v.stack.top = vm.stack.top + 1 ∧
      v.stack.stack vm.stack.top = { type := o2.type, i32 := r, u8 := none } := by
  have e1 : vm2.stack.top - 1 = vm.stack.top + 1 := by
    rw [h2]
    show vm.stack.top + 1 + 1 - 1 = _
    omega
  have e2 : vm2.stack.top - 2 = vm.stack.top := by
    rw [h2]
    show vm.stack.top + 1 + 1 - 2 = _
    omega
  have s1 : vm2.stack.stack (vm2.stack.top - 1) = o2 := by
    rw [e1, h2]
    dsimp only
    rw [Function.update_same]
  have s0 : vm2.stack.stack (vm2.stack.top - 2) = o1 := by
    rw [e2, h2]
    dsimp only
    rw [Function.update_noteq (by omega), Function.update_same]
  have hsz : vm2.stack.size = vm.stack.size := by rw [h2]
  obtain ⟨v, hv, htop, hslot, -⟩ := binary_on_values vm2 operator r
    (by rw [h2]; show (2 : Int) ≤ vm.stack.top + 1 + 1; omega)
    (by rw [hsz, h2]; show vm.stack.top + 1 + 1 ≤ vm.stack.size; omega)
    (by rw [s0, s1]; exact hr)
  refine ⟨v, hv, ?_, ?_⟩
  · rw [htop, e1]
  · rw [← e2, hslot, s1]

/-- C17: whenever a binary arithmetic, comparison or logical opcode pushes a result, the
result slot carries exactly the tag of `o2`, the operand pushed second and popped first,
whatever the tag of `o1` and whatever the operator; every operator other than `/` and `%`
does push a result when two values are on the stack. For instance `CHARCONST p; ICONST q;
IADD` leaves a result tagged `ICONST` and `ICONST p; CHARCONST q; IADD` one tagged
`CHARCONST`. -/
theorem result_tag_quirk (vm : VM) (operator : Char)
    (h0 : 2 ≤ vm.stack.top) (h1 : vm.stack.top ≤ vm.stack.size) :
    (∀ v, operate_on_operands vm operator = Step.ok v →
      v.stack.top = vm.stack.top - 1 ∧
      (v.stack.stack (vm.stack.top - 2)).type = (vm.stack.stack (vm.stack.top - 1)).type) ∧
    (operator ≠ '/' → operator ≠ '%' → ∃ v, operate_on_operands vm operator = Step.ok v) ∧
    (op_iadd vm = operate_on_operands vm '+' ∧ op_isub vm = operate_on_operands vm '-' ∧
      op_imul vm = operate_on_operands vm '*' ∧ op_idiv vm = operate_on_operands vm '/' ∧
      op_imod vm = operate_on_operands vm '%' ∧ op_ieq vm = operate_on_operands vm '=' ∧
      op_ineq vm = operate_on_operands vm '!' ∧ op_ilt vm = operate_on_operands vm '<' ∧
      op_igt vm = operate_on_operands vm '>' ∧ op_ilte vm = operate_on_operands vm 'l' ∧
      op_igte vm = operate_on_operands vm 'g' ∧ op_iand vm = operate_on_operands vm 'a' ∧
      op_ior vm = operate_on_operands vm 'o') ∧
    (∀ (s : VM) (p q : Int), 0 ≤ s.stack.top → s.stack.top + 2 ≤ s.stack.size →
      s.opcodes[u32_add s.ip 1]? = some p →
      s.opcodes[u32_add (u32_add s.ip 2) 1]? = some q →
      (∃ v1 v2 v3, op_charconst s = Step.ok v1 ∧ op_iconst v1 = Step.ok v2 ∧
        op_iadd v2 = Step.ok v3 ∧ v3.stack.top = s.stack.top + 1 ∧
        (v3.stack.stack s.stack.top).type = some ICONST) ∧
      (∃ v1 v2 v3, op_iconst s = Step.ok v1 ∧ op_charconst v1 = Step.ok v2 ∧
        op_iadd v2 = Step.ok v3 ∧ v3.stack.top = s.stack.top + 1 ∧
        (v3.stack.stack s.stack.top).type = some CHARCONST)) := by
  refine ⟨?_, ?_, ⟨rfl, rfl, rfl, rfl, rfl, rfl, rfl, rfl, rfl, rfl, rfl, rfl, rfl⟩, ?_⟩
  · intro v hv
    obtain ⟨-, -, r, -, hv2⟩ := operate_on_operands_inv vm operator v hv
    have e : vm.stack.top - 1 - 1 = vm.stack.top - 2 := by omega
    subst hv2
    constructor
    · show vm.stack.top - 1 - 1 + 1 = _
      omega
    · dsimp only
      rw [e, Function.update_same]
  · intro hd hm
    obtain ⟨r, hr⟩ := operate_i32_total operator (vm.stack.stack (vm.stack.top - 2)).i32
      (vm.stack.stack (vm.stack.top - 1)).i32 hd hm
    obtain ⟨v, hv, -⟩ := binary_on_values vm operator r h0 h1 hr
    exact ⟨v, hv⟩
  · intro s p q hs0 hscap hp hq
    constructor
    · have e1 := op_charconst_eq s p hp hs0 (by omega)
      have e2 := op_iconst_eq
        { s with
          stack := { s.stack with
            stack := Function.update s.stack.stack s.stack.top
              { type := some CHARCONST, u8 := some (p % 256).toNat, i32 := none }
            top := s.stack.top + 1 }
          ip := u32_add s.ip 2 } q hq
        (by show (0 : Int) ≤ s.stack.top + 1; omega)
        (by show s.stack.top + 1 < s.stack.size; omega)
      obtain ⟨v3, e3, htop, hslot⟩ := push_push_operate s _
        { type := some CHARCONST, u8 := some (p % 256).toNat, i32 := none }
        { type := some ICONST, i32 := some q, u8 := none } '+' none hs0 hscap rfl rfl
      refine ⟨_, _, v3, e1, e2, e3, htop, ?_⟩
      rw [hslot]
    · have e1 := op_iconst_eq s p hp hs0 (by omega)
      have e2 := op_charconst_eq
        { s with
          stack := { s.stack with
            stack := Function.update s.stack.stack s.stack.top
              { type := some ICONST, i32 := some p, u8 := none }
            top := s.stack.top + 1 }
          ip := u32_add s.ip 2 } q hq
        (by show (0 : Int) ≤ s.stack.top + 1; omega)
        (by show s.stack.top + 1 < s.stack.size; omega)
      obtain ⟨v3, e3, htop, hslot⟩ := push_push_operate s _
        { type := some ICONST, i32 := some p, u8 := none }
        { type := some CHARCONST, u8 := some (q % 256).toNat, i32 := none } '+' none hs0 hscap
        rfl rfl
      refine ⟨_, _, v3, e1, e2, e3, htop, ?_⟩
      rw [hslot]

theorem result_tag_quirk_witness :
    (∃ v, op_iadd two_values_vm = Step.ok v ∧
      (v.stack.stack 0).type = (two_values_vm.stack.stack 1).type) ∧
    (∃ v1 v2 v3, op_charconst (tag_vm 65 7) = Step.ok v1 ∧ op_iconst v1 = Step.ok v2 ∧
      op_iadd v2 = Step.ok v3 ∧ (v3.stack.stack 0).type = some ICONST) ∧
    (∃ v1 v2 v3, op_iconst (tag_vm 65 7) = Step.ok v1 ∧ op_charconst v1 = Step.ok v2 ∧
      op_iadd v2 = Step.ok v3 ∧ (v3.stack.stack 0).type = some CHARCONST) := by
  obtain ⟨htag, htot, -, hex⟩ := result_tag_quirk two_values_vm '+' (by decide) (by decide)
  obtain ⟨v, hv⟩ := htot (by decide) (by decide)
  obtain ⟨⟨a1, a2, a3, ha1, ha2, ha3, -, hta⟩, ⟨b1, b2, b3, hb1, hb2, hb3, -, htb⟩⟩ :=
    hex (tag_vm 65 7) 65 7 (by decide) (by decide) (by decide) (by decide)
  exact ⟨⟨v, hv, (htag v hv).2⟩, ⟨a1, a2, a3, ha1, ha2, ha3, hta⟩,
    ⟨b1, b2, b3, hb1, hb2, hb3, htb⟩⟩

/-! ## C15: the initial state, and `HALT` -/

theorem step_none_iff (m : Machine) :
    step m = none ↔ m.vm.opcodes[m.vm.ip]? = some (HALT : Int) := by
  unfold step
  cases hw : m.vm.opcodes[m.vm.ip]? with
  | none => simp
  | some w =>
    dsimp only
    by_cases hh : w = (HALT : Int)
    · simp [hh]
    · simp [hh]

theorem run_loop_halted_step (fuel : Nat) :
    ∀ (n : Nat) (m : Machine) (n1 : Nat) (m1 : Machine),
      run_loop fuel n m = Run.halted n1 m1 → step m1 = none := by
  induction fuel with
  | zero =>
    intro n m n1 m1 h
    cases hs : step m with
    | none =>
      rw [run_loop_halted _ _ _ hs] at h
      injection h with _ h2
      rw [← h2]
      exact hs
    | some r =>
      rw [run_loop_zero_running _ _ _ hs] at h
      cases h
  | succ f ih =>
    intro n m n1 m1 h
    cases hs : step m with
    | none =>
      rw [run_loop_halted _ _ _ hs] at h
      injection h with _ h2
      rw [← h2]
      exact hs
    | some r =>
      cases r with
      | ok m2 =>
        rw [run_loop_succ_ok _ _ _ _ hs] at h
        exact ih _ _ _ _ h
      | fatal e2 m2 =>
        simp only [run_loop, hs] at h
        cases h
      | undefined =>
        simp only [run_loop, hs] at h
        cases h

/-- C15: for every `data_size` and start index `main`, `create_vm` gives `ip = main`, `fp = 0`,
an empty operand stack (`top = 0`) of capacity 1028 and a data segment of `data_size` slots
that are all zero (tag 0, `i32` 0). The loop of `run_vm` exits exactly when the word at `ip`
is `HALT` and otherwise calls the table entry of that word; so if `opcodes[main] = HALT` no
handler runs and the final state is the initial one, output log included, and every state in
which the loop exits has `opcodes[ip] = HALT`. -/
theorem initial_state_and_halt (g : Machine) (ds main : Nat) (ops : List Int) :
    ((create_vm ds main).ip = main ∧ (create_vm ds main).fp = 0 ∧
      (create_vm ds main).stack.top = 0 ∧ (create_vm ds main).stack.size = 1028 ∧
      (create_vm ds main).data_size = ds ∧
      (∀ i, (create_vm ds main).data i = Object.zero) ∧
      Object.zero.type = some 0 ∧ Object.zero.i32 = some 0) ∧
    (∀ m : Machine, (step m = none ↔ m.vm.opcodes[m.vm.ip]? = some (HALT : Int)) ∧
      (∀ w, m.vm.opcodes[m.vm.ip]? = some w → w ≠ (HALT : Int) →
        step m = some (dispatch w m)) ∧
      (∀ w, 0 ≤ w → w < 256 → dispatch w m = init_vm w.toNat m)) ∧
    (ops[main]? = some (HALT : Int) → ∀ fuel,
      run_vm g ds ops main fuel
        = Run.halted 0 { g with vm := { create_vm ds main with opcodes := ops } }) ∧
    (∀ fuel n m, run_vm g ds ops main fuel = Run.halted n m →
      m.vm.opcodes[m.vm.ip]? = some (HALT : Int)) := by
  refine ⟨⟨rfl, rfl, rfl, rfl, rfl, fun _ => rfl, rfl, rfl⟩, ?_, ?_, ?_⟩
  · intro m
    refine ⟨step_none_iff m, ?_, ?_⟩
    · intro w hw hne
      simp only [step, hw, hne, if_false]
    · intro w hw0 hw1
      simp only [dispatch, hw0, hw1, and_self, if_true]
  · intro hh fuel
    exact run_loop_halted _ _ _ ((step_none_iff _).2 hh)
  · intro fuel n m h
    exact (step_none_iff m).1 (run_loop_halted_step _ _ _ _ _ h)

/-! ## C19: `LOAD` and `STORE` -/

theorem op_store_eq (vm : VM) (off : Int)
    (himm : vm.opcodes[u32_add vm.ip 1]? = some off)
    (h0 : 0 < vm.stack.top) (h1 : vm.stack.top ≤ vm.stack.size)
    (hi0 : 0 ≤ local_index vm.fp off) (hi1 : local_index vm.fp off < vm.stack.size) :
    op_store vm = Step.ok { vm with
      stack := { vm.stack with
        stack := Function.update vm.stack.stack (local_index vm.fp off)
          (vm.stack.stack (vm.stack.top - 1))
        top := vm.stack.top - 1 }
      ip := u32_add (u32_add vm.ip 1) 1 } := by
  simp only [op_store, himm, vm_pop_stack_ok _ h0 h1, hi0, hi1, and_self, if_true]

theorem local_index_eq (fp off size : Int)
    (hsize : size ≤ 2147483647) (hs0 : 0 ≤ fp - 1 + off) (hs1 : fp - 1 + off < size) :
    local_index fp off = fp - 1 + off := by
  unfold local_index to_int32
  omega

/-- C19 (as amended): let the slot index `s = (fp - 1) + off` lie inside the stack array.
`LOAD off`, on a stack that is not full, pushes a copy of slot `s` (`top + 1`, every existing
slot unchanged) and advances `ip` by 2; `STORE off` on a non-empty stack pops the top value
`v`, writes it to slot `s` (`top - 1`, every other slot unchanged) and advances `ip` by 2; and
`STORE off` immediately followed by `LOAD off` leaves `v` on top of the stack at the original
depth. -/
theorem local_load_store (vm : VM) (off : Int) (hsize : vm.stack.size ≤ 2147483647)
    (hs0 : 0 ≤ vm.fp - 1 + off) (hs1 : vm.fp - 1 + off < vm.stack.size)
    (h0 : 0 ≤ vm.stack.top) (h1 : vm.stack.top ≤ vm.stack.size)
    (himm : vm.opcodes[u32_add vm.ip 1]? = some off) :
    (vm.stack.top < vm.stack.size →
      ∃ v, op_load vm = Step.ok v ∧ v.stack.top = vm.stack.top + 1 ∧
        v.stack.stack vm.stack.top = vm.stack.stack (vm.fp - 1 + off) ∧
        (∀ i, i ≠ vm.stack.top → v.stack.stack i = vm.stack.stack i) ∧
        v.ip = (vm.ip + 2) % 4294967296 ∧ (vm.ip + 2 < 4294967296 → v.ip = vm.ip + 2) ∧
        v.fp = vm.fp ∧ v.data = vm.data) ∧
    (0 < vm.stack.top →
      ∃ v, op_store vm = Step.ok v ∧ v.stack.top = vm.stack.top - 1 ∧
        v.stack.stack (vm.fp - 1 + off) = vm.stack.stack (vm.stack.top - 1) ∧
        (∀ i, i ≠ vm.fp - 1 + off → v.stack.stack i = vm.stack.stack i) ∧
        v.ip = (vm.ip + 2) % 4294967296 ∧ (vm.ip + 2 < 4294967296 → v.ip = vm.ip + 2) ∧
        v.fp = vm.fp ∧ v.data = vm.data ∧
        (vm.opcodes[u32_add (u32_add vm.ip 2) 1]? = some off →
          ∃ v2, op_load v = Step.ok v2 ∧ v2.stack.top = vm.stack.top ∧
            v2.stack.stack (vm.stack.top - 1) = vm.stack.stack (vm.stack.top - 1) ∧
            v2.ip = (vm.ip + 4) % 4294967296)) := by
  have hli := local_index_eq vm.fp off vm.stack.size hsize hs0 hs1
  have hip2 : u32_add (u32_add vm.ip 1) 1 = (vm.ip + 2) % 4294967296 := by
    rw [u32_add_add]
    rfl
  constructor
  · intro hcap
    refine ⟨_, op_load_eq vm off himm (by rw [hli]; exact hs0) (by rw [hli]; exact hs1) h0 hcap,
      rfl, ?_, ?_, hip2, ?_, rfl, rfl⟩
    · dsimp only
      rw [Function.update_same, hli]
    · intro i hi
      dsimp only
      rw [Function.update_noteq hi]
    · intro hlt
      show u32_add (u32_add vm.ip 1) 1 = _
      rw [hip2]
      omega
  · intro hpos
    refine ⟨_, op_store_eq vm off himm hpos h1 (by rw [hli]; exact hs0)
      (by rw [hli]; exact hs1), rfl, ?_, ?_, hip2, ?_, rfl, rfl, ?_⟩
    · dsimp only
      rw [hli, Function.update_same]
    · intro i hi
      dsimp only
      rw [hli, Function.update_noteq hi]
    · intro hlt
      show u32_add (u32_add vm.ip 1) 1 = _
      rw [hip2]
      omega
    · intro himm2
      have himm3 : vm.opcodes[u32_add (u32_add (u32_add vm.ip 1) 1) 1]? = some off := by
        rw [u32_add_add vm.ip 1 1]
        exact himm2
      refine ⟨_, op_load_eq
        { vm with
          stack := { vm.stack with
            stack := Function.update vm.stack.stack (local_index vm.fp off)
              (vm.stack.stack (vm.stack.top - 1))
            top := vm.stack.top - 1 }
          ip := u32_add (u32_add vm.ip 1) 1 } off himm3
        (by show 0 ≤ local_index vm.fp off; rw [hli]; exact hs0)
        (by show local_index vm.fp off < vm.stack.size; rw [hli]; exact hs1)
        (by show (0 : Int) ≤ vm.stack.top - 1; omega)
        (by show vm.stack.top - 1 < vm.stack.size; omega), ?_, ?_, ?_⟩
      · show vm.stack.top - 1 + 1 = _
        omega
      · dsimp only
        rw [Function.update_same, Function.update_same]
      · show u32_add (u32_add (u32_add (u32_add vm.ip 1) 1) 1) 1 = _
        rw [u32_add_add, u32_add_add, u32_add_add]
        rfl

theorem local_load_store_witness :
    (∃ v, op_load local_vm = Step.ok v ∧ v.stack.top = 3 ∧
      v.stack.stack 2 = local_vm.stack.stack 0) ∧
    (∃ v v2, op_store local_vm = Step.ok v ∧ v.stack.top = 1 ∧
      v.stack.stack 0 = local_vm.stack.stack 1 ∧
      op_load v = Step.ok v2 ∧ v2.stack.top = 2 ∧
      v2.stack.stack 1 = local_vm.stack.stack 1) := by
  obtain ⟨hl, hs⟩ := local_load_store local_vm (-2) (by decide) (by decide) (by decide)
    (by decide) (by decide) (by decide)
  obtain ⟨v, hv, htop, hslot, -⟩ := hl (by decide)
  obtain ⟨w, hw, hwtop, hwslot, -, -, -, -, -, hrt⟩ := hs (by decide)
  obtain ⟨w2, hw2, hw2top, hw2slot, -⟩ := hrt (by decide)
  exact ⟨⟨v, hv, htop, hslot⟩, ⟨w, w2, hw, hwtop, hwslot, hw2, hw2top, hw2slot⟩⟩

/-- C19 fails as stated: with `fp = 1` and `off = 0` the slot index 0 lies inside the stack
array, but on a stack whose 1028 slots are all in use `LOAD 0` stores outside the array and
no state with `top + 1` results. -/
theorem load_full_stack :
    0 ≤ full_load_vm.fp - 1 + 0 ∧ full_load_vm.fp - 1 + 0 < full_load_vm.stack.size ∧
      full_load_vm.stack.top = full_load_vm.stack.size ∧
      full_load_vm.opcodes[u32_add full_load_vm.ip 1]? = some 0 ∧
      op_load full_load_vm = Step.undefined ∧
      ¬ ∃ v, op_load full_load_vm = Step.ok v ∧ v.stack.top = full_load_vm.stack.top + 1 := by
  have h : op_load full_load_vm = Step.undefined := by
    simp [op_load, full_load_vm, create_vm, vm_create_stack, vm_push_stack, u32_add,
      local_index, to_int32]
  refine ⟨by decide, by decide, by decide, by decide, h, ?_⟩
  rintro ⟨v, hv, -⟩
  rw [h] at hv
  cases hv

/-! ## C16: the log after a run -/

theorem program_run_from (g : Machine) (hg0 : 0 ≤ g.output_index)
    (hg1 : g.output_index < 1000) (k : Nat) :
    ∃ m, run_vm g 0 program 0 (4 + k) = Run.halted 4 m ∧
      m.output_index = g.output_index + 1 ∧
      m.output = Function.update g.output g.output_index
        { o := { type := some ICONST, i32 := some 15, u8 := none }, loc := 5 } := by
  have e : 4 + k = k + 1 + 1 + 1 + 1 := by omega
  refine Exists.intro ?w (And.intro ?run ?rest)
  case run =>
    rw [e]
    show run_loop _ 0 ⟨⟨⟨0, 1028, fun _ => Object.indeterminate⟩, fun _ => Object.zero, program,
      0, 0, 0⟩, g.output, g.output_index⟩ = _
    refine (run_loop_succ_ok _ _ _ _ (step_iconst 3 rfl rfl (by decide) (by decide))).trans ?_
    refine (run_loop_succ_ok _ _ _ _ (step_iconst 12 rfl rfl (by decide) (by decide))).trans ?_
    refine (run_loop_succ_ok _ _ _ _ (step_binary IADD '+' _ rfl (by decide) (by decide) rfl
      (by decide) (by decide) (operate_i32_add 3 12))).trans ?_
    refine (run_loop_succ_ok _ _ _ _ (step_syswrite_flat rfl (by decide) (by decide) hg0
      hg1)).trans ?_
    refine run_loop_halted _ _ _ (step_halt_flat ?_)
    rfl
  case rest =>
    exact ⟨rfl, rfl⟩

theorem drained_length (m : Machine) : (drained m).length = m.output_index.toNat := by
  unfold drained
  rw [List.length_map, List.length_range]

theorem drained_getElem? (m : Machine) (t : Nat) (ht : t < m.output_index.toNat) :
    (drained m)[t]? = some (m.output t) := by
  unfold drained
  rw [List.getElem?_map, List.getElem?_range ht]
  rfl

theorem drained_append (m g : Machine) (l : List OutputInfo) (h0 : 0 ≤ g.output_index)
    (hoi : m.output_index = g.output_index + l.length)
    (hold : ∀ i, i < g.output_index → m.output i = g.output i)
    (hnew : ∀ t : Nat, t < l.length → l[t]? = some (m.output (g.output_index + t))) :
    drained m = drained g ++ l := by
  apply List.ext_getElem?
  intro t
  by_cases h1 : t < g.output_index.toNat
  · rw [List.getElem?_append_left (by rw [drained_length]; exact h1),
      drained_getElem? g t h1, drained_getElem? m t (by omega), hold t (by omega)]
  · rw [List.getElem?_append_right (by rw [drained_length]; omega), drained_length]
    by_cases h2 : t - g.output_index.toNat < l.length
    · rw [hnew _ h2, drained_getElem? m t (by omega)]
      congr 2
      omega
    · have a1 : l[t - g.output_index.toNat]? = none := List.getElem?_eq_none (by omega)
      have a2 : (drained m)[t]? = none :=
        List.getElem?_eq_none (by rw [drained_length]; omega)
      rw [a1, a2]

/-- C16 (as amended): printing the output log at the end of `run_vm` is not destructive:
`output_index` and the log are left as they are. Consequently a run of `run_vm` in a process
whose log already holds `output_index ≥ 0` entries starts from that log: when it halts, having
emitted `N` entries with `output_index + N ≤ 1000`, the index is `output_index + N` and what
it prints is the entries that were already there followed by the `N` new ones. -/
theorem drain_keeps_log (g : Machine) (ds : Nat) (ops : List Int) (main fuel n : Nat)
    (mN : Machine) (hg0 : 0 ≤ g.output_index)
    (hrun : run_vm g ds ops main fuel = Run.halted n mN)
    (hN : g.output_index
      + (emitted n { g with vm := { create_vm ds main with opcodes := ops } }).length ≤ 1000) :
    (after_loop mN).2.output_index = mN.output_index ∧
      (after_loop mN).2.output = mN.output ∧
      mN.output_index = g.output_index
        + (emitted n { g with vm := { create_vm ds main with opcodes := ops } }).length ∧
      (after_loop mN).1
        = drained g ++ emitted n { g with vm := { create_vm ds main with opcodes := ops } } := by
  unfold run_vm at hrun
  obtain ⟨j, hj, hit⟩ := run_loop_iterate _ _ _ _ _ hrun
  have hnj : n = j := by omega
  subst hnj
  obtain ⟨i1, i2, i3⟩ := emitted_logged n _ mN hit hg0 hN
  exact ⟨rfl, rfl, i1, drained_append mN g _ hg0 i1 i2 i3⟩

theorem drain_keeps_log_witness :
    ∃ m1, run_vm Machine.startup 0 program 0 4 = Run.halted 4 m1 ∧
      (after_loop m1).2.output_index = m1.output_index ∧
      (after_loop m1).2.output = m1.output ∧
      m1.output_index = Machine.startup.output_index
        + (emitted 4 { Machine.startup with
            vm := { create_vm 0 0 with opcodes := program } }).length ∧
      (after_loop m1).1 = drained Machine.startup
        ++ emitted 4 { Machine.startup with vm := { create_vm 0 0 with opcodes := program } } := by
  obtain ⟨m1, hrun, -⟩ := program_run_from Machine.startup (by decide) (by decide) 0
  exact ⟨m1, hrun, drain_keeps_log Machine.startup 0 program 0 4 4 m1 (by decide) hrun
    (by decide)⟩

/-- C16 fails as stated: after the first run of the sample program has printed its log,
`output_index` is 1, not 0; a second `run_vm` in the same process ends with `output_index = 2`
and prints two entries, the first of which is the entry of the first run. -/
theorem second_run_prints_first_log :
    ∃ m1 m2, run_vm Machine.startup 0 program 0 4 = Run.halted 4 m1 ∧
      (after_loop m1).2.output_index = 1 ∧
      (after_loop m1).1
        = [{ o := { type := some ICONST, i32 := some 15, u8 := none }, loc := 5 }] ∧
      run_vm (after_loop m1).2 0 program 0 4 = Run.halted 4 m2 ∧
      m2.output_index = 2 ∧
      (after_loop m2).1
        = [{ o := { type := some ICONST, i32 := some 15, u8 := none }, loc := 5 },
           { o := { type := some ICONST, i32 := some 15, u8 := none }, loc := 5 }] := by
  obtain ⟨m1, hrun1, hoi1, hout1⟩ := program_run_from Machine.startup (by decide) (by decide) 0
  have hoi1' : m1.output_index = 1 := by
    rw [hoi1]
    rfl
  obtain ⟨m2, hrun2, hoi2, hout2⟩ := program_run_from m1 (by omega) (by omega) 0
  have hoi2' : m2.output_index = 2 := by
    rw [hoi2, hoi1']
    rfl
  have r1 : List.range 1 = [0] := rfl
  have r2 : List.range 2 = [0, 1] := rfl
  have s10 : m1.output 0
      = { o := { type := some ICONST, i32 := some 15, u8 := none }, loc := 5 } := by
    rw [hout1]
    exact Function.update_same _ _ _
  have s21 : m2.output 1
      = { o := { type := some ICONST, i32 := some 15, u8 := none }, loc := 5 } := by
    rw [hout2, hoi1']
    exact Function.update_same _ _ _
  have s20 : m2.output 0
      = { o := { type := some ICONST, i32 := some 15, u8 := none }, loc := 5 } := by
    rw [hout2, hoi1', Function.update_noteq (by decide), s10]
  refine ⟨m1, m2, hrun1, hoi1', ?_, hrun2, hoi2', ?_⟩
  · show drained m1 = _
    unfold drained
    rw [hoi1']
    show List.map _ (List.range 1) = _
    rw [r1]
    show [m1.output ((0 : Nat) : Int)] = _
    rw [Nat.cast_zero, s10]
  · show drained m2 = _
    unfold drained
    rw [hoi2']
    show List.map _ (List.range 2) = _
    rw [r2]
    show [m2.output ((0 : Nat) : Int), m2.output ((1 : Nat) : Int)] = _
    rw [Nat.cast_zero, Nat.cast_one, s20, s21]

/-! ## C18: the log wraps -/

theorem index_after_succ (j : Nat) :
    (if index_after j = 1000 then 0 else index_after j) = ((j % 1000 : Nat) : Int) ∧
      index_after (j + 1) = ((j % 1000 : Nat) : Int) + 1 := by
  unfold index_after
  by_cases hj : j = 0
  · subst hj
    simp
  · have h1 : j + 1 ≠ 0 := by omega
    rw [if_neg hj, if_neg h1]
    have e : j + 1 - 1 = j := by omega
    rw [e]
    constructor
    · by_cases hw : (((j - 1) % 1000 : Nat) : Int) + 1 = 1000
      · rw [if_pos hw]
        omega
      · rw [if_neg hw]
        omega
    · rfl

theorem index_after_bounds (j : Nat) : 0 ≤ index_after j ∧ index_after j ≤ 1000 := by
  unfold index_after
  by_cases hj : j = 0
  · rw [if_pos hj]
    omega
  · rw [if_neg hj]
    omega

theorem iterate_loop_succ (n : Nat) (m m1 : Machine) (hs : step m = some (Step.ok m1)) :
    iterate_loop (n + 1) m = iterate_loop n m1 := by
  simp only [iterate_loop, hs]

theorem emitted_succ (n : Nat) (m m1 : Machine) (hs : step m = some (Step.ok m1)) :
    emitted (n + 1) m
      = if m.vm.opcodes[m.vm.ip]? = some (SYS_WRITE : Int) then
          { o := m.vm.stack.stack (m.vm.stack.top - 1), loc := to_int32 m.vm.ip }
            :: emitted n m1
        else emitted n m1 := by
  simp only [emitted, hs]

theorem iterate_loop_add (a : Nat) :
    ∀ (b : Nat) (m ma : Machine), iterate_loop a m = some ma →
      iterate_loop (a + b) m = iterate_loop b ma ∧
      emitted (a + b) m = emitted a m ++ emitted b ma := by
  induction a with
  | zero =>
    intro b m ma h
    simp only [iterate_loop] at h
    injection h with h
    subst h
    simp [emitted]
  | succ a ih =>
    intro b m ma h
    cases hs : step m with
    | none =>
      simp only [iterate_loop, hs] at h
      cases h
    | some r =>
      cases r with
      | fatal e m1 =>
        simp only [iterate_loop, hs] at h
        cases h
      | undefined =>
        simp only [iterate_loop, hs] at h
        cases h
      | ok m1 =>
        rw [iterate_loop_succ _ _ _ hs] at h
        obtain ⟨i1, i2⟩ := ih b m1 ma h
        have e : a + 1 + b = (a + b) + 1 := by omega
        rw [e, iterate_loop_succ _ _ _ hs, emitted_succ _ _ _ hs, emitted_succ _ _ _ hs, i1, i2]
        refine ⟨rfl, ?_⟩
        by_cases hw : m.vm.opcodes[m.vm.ip]? = some (SYS_WRITE : Int)
        · rw [if_pos hw, if_pos hw]
          rfl
        · rw [if_neg hw, if_neg hw]

theorem writes_index (n : Nat) :
    ∀ (m mN : Machine) (j : Nat), iterate_loop n m = some mN →
      m.output_index = index_after j →
      mN.output_index = index_after (j + (emitted n m).length) := by
  induction n with
  | zero =>
    intro m mN j hit hj
    simp only [iterate_loop] at hit
    injection hit with hit
    subst hit
    simpa [emitted] using hj
  | succ n ih =>
    intro m mN j hit hj
    cases hs : step m with
    | none =>
      simp only [iterate_loop, hs] at hit
      cases hit
    | some r =>
      cases r with
      | fatal e m1 =>
        simp only [iterate_loop, hs] at hit
        cases hit
      | undefined =>
        simp only [iterate_loop, hs] at hit
        cases hit
      | ok m1 =>
        rw [iterate_loop_succ _ _ _ hs] at hit
        rw [emitted_succ _ _ _ hs]
        obtain ⟨hother, hsys⟩ := step_output m m1 hs
        by_cases hw : m.vm.opcodes[m.vm.ip]? = some (SYS_WRITE : Int)
        · rw [if_pos hw]
          obtain ⟨-, -, -, -, hoi, -⟩ := op_syswrite_ok_inv m m1 (hsys hw)
          have h1 : m1.output_index = index_after (j + 1) := by
            rw [hoi, hj, (index_after_succ j).1, (index_after_succ j).2]
          have := ih m1 mN (j + 1) hit h1
          rw [this, List.length_cons]
          congr 1
          omega
        · rw [if_neg hw]
          exact ih m1 mN j hit (by rw [(hother hw).2]; exact hj)

/-- C18: the log has 1000 slots and wraps to slot 0. In a run that starts with an empty log,
let a `SYS_WRITE` execute after `k - 1` earlier ones (it is the `k`-th write). It stores its
entry, the value on top of the stack and the instruction pointer, in slot `(k - 1) mod 1000`
and leaves every other slot alone; `output_index` is afterwards `((k - 1) mod 1000) + 1`, which
lies in `1..1000`. In particular the 1001st write overwrites slot 0 and leaves the index at 1,
so that the log then printed has 1 entry. -/
theorem ring_buffer_wrap (m mn m1 : Machine) (n : Nat) (h0 : m.output_index = 0)
    (hit : iterate_loop n m = some mn)
    (hw : mn.vm.opcodes[mn.vm.ip]? = some (SYS_WRITE : Int))
    (hs : step mn = some (Step.ok m1)) :
    m1.output (((emitted n m).length % 1000 : Nat) : Int)
        = { o := mn.vm.stack.stack (mn.vm.stack.top - 1), loc := to_int32 mn.vm.ip } ∧
      m1.output_index = (((emitted n m).length % 1000 : Nat) : Int) + 1 ∧
      1 ≤ m1.output_index ∧ m1.output_index ≤ 1000 ∧
      (∀ i, i ≠ (((emitted n m).length % 1000 : Nat) : Int) → m1.output i = mn.output i) ∧
      ((emitted n m).length = 1000 →
        m1.output 0
          = { o := mn.vm.stack.stack (mn.vm.stack.top - 1), loc := to_int32 mn.vm.ip } ∧
        m1.output_index = 1 ∧ (drained m1).length = 1) := by
  have hidx : mn.output_index = index_after (0 + (emitted n m).length) :=
    writes_index n m mn 0 hit (by rw [h0]; rfl)
  rw [Nat.zero_add] at hidx
  obtain ⟨-, -, -, hout, hoi, -⟩ := op_syswrite_ok_inv mn m1 ((step_output mn m1 hs).2 hw)
  rw [hidx, (index_after_succ _).1] at hout hoi
  have hslot : m1.output (((emitted n m).length % 1000 : Nat) : Int)
      = { o := mn.vm.stack.stack (mn.vm.stack.top - 1), loc := to_int32 mn.vm.ip } := by
    rw [hout, Function.update_same]
  refine ⟨hslot, hoi, by omega, by omega, ?_, ?_⟩
  · intro i hi
    rw [hout, Function.update_noteq hi]
  · intro hk
    rw [hk] at hslot hoi
    refine ⟨hslot, hoi, ?_⟩
    rw [drained_length, hoi]
    rfl

/-! ### A run that writes 1001 entries -/

theorem step_jmp {top size : Int} {st : Int → Object} {data : Nat → Object}
    {ops : List Int} {ip : Nat} {fp : Int} {ds : Nat} {out : Int → OutputInfo} {oi : Int}
    (t : Int) (hop : ops[ip]? = some (JMP : Int)) (himm : ops[u32_add ip 1]? = some t) :
    step ⟨⟨⟨top, size, st⟩, data, ops, ip, fp, ds⟩, out, oi⟩
      = some (Step.ok ⟨⟨⟨top, size, st⟩, data, ops, to_uint32 t, fp, ds⟩, out, oi⟩) := by
  have hh : op_jmp ⟨⟨top, size, st⟩, data, ops, ip, fp, ds⟩
      = Step.ok ⟨⟨top, size, st⟩, data, ops, to_uint32 t, fp, ds⟩ := by
    simp only [op_jmp, himm]
  exact step_of_handler _ JMP op_jmp _ hop (by decide) (by decide) rfl hh

theorem step_syswrite_any {top size : Int} {st : Int → Object} {data : Nat → Object}
    {ops : List Int} {ip : Nat} {fp : Int} {ds : Nat} {out : Int → OutputInfo} {oi : Int}
    (hop : ops[ip]? = some (SYS_WRITE : Int))
    (h0 : 0 < top) (h1 : top ≤ size) (hi0 : 0 ≤ oi) (hi1 : oi ≤ 1000) :
    step ⟨⟨⟨top, size, st⟩, data, ops, ip, fp, ds⟩, out, oi⟩
      = some (Step.ok ⟨⟨⟨top - 1, size, st⟩, data, ops, u32_add ip 1, fp, ds⟩,
          Function.update out (if oi = 1000 then 0 else oi)
            { o := st (top - 1), loc := to_int32 ip },
          (if oi = 1000 then 0 else oi) + 1⟩) := by
  refine step_syswrite _ _ hop ?_
  have hb : 0 ≤ (if oi = 1000 then 0 else oi) ∧ (if oi = 1000 then 0 else oi) < 1000 := by
    by_cases h : oi = 1000
    · rw [if_pos h]
      omega
    · rw [if_neg h]
      omega
  have hp := vm_pop_stack_ok ⟨top, size, st⟩ h0 h1
  simp only [op_syswrite, hp, MAX_OUTPUT, hb, and_self, if_true]

theorem writer_loop_round {st : Int → Object} {out : Int → OutputInfo} {oi : Int}
    (hi0 : 0 ≤ oi) (hi1 : oi ≤ 1000) :
    ∃ st1 out1 oi1, 0 ≤ oi1 ∧ oi1 ≤ 1000 ∧
      iterate_loop 3 ⟨⟨⟨0, 1028, st⟩, fun _ => Object.zero, writer_loop, 0, 0, 0⟩, out, oi⟩
        = some ⟨⟨⟨0, 1028, st1⟩, fun _ => Object.zero, writer_loop, 0, 0, 0⟩, out1, oi1⟩ ∧
      (emitted 3 ⟨⟨⟨0, 1028, st⟩, fun _ => Object.zero, writer_loop, 0, 0, 0⟩, out, oi⟩).length
        = 1 := by
  have s1 : step ⟨⟨⟨0, 1028, st⟩, fun _ => Object.zero, writer_loop, 0, 0, 0⟩, out, oi⟩ = _ :=
    step_iconst 7 rfl rfl (by decide) (by decide)
  have s2 := @step_syswrite_any (0 + 1) 1028
    (Function.update st 0 { type := some ICONST, i32 := some 7, u8 := none })
    (fun _ => Object.zero) writer_loop (u32_add 0 2) 0 0 out oi rfl (by decide) (by decide)
    hi0 hi1
  have s3 := @step_jmp (0 + 1 - 1) 1028
    (Function.update st 0 { type := some ICONST, i32 := some 7, u8 := none })
    (fun _ => Object.zero) writer_loop (u32_add (u32_add 0 2) 1) 0 0
    (Function.update out (if oi = 1000 then 0 else oi)
      { o := (Function.update st 0 { type := some ICONST, i32 := some 7, u8 := none })
          (0 + 1 - 1), loc := to_int32 (u32_add 0 2 : Nat) })
    ((if oi = 1000 then 0 else oi) + 1) 0 rfl rfl
  refine ⟨Function.update st 0 { type := some ICONST, i32 := some 7, u8 := none },
    Function.update out (if oi = 1000 then 0 else oi)
      { o := (Function.update st 0 { type := some ICONST, i32 := some 7, u8 := none })
          (0 + 1 - 1), loc := to_int32 (u32_add 0 2 : Nat) },
    (if oi = 1000 then 0 else oi) + 1, ?_, ?_, ?_, ?_⟩
  · by_cases h : oi = 1000
    · rw [if_pos h]
      omega
    · rw [if_neg h]
      omega
  · by_cases h : oi = 1000
    · rw [if_pos h]
      omega
    · rw [if_neg h]
      omega
  · rw [iterate_loop_succ _ _ _ s1, iterate_loop_succ _ _ _ s2, iterate_loop_succ _ _ _ s3]
    rfl
  · rw [emitted_succ _ _ _ s1, emitted_succ _ _ _ s2, emitted_succ _ _ _ s3]
    rfl

theorem writer_loop_rounds (j : Nat) :
    ∃ st out oi, 0 ≤ oi ∧ oi ≤ 1000 ∧
      iterate_loop (3 * j) writer_machine
        = some ⟨⟨⟨0, 1028, st⟩, fun _ => Object.zero, writer_loop, 0, 0, 0⟩, out, oi⟩ ∧
      (emitted (3 * j) writer_machine).length = j := by
  induction j with
  | zero =>
    exact ⟨fun _ => Object.indeterminate, Machine.startup.output, 0, by decide, by decide, rfl,
      rfl⟩
  | succ j ih =>
    obtain ⟨st, out, oi, hi0, hi1, hit, hem⟩ := ih
    obtain ⟨st1, out1, oi1, hj0, hj1, hit1, hem1⟩ := @writer_loop_round st out oi hi0 hi1
    obtain ⟨a1, a2⟩ := iterate_loop_add (3 * j) 3 writer_machine _ hit
    have e : 3 * (j + 1) = 3 * j + 3 := by omega
    refine ⟨st1, out1, oi1, hj0, hj1, ?_, ?_⟩
    · rw [e, a1, hit1]
    · rw [e, a2, List.length_append, hem, hem1]

theorem ring_buffer_wrap_witness :
    ∃ mn m1, iterate_loop 3001 writer_machine = some mn ∧
      step mn = some (Step.ok m1) ∧ (emitted 3001 writer_machine).length = 1000 ∧
      m1.output 0 = { o := mn.vm.stack.stack (mn.vm.stack.top - 1), loc := to_int32 mn.vm.ip } ∧
      mn.vm.ip = 2 ∧
      (mn.vm.stack.stack (mn.vm.stack.top - 1)).i32 = some 7 ∧
      m1.output_index = 1 ∧ (drained m1).length = 1 := by
  obtain ⟨st, out, oi, hi0, hi1, hit, hem⟩ := writer_loop_rounds 1000
  have s1 : step ⟨⟨⟨0, 1028, st⟩, fun _ => Object.zero, writer_loop, 0, 0, 0⟩, out, oi⟩ = _ :=
    step_iconst 7 rfl rfl (by decide) (by decide)
  have s2 := @step_syswrite_any (0 + 1) 1028
    (Function.update st 0 { type := some ICONST, i32 := some 7, u8 := none })
    (fun _ => Object.zero) writer_loop (u32_add 0 2) 0 0 out oi rfl (by decide) (by decide)
    hi0 hi1
  obtain ⟨a1, a2⟩ := iterate_loop_add (3 * 1000) 1 writer_machine _ hit
  have hit1 : iterate_loop 3001 writer_machine
      = some ⟨⟨⟨0 + 1, 1028,
          Function.update st 0 { type := some ICONST, i32 := some 7, u8 := none }⟩,
          fun _ => Object.zero, writer_loop, u32_add 0 2, 0, 0⟩, out, oi⟩ := by
    show iterate_loop (3 * 1000 + 1) writer_machine = _
    rw [a1, iterate_loop_succ _ _ _ s1]
    rfl
  have hem1 : (emitted 3001 writer_machine).length = 1000 := by
    show (emitted (3 * 1000 + 1) writer_machine).length = _
    rw [a2, List.length_append, hem, emitted_succ _ _ _ s1]
    rfl
  obtain ⟨-, -, -, -, -, h1001⟩ :=
    ring_buffer_wrap writer_machine _ _ 3001 rfl hit1 rfl s2
  obtain ⟨b1, b2, b3⟩ := h1001 hem1
  refine ⟨_, _, hit1, s2, hem1, b1, rfl, ?_, b2, b3⟩
  show Object.i32 (Function.update st 0 { type := some ICONST, i32 := some 7, u8 := none }
    (0 + 1 - 1)) = some 7
  rw [show ((0 : Int) + 1 - 1) = 0 by decide, Function.update_same]

/-! ## C11 and C20: what the handlers keep -/

theorem op_nop_effect (vm v : VM) (h : op_nop vm = Step.ok v) : ok_effect vm v := by
  unfold op_nop at h
  injection h with h
  subst h
  exact ⟨rfl, rfl, rfl, rfl, fun hc => hc⟩

theorem op_nop_fatal (vm v : VM) (e : Fatal) (h : op_nop vm = Step.fatal e v) :
    fatal_effect vm v := by
  unfold op_nop at h
  cases h

theorem op_jmp_effect (vm v : VM) (h : op_jmp vm = Step.ok v) : ok_effect vm v := by
  unfold op_jmp at h
  cases hw : vm.opcodes[u32_add vm.ip 1]? with
  | none =>
    rw [hw] at h
    cases h
  | some w =>
    rw [hw] at h
    injection h with h
    subst h
    exact ⟨rfl, rfl, rfl, rfl, fun hc => hc⟩

theorem op_jmp_fatal (vm v : VM) (e : Fatal) (h : op_jmp vm = Step.fatal e v) :
    fatal_effect vm v := by
  unfold op_jmp at h
  cases hw : vm.opcodes[u32_add vm.ip 1]? with
  | none =>
    rw [hw] at h
    cases h
  | some w =>
    rw [hw] at h
    cases h

theorem push_effect (vm v : VM) (o : Object) (ip : Nat)
    (h : (match vm_push_stack vm.stack o with
      | Res.ok (_, st) => Step.ok { vm with stack := st, ip := ip }
      | Res.fatal e => Step.fatal e vm
      | Res.undefined => Step.undefined) = Step.ok v) : ok_effect vm v := by
  cases hq : vm_push_stack vm.stack o with
  | fatal e =>
    rw [hq] at h
    cases h
  | undefined =>
    rw [hq] at h
    cases h
  | ok q =>
    obtain ⟨t, st⟩ := q
    rw [hq] at h
    injection h with h
    obtain ⟨c0, c1, hst⟩ := vm_push_stack_inv _ _ _ _ hq
    subst hst
    subst h
    refine ⟨rfl, rfl, rfl, rfl, fun _ => ⟨?_, ?_⟩⟩
    · show (0 : Int) ≤ vm.stack.top + 1
      omega
    · show vm.stack.top + 1 ≤ vm.stack.size
      omega

theorem push_fatal (vm v : VM) (o : Object) (ip : Nat) (e : Fatal)
    (h : (match vm_push_stack vm.stack o with
      | Res.ok (_, st) => Step.ok { vm with stack := st, ip := ip }
      | Res.fatal e => Step.fatal e vm
      | Res.undefined => Step.undefined) = Step.fatal e v) : fatal_effect vm v := by
  cases hq : vm_push_stack vm.stack o with
  | fatal e2 => exact absurd hq (vm_push_stack_not_fatal _ _ _)
  | undefined =>
    rw [hq] at h
    cases h
  | ok q =>
    rw [hq] at h
    cases h

theorem op_iconst_effect (vm v : VM) (h : op_iconst vm = Step.ok v) : ok_effect vm v := by
  unfold op_iconst at h
  cases hw : vm.opcodes[u32_add vm.ip 1]? with
  | none =>
    rw [hw] at h
    cases h
  | some w =>
    rw [hw] at h
    exact push_effect vm v _ _ h

theorem op_iconst_fatal (vm v : VM) (e : Fatal) (h : op_iconst vm = Step.fatal e v) :
    fatal_effect vm v := by
  unfold op_iconst at h
  cases hw : vm.opcodes[u32_add vm.ip 1]? with
  | none =>
    rw [hw] at h
    cases h
  | some w =>
    rw [hw] at h
    exact push_fatal vm v _ _ e h

theorem op_charconst_effect (vm v : VM) (h : op_charconst vm = Step.ok v) :
    ok_effect vm v := by
  unfold op_charconst at h
  cases hw : vm.opcodes[u32_add vm.ip 1]? with
  | none =>
    rw [hw] at h
    cases h
  | some w =>
    rw [hw] at h
    exact push_effect vm v _ _ h

theorem op_charconst_fatal (vm v : VM) (e : Fatal) (h : op_charconst vm = Step.fatal e v) :
    fatal_effect vm v := by
  unfold op_charconst at h
  cases hw : vm.opcodes[u32_add vm.ip 1]? with
  | none =>
    rw [hw] at h
    cases h
  | some w =>
    rw [hw] at h
    exact push_fatal vm v _ _ e h

theorem pop_cases (st : VMStack) :
    (∃ e, vm_pop_stack st = Res.fatal e) ∨ vm_pop_stack st = Res.undefined ∨
      (0 < st.top ∧ st.top ≤ st.size ∧
        vm_pop_stack st = Res.ok (st.stack (st.top - 1), { st with top := st.top - 1 })) := by
  by_cases h0 : st.top > 0
  · by_cases h1 : st.top - 1 < st.size
    · exact Or.inr (Or.inr ⟨h0, by omega, vm_pop_stack_ok st h0 (by omega)⟩)
    · refine Or.inr (Or.inl ?_)
      simp only [vm_pop_stack, h0, h1, if_true, if_false]
  · exact Or.inl ⟨_, vm_pop_stack_empty st (by omega)⟩

theorem push_cases (st : VMStack) (o : Object) :
    vm_push_stack st o = Res.undefined ∨
      (0 ≤ st.top ∧ st.top < st.size ∧
        vm_push_stack st o = Res.ok (st.top + 1,
          { st with stack := Function.update st.stack st.top o, top := st.top + 1 })) := by
  by_cases h : 0 ≤ st.top ∧ st.top < st.size
  · exact Or.inr ⟨h.1, h.2, vm_push_stack_ok st o h.1 h.2⟩
  · refine Or.inl ?_
    simp only [vm_push_stack, h, if_false]

theorem op_pop_effect (vm v : VM) (h : op_pop vm = Step.ok v) : ok_effect vm v := by
  unfold op_pop at h
  rcases pop_cases vm.stack with ⟨e, hp⟩ | hp | ⟨h0, h1, hp⟩
  · rw [hp] at h
    cases h
  · rw [hp] at h
    cases h
  · rw [hp] at h
    injection h with h
    subst h
    refine ⟨rfl, rfl, rfl, rfl, fun _ => ⟨?_, ?_⟩⟩
    · show (0 : Int) ≤ vm.stack.top - 1
      omega
    · show vm.stack.top - 1 ≤ vm.stack.size
      omega

theorem op_pop_fatal (vm v : VM) (e : Fatal) (h : op_pop vm = Step.fatal e v) :
    fatal_effect vm v := by
  unfold op_pop at h
  rcases pop_cases vm.stack with ⟨e2, hp⟩ | hp | ⟨h0, h1, hp⟩
  · rw [hp] at h
    injection h with _ h
    subst h
    exact ⟨rfl, rfl, rfl⟩
  · rw [hp] at h
    cases h
  · rw [hp] at h
    cases h

theorem op_jmpt_effect (vm v : VM) (h : op_jmpt vm = Step.ok v) : ok_effect vm v := by
  unfold op_jmpt at h
  rcases pop_cases vm.stack with ⟨e, hp⟩ | hp | ⟨h0, h1, hp⟩
  · rw [hp] at h
    cases h
  · rw [hp] at h
    cases h
  · rw [hp] at h
    dsimp only at h
    have hb : ∀ ip : Nat, ok_effect vm
        { vm with stack := { vm.stack with top := vm.stack.top - 1 }, ip := ip } := by
      intro ip
      refine ⟨rfl, rfl, rfl, rfl, fun _ => ⟨?_, ?_⟩⟩
      · show (0 : Int) ≤ vm.stack.top - 1
        omega
      · show vm.stack.top - 1 ≤ vm.stack.size
        omega
    cases hi : (vm.stack.stack (vm.stack.top - 1)).i32 with
    | none =>
      rw [hi] at h
      cases h
    | some c =>
      rw [hi] at h
      dsimp only at h
      by_cases hc : c ≠ 0
      · rw [if_pos hc] at h
        cases hw : vm.opcodes[u32_add vm.ip 1]? with
        | none =>
          rw [hw] at h
          cases h
        | some w =>
          rw [hw] at h
          injection h with h
          subst h
          exact hb _
      · rw [if_neg hc] at h
        injection h with h
        subst h
        exact hb _

theorem op_jmpt_fatal (vm v : VM) (e : Fatal) (h : op_jmpt vm = Step.fatal e v) :
    fatal_effect vm v := by
  unfold op_jmpt at h
  rcases pop_cases vm.stack with ⟨e2, hp⟩ | hp | ⟨h0, h1, hp⟩
  · rw [hp] at h
    injection h with _ h
    subst h
    exact ⟨rfl, rfl, rfl⟩
  · rw [hp] at h
    cases h
  · rw [hp] at h
    dsimp only at h
    cases hi : (vm.stack.stack (vm.stack.top - 1)).i32 with
    | none =>
      rw [hi] at h
      cases h
    | some c =>
      rw [hi] at h
      dsimp only at h
      by_cases hc : c ≠ 0
      · rw [if_pos hc] at h
        cases hw : vm.opcodes[u32_add vm.ip 1]? with
        | none =>
          rw [hw] at h
          cases h
        | some w =>
          rw [hw] at h
          cases h
      · rw [if_neg hc] at h
        cases h

theorem op_jmpn_effect (vm v : VM) (h : op_jmpn vm = Step.ok v) : ok_effect vm v := by
  unfold op_jmpn at h
  rcases pop_cases vm.stack with ⟨e, hp⟩ | hp | ⟨h0, h1, hp⟩
  · rw [hp] at h
    cases h
  · rw [hp] at h
    cases h
  · rw [hp] at h
    dsimp only at h
    have hb : ∀ ip : Nat, ok_effect vm
        { vm with stack := { vm.stack with top := vm.stack.top - 1 }, ip := ip } := by
      intro ip
      refine ⟨rfl, rfl, rfl, rfl, fun _ => ⟨?_, ?_⟩⟩
      · show (0 : Int) ≤ vm.stack.top - 1
        omega
      · show vm.stack.top - 1 ≤ vm.stack.size
        omega
    cases hi : (vm.stack.stack (vm.stack.top - 1)).i32 with
    | none =>
      rw [hi] at h
      cases h
    | some c =>
      rw [hi] at h
      dsimp only at h
      by_cases hc : c = 0
      · rw [if_pos hc] at h
        cases hw : vm.opcodes[u32_add vm.ip 1]? with
        | none =>
          rw [hw] at h
          cases h
        | some w =>
          rw [hw] at h
          injection h with h
          subst h
          exact hb _
      · rw [if_neg hc] at h
        injection h with h
        subst h
        exact hb _

theorem op_jmpn_fatal (vm v : VM) (e : Fatal) (h : op_jmpn vm = Step.fatal e v) :
    fatal_effect vm v := by
  unfold op_jmpn at h
  rcases pop_cases vm.stack with ⟨e2, hp⟩ | hp | ⟨h0, h1, hp⟩
  · rw [hp] at h
    injection h with _ h
    subst h
    exact ⟨rfl, rfl, rfl⟩
  · rw [hp] at h
    cases h
  · rw [hp] at h
    dsimp only at h
    cases hi : (vm.stack.stack (vm.stack.top - 1)).i32 with
    | none =>
      rw [hi] at h
      cases h
    | some c =>
      rw [hi] at h
      dsimp only at h
      by_cases hc : c = 0
      · rw [if_pos hc] at h
        cases hw : vm.opcodes[u32_add vm.ip 1]? with
        | none =>
          rw [hw] at h
          cases h
        | some w =>
          rw [hw] at h
          cases h
      · rw [if_neg hc] at h
        cases h

theorem operate_on_operands_effect (vm : VM) (operator : Char) (v : VM)
    (h : operate_on_operands vm operator = Step.ok v) : ok_effect vm v := by
  obtain ⟨h0, h1, r, -, hv⟩ := operate_on_operands_inv vm operator v h
  subst hv
  refine ⟨rfl, rfl, rfl, rfl, fun _ => ⟨?_, ?_⟩⟩
  · show (0 : Int) ≤ vm.stack.top - 1 - 1 + 1
    omega
  · show vm.stack.top - 1 - 1 + 1 ≤ vm.stack.size
    omega

theorem operate_on_operands_fatal (vm : VM) (operator : Char) (v : VM) (e : Fatal)
    (h : operate_on_operands vm operator = Step.fatal e v) : fatal_effect vm v := by
  unfold operate_on_operands at h
  rcases pop_cases vm.stack with ⟨e2, hp⟩ | hp | ⟨h0, h1, hp⟩
  · rw [hp] at h
    injection h with _ h
    subst h
    exact ⟨rfl, rfl, rfl⟩
  · rw [hp] at h
    cases h
  · rw [hp] at h
    dsimp only at h
    rcases pop_cases { vm.stack with top := vm.stack.top - 1 } with ⟨e2, hp2⟩ | hp2 | ⟨-, -, hp2⟩
    · rw [hp2] at h
      injection h with _ h
      subst h
      exact ⟨rfl, rfl, rfl⟩
    · rw [hp2] at h
      cases h
    · rw [hp2] at h
      dsimp only at h
      cases hr : operate_i32 operator
          (vm.stack.stack (vm.stack.top - 1 - 1)).i32 (vm.stack.stack (vm.stack.top - 1)).i32 with
      | fatal e3 =>
        rw [hr] at h
        injection h with _ h
        subst h
        exact ⟨rfl, rfl, rfl⟩
      | undefined =>
        rw [hr] at h
        cases h
      | ok r =>
        rw [hr] at h
        dsimp only at h
        rcases push_cases { vm.stack with top := vm.stack.top - 1 - 1 }
            { type := (vm.stack.stack (vm.stack.top - 1)).type, i32 := r, u8 := none }
          with hq | ⟨-, -, hq⟩
        · rw [hq] at h
          cases h
        · rw [hq] at h
          cases h

theorem op_gload_effect (vm v : VM) (h : op_gload vm = Step.ok v) : ok_effect vm v := by
  unfold op_gload at h
  cases hw : vm.opcodes[u32_add vm.ip 1]? with
  | none =>
    rw [hw] at h
    cases h
  | some w =>
    rw [hw] at h
    dsimp only at h
    by_cases hb : vm.data_size ≤ to_uint32 w
    · rw [if_pos hb] at h
      cases h
    · rw [if_neg hb] at h
      exact push_effect vm v _ _ h

theorem op_gload_fatal (vm v : VM) (e : Fatal) (h : op_gload vm = Step.fatal e v) :
    fatal_effect vm v := by
  unfold op_gload at h
  cases hw : vm.opcodes[u32_add vm.ip 1]? with
  | none =>
    rw [hw] at h
    cases h
  | some w =>
    rw [hw] at h
    dsimp only at h
    by_cases hb : vm.data_size ≤ to_uint32 w
    · rw [if_pos hb] at h
      injection h with _ h
      subst h
      exact ⟨rfl, rfl, rfl⟩
    · rw [if_neg hb] at h
      exact push_fatal vm v _ _ e h

theorem op_gstore_inv (vm v : VM) (h : op_gstore vm = Step.ok v) :
    ∃ w, vm.opcodes[u32_add vm.ip 1]? = some w ∧ to_uint32 w < vm.data_size ∧
      0 < vm.stack.top ∧ vm.stack.top ≤ vm.stack.size ∧
      v = { vm with
        stack := { vm.stack with top := vm.stack.top - 1 }
        data := Function.update vm.data (to_uint32 w) (vm.stack.stack (vm.stack.top - 1))
        ip := u32_add vm.ip 2 } := by
  unfold op_gstore at h
  cases hw : vm.opcodes[u32_add vm.ip 1]? with
  | none =>
    rw [hw] at h
    cases h
  | some w =>
    rw [hw] at h
    dsimp only at h
    by_cases hb : vm.data_size ≤ to_uint32 w
    · rw [if_pos hb] at h
      cases h
    · rw [if_neg hb] at h
      rcases pop_cases vm.stack with ⟨e, hp⟩ | hp | ⟨h0, h1, hp⟩
      · rw [hp] at h
        cases h
      · rw [hp] at h
        cases h
      · rw [hp] at h
        injection h with h
        exact ⟨w, rfl, by omega, h0, h1, h.symm⟩

theorem op_gstore_fatal (vm v : VM) (e : Fatal) (h : op_gstore vm = Step.fatal e v) :
    fatal_effect vm v := by
  unfold op_gstore at h
  cases hw : vm.opcodes[u32_add vm.ip 1]? with
  | none =>
    rw [hw] at h
    cases h
  | some w =>
    rw [hw] at h
    dsimp only at h
    by_cases hb : vm.data_size ≤ to_uint32 w
    · rw [if_pos hb] at h
      injection h with _ h
      subst h
      exact ⟨rfl, rfl, rfl⟩
    · rw [if_neg hb] at h
      rcases pop_cases vm.stack with ⟨e2, hp⟩ | hp | ⟨h0, h1, hp⟩
      · rw [hp] at h
        injection h with _ h
        subst h
        exact ⟨rfl, rfl, rfl⟩
      · rw [hp] at h
        cases h
      · rw [hp] at h
        cases h

theorem op_load_effect (vm v : VM) (h : op_load vm = Step.ok v) : ok_effect vm v := by
  unfold op_load at h
  dsimp only at h
  cases hw : vm.opcodes[u32_add vm.ip 1]? with
  | none =>
    rw [hw] at h
    cases h
  | some off =>
    rw [hw] at h
    dsimp only at h
    by_cases hb : 0 ≤ local_index vm.fp off ∧ local_index vm.fp off < vm.stack.size
    · rw [if_pos hb] at h
      rcases push_cases vm.stack (vm.stack.stack (local_index vm.fp off)) with hq | ⟨c0, c1, hq⟩
      · rw [hq] at h
        cases h
      · rw [hq] at h
        injection h with h
        subst h
        refine ⟨rfl, rfl, rfl, rfl, fun _ => ⟨?_, ?_⟩⟩
        · show (0 : Int) ≤ vm.stack.top + 1
          omega
        · show vm.stack.top + 1 ≤ vm.stack.size
          omega
    · rw [if_neg hb] at h
      cases h

theorem op_load_fatal (vm v : VM) (e : Fatal) (h : op_load vm = Step.fatal e v) :
    fatal_effect vm v := by
  unfold op_load at h
  dsimp only at h
  cases hw : vm.opcodes[u32_add vm.ip 1]? with
  | none =>
    rw [hw] at h
    cases h
  | some off =>
    rw [hw] at h
    dsimp only at h
    by_cases hb : 0 ≤ local_index vm.fp off ∧ local_index vm.fp off < vm.stack.size
    · rw [if_pos hb] at h
      rcases push_cases vm.stack (vm.stack.stack (local_index vm.fp off)) with hq | ⟨c0, c1, hq⟩
      · rw [hq] at h
        cases h
      · rw [hq] at h
        cases h
    · rw [if_neg hb] at h
      cases h

theorem op_store_effect (vm v : VM) (h : op_store vm = Step.ok v) : ok_effect vm v := by
  unfold op_store at h
  dsimp only at h
  cases hw : vm.opcodes[u32_add vm.ip 1]? with
  | none =>
    rw [hw] at h
    cases h
  | some off =>
    rw [hw] at h
    dsimp only at h
    rcases pop_cases vm.stack with ⟨e, hp⟩ | hp | ⟨h0, h1, hp⟩
    · rw [hp] at h
      cases h
    · rw [hp] at h
      cases h
    · rw [hp] at h
      dsimp only at h
      by_cases hb : 0 ≤ local_index vm.fp off ∧ local_index vm.fp off < vm.stack.size
      · rw [if_pos hb] at h
        injection h with h
        subst h
        refine ⟨rfl, rfl, rfl, rfl, fun _ => ⟨?_, ?_⟩⟩
        · show (0 : Int) ≤ vm.stack.top - 1
          omega
        · show vm.stack.top - 1 ≤ vm.stack.size
          omega
      · rw [if_neg hb] at h
        cases h

theorem op_store_fatal (vm v : VM) (e : Fatal) (h : op_store vm = Step.fatal e v) :
    fatal_effect vm v := by
  unfold op_store at h
  dsimp only at h
  cases hw : vm.opcodes[u32_add vm.ip 1]? with
  | none =>
    rw [hw] at h
    cases h
  | some off =>
    rw [hw] at h
    dsimp only at h
    rcases pop_cases vm.stack with ⟨e2, hp⟩ | hp | ⟨h0, h1, hp⟩
    · rw [hp] at h
      injection h with _ h
      subst h
      exact ⟨rfl, rfl, rfl⟩
    · rw [hp] at h
      cases h
    · rw [hp] at h
      dsimp only at h
      by_cases hb : 0 ≤ local_index vm.fp off ∧ local_index vm.fp off < vm.stack.size
      · rw [if_pos hb] at h
        cases h
      · rw [if_neg hb] at h
        cases h

theorem op_call_effect (vm v : VM) (h : op_call vm = Step.ok v) : ok_effect vm v := by
  unfold op_call at h
  dsimp only at h
  cases hw1 : vm.opcodes[u32_add vm.ip 1]? with
  | none =>
    rw [hw1] at h
    cases h
  | some w1 =>
    rw [hw1] at h
    dsimp only at h
    cases hw2 : vm.opcodes[u32_add (u32_add vm.ip 1) 1]? with
    | none =>
      rw [hw2] at h
      cases h
    | some w2 =>
      rw [hw2] at h
      dsimp only at h
      cases hq1 : vm_push_stack vm.stack { Object.indeterminate with i32 := some w2 } with
      | fatal e =>
        rw [hq1] at h
        cases h
      | undefined =>
        rw [hq1] at h
        cases h
      | ok q1 =>
        obtain ⟨t1, st1⟩ := q1
        rw [hq1] at h
        dsimp only at h
        obtain ⟨a0, a1, hst1⟩ := vm_push_stack_inv _ _ _ _ hq1
        cases hq2 : vm_push_stack st1 (obj_push vm.fp) with
        | fatal e =>
          rw [hq2] at h
          cases h
        | undefined =>
          rw [hq2] at h
          cases h
        | ok q2 =>
          obtain ⟨t2, st2⟩ := q2
          rw [hq2] at h
          dsimp only at h
          obtain ⟨b0, b1, hst2⟩ := vm_push_stack_inv _ _ _ _ hq2
          cases hq3 : vm_push_stack st2 (obj_push (to_int32 (u32_add (u32_add vm.ip 1) 1))) with
          | fatal e =>
            rw [hq3] at h
            cases h
          | undefined =>
            rw [hq3] at h
            cases h
          | ok q3 =>
            obtain ⟨t3, st3⟩ := q3
            rw [hq3] at h
            dsimp only at h
            obtain ⟨c0, c1, hst3⟩ := vm_push_stack_inv _ _ _ _ hq3
            injection h with h
            subst hst1
            subst hst2
            subst hst3
            subst h
            refine ⟨rfl, rfl, rfl, rfl, fun _ => ⟨?_, ?_⟩⟩
            · show (0 : Int) ≤ vm.stack.top + 1 + 1 + 1
              omega
            · show vm.stack.top + 1 + 1 + 1 ≤ vm.stack.size
              have : vm.stack.top + 1 + 1 < vm.stack.size := c1
              omega

theorem op_call_fatal (vm v : VM) (e : Fatal) (h : op_call vm = Step.fatal e v) :
    fatal_effect vm v := by
  unfold op_call at h
  dsimp only at h
  cases hw1 : vm.opcodes[u32_add vm.ip 1]? with
  | none =>
    rw [hw1] at h
    cases h
  | some w1 =>
    rw [hw1] at h
    dsimp only at h
    cases hw2 : vm.opcodes[u32_add (u32_add vm.ip 1) 1]? with
    | none =>
      rw [hw2] at h
      cases h
    | some w2 =>
      rw [hw2] at h
      dsimp only at h
      cases hq1 : vm_push_stack vm.stack { Object.indeterminate with i32 := some w2 } with
      | fatal e2 => exact absurd hq1 (vm_push_stack_not_fatal _ _ _)
      | undefined =>
        rw [hq1] at h
        cases h
      | ok q1 =>
        obtain ⟨t1, st1⟩ := q1
        rw [hq1] at h
        dsimp only at h
        cases hq2 : vm_push_stack st1 (obj_push vm.fp) with
        | fatal e2 => exact absurd hq2 (vm_push_stack_not_fatal _ _ _)
        | undefined =>
          rw [hq2] at h
          cases h
        | ok q2 =>
          obtain ⟨t2, st2⟩ := q2
          rw [hq2] at h
          dsimp only at h
          cases hq3 : vm_push_stack st2 (obj_push (to_int32 (u32_add (u32_add vm.ip 1) 1))) with
          | fatal e2 => exact absurd hq3 (vm_push_stack_not_fatal _ _ _)
          | undefined =>
            rw [hq3] at h
            cases h
          | ok q3 =>
            rw [hq3] at h
            cases h

theorem op_ret_effect (vm v : VM) (h : op_ret vm = Step.ok v) : ok_effect vm v := by
  unfold op_ret at h
  cases hp0 : vm_pop_stack vm.stack with
  | fatal e =>
    rw [hp0] at h
    cases h
  | undefined =>
    rw [hp0] at h
    cases h
  | ok p0 =>
    obtain ⟨ret, st0⟩ := p0
    rw [hp0] at h
    dsimp only at h
    obtain ⟨-, -, -, hst0⟩ := vm_pop_stack_inv _ _ _ hp0
    cases hp1 : vm_pop_stack { st0 with top := vm.fp } with
    | fatal e =>
      rw [hp1] at h
      cases h
    | undefined =>
      rw [hp1] at h
      cases h
    | ok p1 =>
      obtain ⟨o_ip, st2⟩ := p1
      rw [hp1] at h
      dsimp only at h
      obtain ⟨-, -, -, hst2⟩ := vm_pop_stack_inv _ _ _ hp1
      cases hi1 : o_ip.i32 with
      | none =>
        rw [hi1] at h
        cases h
      | some saved_ip =>
        rw [hi1] at h
        dsimp only at h
        cases hp2 : vm_pop_stack st2 with
        | fatal e =>
          rw [hp2] at h
          cases h
        | undefined =>
          rw [hp2] at h
          cases h
        | ok p2 =>
          obtain ⟨o_fp, st3⟩ := p2
          rw [hp2] at h
          dsimp only at h
          obtain ⟨-, -, -, hst3⟩ := vm_pop_stack_inv _ _ _ hp2
          cases hi2 : o_fp.i32 with
          | none =>
            rw [hi2] at h
            cases h
          | some saved_fp =>
            rw [hi2] at h
            dsimp only at h
            cases hp3 : vm_pop_stack st3 with
            | fatal e =>
              rw [hp3] at h
              cases h
            | undefined =>
              rw [hp3] at h
              cases h
            | ok p3 =>
              obtain ⟨o_args, st4⟩ := p3
              rw [hp3] at h
              dsimp only at h
              obtain ⟨-, -, -, hst4⟩ := vm_pop_stack_inv _ _ _ hp3
              cases hi3 : o_args.i32 with
              | none =>
                rw [hi3] at h
                cases h
              | some args =>
                rw [hi3] at h
                dsimp only at h
                cases hq : vm_push_stack { st4 with top := to_int32 (st4.top - args) } ret with
                | fatal e =>
                  rw [hq] at h
                  cases h
                | undefined =>
                  rw [hq] at h
                  cases h
                | ok q =>
                  obtain ⟨t, st6⟩ := q
                  rw [hq] at h
                  dsimp only at h
                  obtain ⟨c0, c1, hst6⟩ := vm_push_stack_inv _ _ _ _ hq
                  injection h with h
                  subst hst6
                  subst h
                  have hsz : st4.size = vm.stack.size := by
                    rw [hst4, hst3, hst2, hst0]
                  refine ⟨rfl, rfl, rfl, hsz, fun _ => ⟨?_, ?_⟩⟩
                  · show (0 : Int) ≤ to_int32 (st4.top - args) + 1
                    have : (0 : Int) ≤ to_int32 (st4.top - args) := c0
                    omega
                  · show to_int32 (st4.top - args) + 1 ≤ st4.size
                    have : to_int32 (st4.top - args) < st4.size := c1
                    omega

theorem op_ret_fatal (vm v : VM) (e : Fatal) (h : op_ret vm = Step.fatal e v) :
    fatal_effect vm v := by
  unfold op_ret at h
  cases hp0 : vm_pop_stack vm.stack with
  | fatal e2 =>
    rw [hp0] at h
    injection h with _ h
    subst h
    exact ⟨rfl, rfl, rfl⟩
  | undefined =>
    rw [hp0] at h
    cases h
  | ok p0 =>
    obtain ⟨ret, st0⟩ := p0
    rw [hp0] at h
    dsimp only at h
    cases hp1 : vm_pop_stack { st0 with top := vm.fp } with
    | fatal e2 =>
      rw [hp1] at h
      injection h with _ h
      subst h
      exact ⟨rfl, rfl, rfl⟩
    | undefined =>
      rw [hp1] at h
      cases h
    | ok p1 =>
      obtain ⟨o_ip, st2⟩ := p1
      rw [hp1] at h
      dsimp only at h
      cases hi1 : o_ip.i32 with
      | none =>
        rw [hi1] at h
        cases h
      | some saved_ip =>
        rw [hi1] at h
        dsimp only at h
        cases hp2 : vm_pop_stack st2 with
        | fatal e2 =>
          rw [hp2] at h
          injection h with _ h
          subst h
          exact ⟨rfl, rfl, rfl⟩
        | undefined =>
          rw [hp2] at h
          cases h
        | ok p2 =>
          obtain ⟨o_fp, st3⟩ := p2
          rw [hp2] at h
          dsimp only at h
          cases hi2 : o_fp.i32 with
          | none =>
            rw [hi2] at h
            cases h
          | some saved_fp =>
            rw [hi2] at h
            dsimp only at h
            cases hp3 : vm_pop_stack st3 with
            | fatal e2 =>
              rw [hp3] at h
              injection h with _ h
              subst h
              exact ⟨rfl, rfl, rfl⟩
            | undefined =>
              rw [hp3] at h
              cases h
            | ok p3 =>
              obtain ⟨o_args, st4⟩ := p3
              rw [hp3] at h
              dsimp only at h
              cases hi3 : o_args.i32 with
              | none =>
                rw [hi3] at h
                cases h
              | some args =>
                rw [hi3] at h
                dsimp only at h
                cases hq : vm_push_stack { st4 with top := to_int32 (st4.top - args) } ret with
                | fatal e2 => exact absurd hq (vm_push_stack_not_fatal _ _ _)
                | undefined =>
                  rw [hq] at h
                  cases h
                | ok q =>
                  rw [hq] at h
                  cases h

theorem op_gstore_effect (vm v : VM) (h : op_gstore vm = Step.ok v) :
    v.opcodes = vm.opcodes ∧ v.data_size = vm.data_size ∧ v.stack.size = vm.stack.size ∧
      (cursor_ok vm.stack → cursor_ok v.stack) := by
  obtain ⟨w, -, -, h0, h1, hv⟩ := op_gstore_inv vm v h
  subst hv
  refine ⟨rfl, rfl, rfl, fun _ => ⟨?_, ?_⟩⟩
  · show (0 : Int) ≤ vm.stack.top - 1
    omega
  · show vm.stack.top - 1 ≤ vm.stack.size
    omega

theorem op_syswrite_effect (m m1 : Machine) (h : op_syswrite m = Step.ok m1) :
    ok_effect m.vm m1.vm := by
  unfold op_syswrite at h
  rcases pop_cases m.vm.stack with ⟨e, hp⟩ | hp | ⟨h0, h1, hp⟩
  · rw [hp] at h
    cases h
  · rw [hp] at h
    cases h
  · rw [hp] at h
    dsimp only at h
    by_cases hb : 0 ≤ (if m.output_index = MAX_OUTPUT then 0 else m.output_index) ∧
        (if m.output_index = MAX_OUTPUT then 0 else m.output_index) < MAX_OUTPUT
    · rw [if_pos hb] at h
      injection h with h
      subst h
      refine ⟨rfl, rfl, rfl, rfl, fun _ => ⟨?_, ?_⟩⟩
      · show (0 : Int) ≤ m.vm.stack.top - 1
        omega
      · show m.vm.stack.top - 1 ≤ m.vm.stack.size
        omega
    · rw [if_neg hb] at h
      cases h

theorem op_syswrite_fatal (m m1 : Machine) (e : Fatal) (h : op_syswrite m = Step.fatal e m1) :
    fatal_effect m.vm m1.vm := by
  unfold op_syswrite at h
  rcases pop_cases m.vm.stack with ⟨e2, hp⟩ | hp | ⟨h0, h1, hp⟩
  · rw [hp] at h
    injection h with _ h
    subst h
    exact ⟨rfl, rfl, rfl⟩
  · rw [hp] at h
    cases h
  · rw [hp] at h
    dsimp only at h
    by_cases hb : 0 ≤ (if m.output_index = MAX_OUTPUT then 0 else m.output_index) ∧
        (if m.output_index = MAX_OUTPUT then 0 else m.output_index) < MAX_OUTPUT
    · rw [if_pos hb] at h
      cases h
    · rw [if_neg hb] at h
      cases h

theorem plain_handlers_effect (h : instruction) (hm : h ∈ plain_handlers) (vm v : VM)
    (hv : h vm = Step.ok v) : ok_effect vm v := by
  simp only [plain_handlers, List.mem_cons, List.mem_singleton, List.not_mem_nil, or_false] at hm
  rcases hm with rfl | rfl | rfl | rfl | rfl | rfl | rfl | rfl | rfl | rfl | rfl | rfl | rfl
    | rfl | rfl | rfl | rfl | rfl | rfl | rfl | rfl | rfl | rfl | rfl | rfl
  · exact op_nop_effect vm v hv
  · exact op_charconst_effect vm v hv
  · exact op_iconst_effect vm v hv
  · exact op_pop_effect vm v hv
  · exact operate_on_operands_effect vm '+' v hv
  · exact operate_on_operands_effect vm '-' v hv
  · exact operate_on_operands_effect vm '*' v hv
  · exact operate_on_operands_effect vm '/' v hv
  · exact operate_on_operands_effect vm '%' v hv
  · exact operate_on_operands_effect vm '=' v hv
  · exact operate_on_operands_effect vm '!' v hv
  · exact operate_on_operands_effect vm '<' v hv
  · exact operate_on_operands_effect vm '>' v hv
  · exact operate_on_operands_effect vm 'g' v hv
  · exact operate_on_operands_effect vm 'l' v hv
  · exact operate_on_operands_effect vm 'a' v hv
  · exact operate_on_operands_effect vm 'o' v hv
  · exact op_gload_effect vm v hv
  · exact op_jmp_effect vm v hv
  · exact op_jmpt_effect vm v hv
  · exact op_jmpn_effect vm v hv
  · exact op_call_effect vm v hv
  · exact op_ret_effect vm v hv
  · exact op_load_effect vm v hv
  · exact op_store_effect vm v hv

theorem plain_handlers_fatal (h : instruction) (hm : h ∈ plain_handlers) (vm v : VM)
    (e : Fatal) (hv : h vm = Step.fatal e v) : fatal_effect vm v := by
  simp only [plain_handlers, List.mem_cons, List.mem_singleton, List.not_mem_nil, or_false] at hm
  rcases hm with rfl | rfl | rfl | rfl | rfl | rfl | rfl | rfl | rfl | rfl | rfl | rfl | rfl
    | rfl | rfl | rfl | rfl | rfl | rfl | rfl | rfl | rfl | rfl | rfl | rfl
  · exact op_nop_fatal vm v e hv
  · exact op_charconst_fatal vm v e hv
  · exact op_iconst_fatal vm v e hv
  · exact op_pop_fatal vm v e hv
  · exact operate_on_operands_fatal vm '+' v e hv
  · exact operate_on_operands_fatal vm '-' v e hv
  · exact operate_on_operands_fatal vm '*' v e hv
  · exact operate_on_operands_fatal vm '/' v e hv
  · exact operate_on_operands_fatal vm '%' v e hv
  · exact operate_on_operands_fatal vm '=' v e hv
  · exact operate_on_operands_fatal vm '!' v e hv
  · exact operate_on_operands_fatal vm '<' v e hv
  · exact operate_on_operands_fatal vm '>' v e hv
  · exact operate_on_operands_fatal vm 'g' v e hv
  · exact operate_on_operands_fatal vm 'l' v e hv
  · exact operate_on_operands_fatal vm 'a' v e hv
  · exact operate_on_operands_fatal vm 'o' v e hv
  · exact op_gload_fatal vm v e hv
  · exact op_jmp_fatal vm v e hv
  · exact op_jmpt_fatal vm v e hv
  · exact op_jmpn_fatal vm v e hv
  · exact op_call_fatal vm v e hv
  · exact op_ret_fatal vm v e hv
  · exact op_load_fatal vm v e hv
  · exact op_store_fatal vm v e hv

theorem init_vm_entries (n : Nat) :
    (∃ h, h ∈ plain_handlers ∧ init_vm n = on_vm h) ∨ init_vm n = op_syswrite ∨
      (n = GSTORE ∧ init_vm n = on_vm op_gstore) := by
  by_cases h27 : n < 27
  · interval_cases n
    all_goals first
      | exact Or.inr (Or.inl rfl)
      | exact Or.inr (Or.inr ⟨rfl, rfl⟩)
      | exact Or.inl ⟨_, by simp [plain_handlers], rfl⟩
      | exact Or.inl ⟨op_nop, by simp [plain_handlers], rfl⟩
  · exact Or.inl ⟨op_nop, by simp [plain_handlers], init_vm_unregistered n (by omega)⟩

theorem on_vm_ok_inv (h : instruction) (m m1 : Machine) (e : on_vm h m = Step.ok m1) :
    h m.vm = Step.ok m1.vm := by
  unfold on_vm at e
  cases hh : h m.vm with
  | ok vm =>
    rw [hh] at e
    injection e with e
    subst e
    rfl
  | fatal e2 vm =>
    rw [hh] at e
    cases e
  | undefined =>
    rw [hh] at e
    cases e

theorem on_vm_fatal_inv (h : instruction) (m m1 : Machine) (e2 : Fatal)
    (e : on_vm h m = Step.fatal e2 m1) : h m.vm = Step.fatal e2 m1.vm := by
  unfold on_vm at e
  cases hh : h m.vm with
  | ok vm =>
    rw [hh] at e
    cases e
  | fatal e3 vm =>
    rw [hh] at e
    injection e with e4 e
    subst e
    subst e4
    rfl
  | undefined =>
    rw [hh] at e
    cases e

theorem init_vm_cursor (w : Nat) (m m1 : Machine) (h : init_vm w m = Step.ok m1) :
    m1.vm.stack.size = m.vm.stack.size ∧ (cursor_ok m.vm.stack → cursor_ok m1.vm.stack) := by
  rcases init_vm_entries w with ⟨hd, hmem, ht⟩ | ht | ⟨-, ht⟩
  · rw [ht] at h
    obtain ⟨-, -, -, c, d⟩ := plain_handlers_effect hd hmem _ _ (on_vm_ok_inv _ _ _ h)
    exact ⟨c, d⟩
  · rw [ht] at h
    obtain ⟨-, -, -, c, d⟩ := op_syswrite_effect _ _ h
    exact ⟨c, d⟩
  · rw [ht] at h
    obtain ⟨-, -, c, d⟩ := op_gstore_effect _ _ (on_vm_ok_inv _ _ _ h)
    exact ⟨c, d⟩

theorem step_ok_handler (m m1 : Machine) (hs : step m = some (Step.ok m1)) :
    ∃ w, init_vm w m = Step.ok m1 := by
  unfold step at hs
  cases hw : m.vm.opcodes[m.vm.ip]? with
  | none =>
    rw [hw] at hs
    injection hs with hs
    cases hs
  | some w =>
    rw [hw] at hs
    dsimp only at hs
    by_cases hh : w = (HALT : Int)
    · rw [if_pos hh] at hs
      cases hs
    · rw [if_neg hh] at hs
      injection hs with hs
      unfold dispatch at hs
      by_cases hr : 0 ≤ w ∧ w < 256
      · rw [if_pos hr] at hs
        exact ⟨_, hs⟩
      · rw [if_neg hr] at hs
        cases hs

theorem reachable_cursor (g : Machine) (ds main : Nat) (ops : List Int) (m : Machine)
    (hr : Reachable g ds main ops m) : cursor_ok m.vm.stack ∧ m.vm.stack.size = 1028 := by
  induction hr with
  | init =>
    refine ⟨⟨?_, ?_⟩, rfl⟩
    · show (0 : Int) ≤ 0
      decide
    · show (0 : Int) ≤ 1028
      decide
  | handler m m1 w _ hs ih =>
    obtain ⟨hsz, hc⟩ := init_vm_cursor w m m1 hs
    exact ⟨hc ih.1, hsz.trans ih.2⟩

theorem first_push_handler : init_vm ICONST program_machine = Step.ok first_push_machine := by
  show on_vm op_iconst program_machine = _
  unfold on_vm
  rw [op_iconst_eq program_machine.vm 3 rfl (by decide) (by decide)]
  rfl

theorem reachable_step (g : Machine) (ds main : Nat) (ops : List Int) (m m1 : Machine)
    (hr : Reachable g ds main ops m) (hs : step m = some (Step.ok m1)) :
    Reachable g ds main ops m1 := by
  obtain ⟨w, hw⟩ := step_ok_handler m m1 hs
  exact Reachable.handler m m1 w hr hw

theorem step_undefined_of_handler (m : Machine) (w : Int) (h : instruction)
    (hop : m.vm.opcodes[m.vm.ip]? = some w) (hne : w ≠ HALT) (hr : 0 ≤ w ∧ w < 256)
    (htab : init_vm w.toNat = on_vm h) (hh : h m.vm = Step.undefined) :
    step m = some Step.undefined := by
  simp only [step, hop, hne, if_false, dispatch, hr, and_self, if_true, htab, on_vm, hh]

theorem run_loop_succ_undefined (fuel n : Nat) (m : Machine) (h : step m = some Step.undefined) :
    run_loop (fuel + 1) n m = Run.undefined := by
  simp only [run_loop, h]

theorem op_iconst_overflow (vm : VM) (v : Int) (himm : vm.opcodes[u32_add vm.ip 1]? = some v)
    (h : vm.stack.size ≤ vm.stack.top) : op_iconst vm = Step.undefined := by
  simp only [op_iconst, himm, vm_push_stack_full _ _ h]

theorem op_pop_underflow (vm : VM) (h : vm.stack.top ≤ 0) :
    op_pop vm = Step.fatal Fatal.stack_underflow vm := by
  simp only [op_pop, vm_pop_stack_empty _ h]

theorem op_ret_outside (vm : VM) (sip sfp args : Int)
    (h0 : 0 < vm.stack.top) (h1 : vm.stack.top ≤ vm.stack.size)
    (hf0 : 3 ≤ vm.fp) (hf1 : vm.fp ≤ vm.stack.size)
    (hip : (vm.stack.stack (vm.fp - 1)).i32 = some sip)
    (hfp : (vm.stack.stack (vm.fp - 1 - 1)).i32 = some sfp)
    (hargs : (vm.stack.stack (vm.fp - 1 - 1 - 1)).i32 = some args)
    (hout : ¬ (0 ≤ to_int32 (vm.fp - 1 - 1 - 1 - args) ∧
      to_int32 (vm.fp - 1 - 1 - 1 - args) < vm.stack.size)) :
    op_ret vm = Step.undefined := by
  have a1 : vm.stack.top - 1 < vm.stack.size := by omega
  have c1 : vm.fp > 0 := by omega
  have c2 : vm.fp - 1 < vm.stack.size := by omega
  have c3 : vm.fp - 1 > 0 := by omega
  have c4 : vm.fp - 1 - 1 < vm.stack.size := by omega
  have c5 : vm.fp - 1 - 1 > 0 := by omega
  have c6 : vm.fp - 1 - 1 - 1 < vm.stack.size := by omega
  simp only [op_ret, vm_pop_stack, vm_push_stack, h0, a1, c1, c2, c3, c4, c5, c6, hip, hfp,
    hargs, hout, and_self, if_true, if_false, gt_iff_lt]

theorem pusher_round (k : Nat) (hk : k < 1028) :
    ∃ m, step (pusher_machine k) = some (Step.ok m) ∧
      step m = some (Step.ok (pusher_machine (k + 1))) := by
  have h0 : (0 : Int) ≤ (k : Int) := by omega
  have h1 : (k : Int) < 1028 := by omega
  have s1 : step ⟨⟨⟨(k : Int), 1028, pushed k⟩, fun _ => Object.zero, pusher_loop, 0, 0, 0⟩,
      fun _ => { o := Object.zero, loc := 0 }, 0⟩ = _ := step_iconst 7 rfl rfl h0 h1
  have s2 := @step_jmp ((k : Int) + 1) 1028
    (Function.update (pushed k) (k : Int) { type := some ICONST, i32 := some 7, u8 := none })
    (fun _ => Object.zero) pusher_loop (u32_add 0 2) 0 0
    (fun _ => { o := Object.zero, loc := 0 }) 0 0 rfl rfl
  refine ⟨_, s1, ?_⟩
  rw [s2]
  have e : ((k + 1 : Nat) : Int) = (k : Int) + 1 := by push_cast; rfl
  unfold pusher_machine
  rw [e]
  rfl

theorem pusher_reachable (k : Nat) (hk : k ≤ 1028) :
    Reachable Machine.startup 0 0 pusher_loop (pusher_machine k) := by
  induction k with
  | zero => exact Reachable.init
  | succ k ih =>
    obtain ⟨m, s1, s2⟩ := pusher_round k (by omega)
    exact reachable_step _ _ _ _ _ _ (reachable_step _ _ _ _ _ _ (ih (by omega)) s1) s2

theorem pusher_run (k : Nat) (hk : k ≤ 1028) :
    ∀ f n : Nat, run_loop (2 * k + f) n (pusher_machine 0)
      = run_loop f (n + 2 * k) (pusher_machine k) := by
  induction k with
  | zero =>
    intro f n
    simp
  | succ k ih =>
    intro f n
    obtain ⟨m, s1, s2⟩ := pusher_round k (by omega)
    have e : 2 * (k + 1) + f = 2 * k + (f + 1 + 1) := by omega
    rw [e, ih (by omega) (f + 1 + 1) n, run_loop_succ_ok _ _ _ _ s1, run_loop_succ_ok _ _ _ _ s2]
    have e2 : n + 2 * k + 1 + 1 = n + 2 * (k + 1) := by omega
    rw [e2]

theorem pusher_overflow : step (pusher_machine 1028) = some Step.undefined :=
  step_undefined_of_handler _ ICONST op_iconst rfl (by decide) (by decide) rfl
    (op_iconst_overflow _ 7 rfl (by decide))

theorem ret_args_run (n : Int)
    (hout : ¬ (0 ≤ to_int32 (to_int32 (0 + 1 + 1 + 1) - 1 - 1 - 1 - n) ∧
      to_int32 (to_int32 (0 + 1 + 1 + 1) - 1 - 1 - 1 - n) < 1028)) (k : Nat) :
    run_vm Machine.startup 0 (ret_args n) 0 (3 + k) = Run.undefined := by
  have e : 3 + k = k + 1 + 1 + 1 := by omega
  rw [e]
  show run_loop _ 0 ⟨⟨⟨0, 1028, fun _ => Object.indeterminate⟩, fun _ => Object.zero,
    ret_args n, 0, 0, 0⟩, fun _ => { o := Object.zero, loc := 0 }, 0⟩ = _
  refine (run_loop_succ_ok _ _ _ _ (step_call 3 n rfl rfl rfl (by decide) (by decide))).trans ?_
  refine (run_loop_succ_ok _ _ _ _ (step_iconst 1 rfl rfl (by decide) (by decide))).trans ?_
  refine run_loop_succ_undefined _ _ _ (step_undefined_of_handler _ RET op_ret rfl (by decide)
    (by decide) rfl ?_)
  refine op_ret_outside _ 2 0 n ?_ ?_ ?_ ?_ rfl rfl rfl hout
  · show (0 : Int) < 0 + 1 + 1 + 1 + 1
    decide
  · show (0 : Int) + 1 + 1 + 1 + 1 ≤ 1028
    decide
  · show (3 : Int) ≤ to_int32 (0 + 1 + 1 + 1)
    decide
  · show to_int32 (0 + 1 + 1 + 1) ≤ 1028
    decide

/-- C11 (as amended): in every state reachable from the state in which `run_vm` enters its
loop (the interpreter made by `create_vm`, with the instruction stream assigned) by handlers of
the table that return with every access inside the stack array, the operand stack has
`0 ≤ top ≤ size` and `size` is the capacity 1028 fixed at creation, and every step of the loop
of `run_vm` that returns leads to such a state again. Of the two bounds the code checks the
lower one only: with `top = 0` the handler of `POP` ends the process with the underflow error,
the state unchanged, while with `top = size` the handler of `ICONST` raises no fatal error and
returns no state, it stores outside the array. -/
theorem stack_cursor_invariant (g : Machine) (ds main : Nat) (ops : List Int) (m : Machine)
    (hr : Reachable g ds main ops m) :
    0 ≤ m.vm.stack.top ∧ m.vm.stack.top ≤ m.vm.stack.size ∧ m.vm.stack.size = 1028 ∧
      (∀ m1, step m = some (Step.ok m1) → Reachable g ds main ops m1) ∧
      (m.vm.stack.top = 0 → init_vm POP m = Step.fatal Fatal.stack_underflow m) ∧
      (m.vm.stack.top = m.vm.stack.size → ∀ v, m.vm.opcodes[u32_add m.vm.ip 1]? = some v →
        init_vm ICONST m = Step.undefined) := by
  obtain ⟨⟨h0, h1⟩, hsz⟩ := reachable_cursor g ds main ops m hr
  refine ⟨h0, h1, hsz, fun m1 hs => reachable_step g ds main ops m m1 hr hs, fun ht => ?_,
    fun ht v hv => ?_⟩
  · show on_vm op_pop m = _
    unfold on_vm
    rw [op_pop_underflow m.vm (by omega)]
  · show on_vm op_iconst m = _
    unfold on_vm
    rw [op_iconst_overflow m.vm v hv (by omega)]

/-- The amended invariant at the state of a fresh process after the `ICONST 3` of `program`:
it is reachable and its cursor is 1. -/
theorem stack_cursor_invariant_witness :
    Reachable Machine.startup 0 0 program first_push_machine ∧
      first_push_machine.vm.stack.top = 1 ∧
      (0 ≤ first_push_machine.vm.stack.top ∧
        first_push_machine.vm.stack.top ≤ first_push_machine.vm.stack.size ∧
        first_push_machine.vm.stack.size = 1028 ∧
        (∀ m1, step first_push_machine = some (Step.ok m1) →
          Reachable Machine.startup 0 0 program m1) ∧
        (first_push_machine.vm.stack.top = 0 →
          init_vm POP first_push_machine
            = Step.fatal Fatal.stack_underflow first_push_machine) ∧
        (first_push_machine.vm.stack.top = first_push_machine.vm.stack.size →
          ∀ v, first_push_machine.vm.opcodes[u32_add first_push_machine.vm.ip 1]? = some v →
            init_vm ICONST first_push_machine = Step.undefined)) :=
  ⟨Reachable.handler program_machine first_push_machine ICONST Reachable.init first_push_handler,
    rfl,
    stack_cursor_invariant Machine.startup 0 0 program first_push_machine
      (Reachable.handler program_machine first_push_machine ICONST Reachable.init
        first_push_handler)⟩

/-- C11 fails as stated: the code raises no fatal error where the cursor leaves `0..size`.
`pusher_loop` pushes and jumps back: after 1028 rounds, all without a fatal error, the state
reached has `top = size = 1028` and the next handler, `ICONST 7`, runs `vm_push_stack`, which
stores at index 1028 and increments `top` with no check; the run neither halts nor ends with
a fatal error. Likewise `CALL 3 5` on the empty stack followed by `RET`: `op_ret` subtracts
the 5 declared arguments from `top = 0` and pushes the return value at index -5; with -2000
declared arguments it pushes at index 2000. -/
theorem cursor_bound_unchecked :
    Reachable Machine.startup 0 0 pusher_loop (pusher_machine 1028) ∧
      (pusher_machine 1028).vm.stack.top = (pusher_machine 1028).vm.stack.size ∧
      step (pusher_machine 1028) = some Step.undefined ∧
      (¬ ∃ m1, step (pusher_machine 1028) = some (Step.ok m1)) ∧
      (¬ ∃ e m1, step (pusher_machine 1028) = some (Step.fatal e m1)) ∧
      (∀ k, run_vm Machine.startup 0 pusher_loop 0 (2057 + k) = Run.undefined) ∧
      (∀ k, run_vm Machine.startup 0 (ret_args 5) 0 (3 + k) = Run.undefined) ∧
      (∀ k, run_vm Machine.startup 0 (ret_args (-2000)) 0 (3 + k) = Run.undefined) := by
  refine ⟨pusher_reachable 1028 (le_refl _), rfl, pusher_overflow, ?_, ?_, fun k => ?_,
    fun k => ret_args_run 5 (by decide) k, fun k => ret_args_run (-2000) (by decide) k⟩
  · rintro ⟨m1, h⟩
    rw [pusher_overflow] at h
    cases h
  · rintro ⟨e, m1, h⟩
    rw [pusher_overflow] at h
    cases h
  · have e : 2057 + k = 2 * 1028 + (k + 1) := by omega
    show run_loop (2057 + k) 0 (pusher_machine 0) = _
    rw [e, pusher_run 1028 (le_refl _) (k + 1) 0]
    exact run_loop_succ_undefined _ _ _ pusher_overflow

/-- C20: for every entry `w` of the table and every state: if the handler returns, the
instruction stream and `data_size` are as before; for an entry other than `GSTORE` the whole
data segment is as before; for `GSTORE` with the immediate word `a` the address `a` (as
`uint32_t`) is below `data_size`, the data segment is the old one with the slot at that address
replaced by the value popped, every other slot is as before, and `fp` is as before. If the
handler ends the process with a fatal error, the instruction stream, `data_size` and the whole
data segment are as before at the exit. -/
theorem data_segment_frame (m : Machine) (w : Nat) :
    (∀ m1, init_vm w m = Step.ok m1 →
      m1.vm.opcodes = m.vm.opcodes ∧ m1.vm.data_size = m.vm.data_size ∧
        (w ≠ GSTORE → m1.vm.data = m.vm.data) ∧
        (w = GSTORE → ∃ a, m.vm.opcodes[u32_add m.vm.ip 1]? = some a ∧
          to_uint32 a < m.vm.data_size ∧
          m1.vm.data = Function.update m.vm.data (to_uint32 a)
            (m.vm.stack.stack (m.vm.stack.top - 1)) ∧
          (∀ i, i ≠ to_uint32 a → m1.vm.data i = m.vm.data i) ∧ m1.vm.fp = m.vm.fp)) ∧
      (∀ e m1, init_vm w m = Step.fatal e m1 →
        m1.vm.opcodes = m.vm.opcodes ∧ m1.vm.data_size = m.vm.data_size ∧
          m1.vm.data = m.vm.data) := by
  have hg : init_vm GSTORE = on_vm op_gstore := rfl
  refine ⟨fun m1 h => ?_, fun e m1 h => ?_⟩
  · by_cases hw : w = GSTORE
    · subst hw
      rw [hg] at h
      obtain ⟨a, ha, hlt, -, -, hv⟩ := op_gstore_inv _ _ (on_vm_ok_inv _ _ _ h)
      rw [hv]
      refine ⟨rfl, rfl, fun hne => absurd rfl hne, fun _ => ⟨a, ha, hlt, rfl, fun i hi => ?_, rfl⟩⟩
      show Function.update m.vm.data (to_uint32 a) _ i = _
      rw [Function.update_noteq hi]
    · rcases init_vm_entries w with ⟨hd, hmem, ht⟩ | ht | ⟨hw2, -⟩
      · rw [ht] at h
        obtain ⟨a, b, c, -, -⟩ := plain_handlers_effect hd hmem _ _ (on_vm_ok_inv _ _ _ h)
        exact ⟨a, b, fun _ => c, fun hw3 => absurd hw3 hw⟩
      · rw [ht] at h
        obtain ⟨a, b, c, -, -⟩ := op_syswrite_effect _ _ h
        exact ⟨a, b, fun _ => c, fun hw3 => absurd hw3 hw⟩
      · exact absurd hw2 hw
  · rcases init_vm_entries w with ⟨hd, hmem, ht⟩ | ht | ⟨-, ht⟩
    · rw [ht] at h
      exact plain_handlers_fatal hd hmem _ _ e (on_vm_fatal_inv _ _ _ _ h)
    · rw [ht] at h
      exact op_syswrite_fatal _ _ e h
    · rw [ht] at h
      exact op_gstore_fatal _ _ e (on_vm_fatal_inv _ _ _ _ h)

end PineVM
